import Mathlib

/-!
# Recursive-descent parser of the KPL front end (`parser.c`)

A shallow embedding of `parser.c`: the two-token cursor (`currentToken`,
`lookAhead`), the primitive `eat`, and every grammar production, each under
the name it has in the C source.

* The global cursor of the C program is an explicit `State` that is threaded
  through every production.
* The productions are mutually recursive and loop on the input, so each one
  takes a `fuel` argument that bounds the depth of the calls; a run that
  exhausts it ends in `Result.outOfFuel`, which is different from every
  outcome of the C program.
* The trace calls `assert("...")` only print a message; they are left out.
* `free` only releases memory; it is left out.
-/

namespace KPL

/-! ## Data model -/

/-- Modelled from the spec: the `TokenType` enumeration of `token.h`, which is
not part of the sources. It has the kinds that `parser.c` names, and `TK_EOF`,
the dedicated end marker of the token source. -/
inductive TokenType where
  | TK_IDENT | TK_NUMBER | TK_CHAR | TK_EOF
  | KW_PROGRAM | KW_CONST | KW_TYPE | KW_VAR
  | KW_INTEGER | KW_CHAR | KW_ARRAY | KW_OF
  | KW_FUNCTION | KW_PROCEDURE
  | KW_BEGIN | KW_END | KW_CALL
  | KW_IF | KW_THEN | KW_ELSE
  | KW_WHILE | KW_DO | KW_FOR | KW_TO
  | KW_REPEAT | KW_UNTIL
  | SB_SEMICOLON | SB_COLON | SB_PERIOD | SB_COMMA
  | SB_ASSIGN | SB_EQ | SB_NEQ | SB_LT | SB_LE | SB_GT | SB_GE
  | SB_PLUS | SB_MINUS | SB_TIMES | SB_SLASH
  | SB_LPAR | SB_RPAR | SB_LSEL | SB_RSEL
  deriving DecidableEq, Repr

open TokenType

/-- Modelled from the spec: the `Token` record of `token.h`, which is not part
of the sources: a kind, an optional lexical value and a source position.
`parser.c` reads `tokenType`, `lineNo` and `colNo` only. -/
structure Token where
  tokenType : TokenType
  value : Option String
  lineNo : Int
  colNo : Int
  deriving DecidableEq, Repr

/-- Modelled from the spec: the `ErrorCode` enumeration of `error.h`, which is
not part of the sources; these are the codes that `parser.c` passes to
`error`. -/
inductive ErrorCode where
  | ERR_INVALIDCONSTANT | ERR_INVALIDTYPE | ERR_INVALIDBASICTYPE
  | ERR_INVALIDPARAM | ERR_INVALIDSTATEMENT | ERR_INVALIDARGUMENTS
  | ERR_INVALIDFACTOR
  deriving DecidableEq, Repr

open ErrorCode

/-- An error event, as handed to the reporting collaborator: either
`error(code, line, column)` or `missingToken(expected, line, column)`. -/
inductive ErrorEvent where
  | error (err : ErrorCode) (lineNo colNo : Int)
  | missingToken (tokenType : TokenType) (lineNo colNo : Int)
  deriving DecidableEq, Repr

/-- The line carried by an error event. -/
def ErrorEvent.lineNo : ErrorEvent → Int
  | .error _ l _ => l
  | .missingToken _ l _ => l

/-- The column carried by an error event. -/
def ErrorEvent.colNo : ErrorEvent → Int
  | .error _ _ c => c
  | .missingToken _ _ c => c

/-- Modelled from the spec: the external token source behind `getValidToken`
(`scanner.c`, not part of the sources). It hands out the tokens of `pending`
one by one and, once they are exhausted, the end marker `endMarker` on every
further call. -/
structure TokenSource where
  pending : List Token
  endMarker : Token
  deriving DecidableEq, Repr

/-- Modelled from the spec: `getValidToken` of `scanner.c`: the next token of
the source, and the source after the pull. -/
def getValidToken (src : TokenSource) : Token × TokenSource :=
  match src.pending with
  | [] => (src.endMarker, src)
  | t :: ts => (t, { src with pending := ts })

/-- The state of the parser: the globals `currentToken` (`none` is `NULL`) and
`lookAhead`, the token source, and the transcript written by `printToken`
(the tokens matched so far, oldest first). -/
structure State where
  currentToken : Option Token
  lookAhead : Token
  source : TokenSource
  printed : List Token
  deriving DecidableEq, Repr

/-- The outcome of running a production.

* `ok a s`: the production returned `a` in state `s`;
* `raised e s`: the production called `error` or `missingToken` with the event
  `e` while the state was `s`;
* `outOfFuel`: the bound on the call depth was reached (an artefact of the
  embedding). -/
inductive Result (α : Type) where
  | ok (a : α) (s : State)
  | raised (e : ErrorEvent) (s : State)
  | outOfFuel
  deriving DecidableEq, Repr

/-- A production: a function from the state before to the outcome. -/
def Compile (α : Type) : Type := State → Result α

/-- Run a production from a state. -/
@[reducible] def Compile.run {α : Type} (p : Compile α) (s : State) : Result α := p s

/-- Return without touching the state. -/
def Compile.pure {α : Type} (a : α) : Compile α := fun s => .ok a s

/-- Sequencing of two productions. Modelled from the spec: every raised error
is terminal for the parse, so nothing runs after the first error event
(`error` and `missingToken` of `error.c`, not part of the sources, stop the
pipeline). -/
def Compile.bind {α β : Type} (p : Compile α) (f : α → Compile β) : Compile β :=
  fun s =>
    match p s with
    | .ok a s1 => f a s1
    | .raised e s1 => .raised e s1
    | .outOfFuel => .outOfFuel

instance : Monad Compile where
  pure := Compile.pure
  bind := Compile.bind

/-- The state, read by a production (`lookAhead->...`). -/
def getState : Compile State := fun s => .ok s s

/-- Modelled from the spec: `error(err, lineNo, colNo)` of `error.c`: raises the
error event, which ends the parse. -/
def error {α : Type} (err : ErrorCode) (lineNo colNo : Int) : Compile α :=
  fun s => .raised (.error err lineNo colNo) s

/-- Modelled from the spec: `missingToken(tokenType, lineNo, colNo)` of
`error.c`: raises the missing-token event, which ends the parse. -/
def missingToken {α : Type} (tokenType : TokenType) (lineNo colNo : Int) : Compile α :=
  fun s => .raised (.missingToken tokenType lineNo colNo) s

/-- The bound on the call depth is reached. -/
def outOfFuel {α : Type} : Compile α := fun _ => .outOfFuel

/-- Modelled from the spec: `printToken` of the scanner: appends the token to
the transcript. -/
def printToken (t : Token) : Compile Unit :=
  fun s => .ok () { s with printed := s.printed ++ [t] }

/-! ## Token management -/

/-- The function `scan`: the lookahead becomes the current token and a new
lookahead is pulled from the source. -/
def scan : Compile Unit :=
  fun s =>
    .ok () { s with
      currentToken := some s.lookAhead
      lookAhead := (getValidToken s.source).1
      source := (getValidToken s.source).2 }

/-- The function `eat`. -/
def eat (tokenType : TokenType) : Compile Unit := do
  let s ← getState
  if s.lookAhead.tokenType = tokenType then
    printToken s.lookAhead
    scan
  else
    missingToken tokenType s.lookAhead.lineNo s.lookAhead.colNo

/-! ## Helper functions -/

def isComparisonOperator (type : TokenType) : Bool :=
  type = SB_EQ || type = SB_NEQ ||
  type = SB_LT || type = SB_LE ||
  type = SB_GT || type = SB_GE

def isAddOperator (type : TokenType) : Bool :=
  type = SB_PLUS || type = SB_MINUS

def isMultOperator (type : TokenType) : Bool :=
  type = SB_TIMES || type = SB_SLASH

def isBasicType (type : TokenType) : Bool :=
  type = KW_INTEGER || type = KW_CHAR

def isSubroutineDecl (type : TokenType) : Bool :=
  type = KW_FUNCTION || type = KW_PROCEDURE

/-- The function `eatCommaIdentList`; one unit of fuel per turn of the
`while` loop. -/
def eatCommaIdentList : Nat → Compile Unit
  | 0 => outOfFuel
  | fuel + 1 => do
    let s ← getState
    if s.lookAhead.tokenType = SB_COMMA then
      eat SB_COMMA
      eat TK_IDENT
      eatCommaIdentList fuel

/-! ## Types and constants -/

def compileUnsignedConstant : Compile Unit := do
  let s ← getState
  if s.lookAhead.tokenType = TK_NUMBER ∨ s.lookAhead.tokenType = TK_CHAR then
    eat s.lookAhead.tokenType
  else
    error ERR_INVALIDCONSTANT s.lookAhead.lineNo s.lookAhead.colNo

def compileConstant : Compile Unit := do
  let s ← getState
  if isAddOperator s.lookAhead.tokenType then
    eat s.lookAhead.tokenType
  compileUnsignedConstant

def compileConstant2 : Compile Unit := do
  let s ← getState
  match s.lookAhead.tokenType with
  | TK_IDENT | TK_NUMBER =>
    eat s.lookAhead.tokenType
  | _ =>
    error ERR_INVALIDCONSTANT s.lookAhead.lineNo s.lookAhead.colNo

def compileType : Nat → Compile Unit
  | 0 => outOfFuel
  | fuel + 1 => do
    let s ← getState
    match s.lookAhead.tokenType with
    | KW_INTEGER | KW_CHAR | TK_IDENT =>
      eat s.lookAhead.tokenType
    | KW_ARRAY =>
      eat KW_ARRAY
      eat SB_LSEL
      eat TK_NUMBER
      eat SB_RSEL
      eat KW_OF
      compileType fuel
    | _ =>
      error ERR_INVALIDTYPE s.lookAhead.lineNo s.lookAhead.colNo

def compileBasicType : Compile Unit := do
  let s ← getState
  if isBasicType s.lookAhead.tokenType then
    eat s.lookAhead.tokenType
  else
    error ERR_INVALIDBASICTYPE s.lookAhead.lineNo s.lookAhead.colNo

/-! ## Expressions -/

mutual

def compileArguments : Nat → Compile Unit
  | 0 => outOfFuel
  | fuel + 1 => do
    let s ← getState
    if s.lookAhead.tokenType = SB_LPAR then
      eat SB_LPAR
      compileExpression fuel
      compileArguments2 fuel
      eat SB_RPAR

def compileArguments2 : Nat → Compile Unit
  | 0 => outOfFuel
  | fuel + 1 => do
    let s ← getState
    match s.lookAhead.tokenType with
    | SB_COMMA =>
      eat SB_COMMA
      compileExpression fuel
      compileArguments2 fuel
    | SB_RPAR =>
      pure ()
    | _ =>
      error ERR_INVALIDARGUMENTS s.lookAhead.lineNo s.lookAhead.colNo

def compileExpression : Nat → Compile Unit
  | 0 => outOfFuel
  | fuel + 1 => do
    let s ← getState
    if isAddOperator s.lookAhead.tokenType then
      eat s.lookAhead.tokenType
    compileExpression2 fuel

def compileExpression2 : Nat → Compile Unit
  | 0 => outOfFuel
  | fuel + 1 => do
    compileTerm fuel
    compileExpression3 fuel

def compileExpression3 : Nat → Compile Unit
  | 0 => outOfFuel
  | fuel + 1 => do
    let s ← getState
    if isAddOperator s.lookAhead.tokenType then
      eat s.lookAhead.tokenType
      compileTerm fuel
      compileExpression3 fuel

def compileTerm : Nat → Compile Unit
  | 0 => outOfFuel
  | fuel + 1 => do
    compileFactor fuel
    compileTerm2 fuel

def compileTerm2 : Nat → Compile Unit
  | 0 => outOfFuel
  | fuel + 1 => do
    let s ← getState
    if isMultOperator s.lookAhead.tokenType then
      eat s.lookAhead.tokenType
      compileFactor fuel
      compileTerm2 fuel

def compileFactor : Nat → Compile Unit
  | 0 => outOfFuel
  | fuel + 1 => do
    let s ← getState
    match s.lookAhead.tokenType with
    | TK_NUMBER | TK_CHAR =>
      eat s.lookAhead.tokenType
    | TK_IDENT =>
      eat TK_IDENT
      let s ← getState
      if s.lookAhead.tokenType = SB_LSEL then
        compileIndexes fuel
      else if s.lookAhead.tokenType = SB_LPAR then
        compileArguments fuel
    | SB_LPAR =>
      eat SB_LPAR
      compileExpression fuel
      eat SB_RPAR
    | _ =>
      error ERR_INVALIDFACTOR s.lookAhead.lineNo s.lookAhead.colNo

def compileIndexes : Nat → Compile Unit
  | 0 => outOfFuel
  | fuel + 1 => do
    let s ← getState
    if s.lookAhead.tokenType = SB_LSEL then
      eat SB_LSEL
      compileExpression fuel
      eat SB_RSEL
      compileIndexes fuel

end

/-! ## Conditions -/

def compileCondition2 (fuel : Nat) : Compile Unit := do
  let s ← getState
  if isComparisonOperator s.lookAhead.tokenType then
    eat s.lookAhead.tokenType
    compileExpression fuel

def compileCondition (fuel : Nat) : Compile Unit := do
  compileExpression fuel
  compileCondition2 fuel

/-! ## Declarations -/

def compileConstDecl (fuel : Nat) : Compile Unit := do
  eat TK_IDENT
  eatCommaIdentList fuel
  eat SB_EQ
  compileConstant
  eat SB_SEMICOLON

def compileConstDecls : Nat → Compile Unit
  | 0 => outOfFuel
  | fuel + 1 => do
    let s ← getState
    if s.lookAhead.tokenType = TK_IDENT then
      compileConstDecl fuel
      compileConstDecls fuel

def compileTypeDecl (fuel : Nat) : Compile Unit := do
  eat TK_IDENT
  eatCommaIdentList fuel
  eat SB_EQ
  compileType fuel
  eat SB_SEMICOLON

def compileTypeDecls : Nat → Compile Unit
  | 0 => outOfFuel
  | fuel + 1 => do
    let s ← getState
    if s.lookAhead.tokenType = TK_IDENT then
      compileTypeDecl fuel
      compileTypeDecls fuel

def compileVarDecl (fuel : Nat) : Compile Unit := do
  eat TK_IDENT
  eatCommaIdentList fuel
  eat SB_COLON
  compileType fuel
  eat SB_SEMICOLON

def compileVarDecls : Nat → Compile Unit
  | 0 => outOfFuel
  | fuel + 1 => do
    let s ← getState
    if s.lookAhead.tokenType = TK_IDENT then
      compileVarDecl fuel
      compileVarDecls fuel

/-! ## Parameters -/

def compileParam : Compile Unit := do
  let s ← getState
  if s.lookAhead.tokenType = KW_VAR then
    eat KW_VAR
  let s ← getState
  if s.lookAhead.tokenType = TK_IDENT then
    eat TK_IDENT
    eat SB_COLON
    compileBasicType
  else
    error ERR_INVALIDPARAM s.lookAhead.lineNo s.lookAhead.colNo

def compileParams2 : Nat → Compile Unit
  | 0 => outOfFuel
  | fuel + 1 => do
    let s ← getState
    if s.lookAhead.tokenType = SB_SEMICOLON then
      eat SB_SEMICOLON
      compileParam
      compileParams2 fuel

def compileParams (fuel : Nat) : Compile Unit := do
  let s ← getState
  if s.lookAhead.tokenType = SB_LPAR then
    eat SB_LPAR
    compileParam
    compileParams2 fuel
    eat SB_RPAR

/-! ## Statements -/

/-- The first `while` loop of `compileAssignSt`: the further targets, counted
in `countVariables`; one unit of fuel per turn. -/
def compileAssignStVariables : Nat → Nat → Compile Nat
  | 0, _ => outOfFuel
  | fuel + 1, countVariables => do
    let s ← getState
    if s.lookAhead.tokenType = SB_COMMA then
      eat SB_COMMA
      eat TK_IDENT
      compileAssignStVariables fuel (countVariables + 1)
    else
      pure countVariables

/-- The second `while` loop of `compileAssignSt`: the further expressions,
counted in `countExpression`; one unit of fuel per turn. -/
def compileAssignStExpressions : Nat → Nat → Compile Nat
  | 0, _ => outOfFuel
  | fuel + 1, countExpression => do
    let s ← getState
    if s.lookAhead.tokenType = SB_COMMA then
      eat SB_COMMA
      compileExpression fuel
      compileAssignStExpressions fuel (countExpression + 1)
    else
      pure countExpression

/-- The function `compileAssignSt`. The two counters are C `int`s; they are
natural numbers here (no input of fewer than 2^31 tokens makes them wrap). -/
def compileAssignSt (fuel : Nat) : Compile Unit := do
  eat TK_IDENT
  let countVariables := 1
  let countExpression := 0
  let s ← getState
  if s.lookAhead.tokenType = SB_LSEL then
    compileIndexes fuel
  let countVariables ← compileAssignStVariables fuel countVariables
  eat SB_ASSIGN
  compileExpression fuel
  let countExpression := countExpression + 1
  let countExpression ← compileAssignStExpressions fuel countExpression
  if countExpression ≠ countVariables then
    let s ← getState
    error ERR_INVALIDSTATEMENT s.lookAhead.lineNo s.lookAhead.colNo

def compileCallSt (fuel : Nat) : Compile Unit := do
  eat KW_CALL
  eat TK_IDENT
  compileArguments fuel

mutual

def compileStatements : Nat → Compile Unit
  | 0 => outOfFuel
  | fuel + 1 => do
    compileStatement fuel
    compileStatements2 fuel

def compileStatements2 : Nat → Compile Unit
  | 0 => outOfFuel
  | fuel + 1 => do
    let s ← getState
    match s.lookAhead.tokenType with
    | SB_SEMICOLON =>
      eat SB_SEMICOLON
      compileStatement fuel
      compileStatements2 fuel
    | KW_END | KW_UNTIL =>
      pure ()
    | _ =>
      eat SB_SEMICOLON
      let s ← getState
      error ERR_INVALIDSTATEMENT s.lookAhead.lineNo s.lookAhead.colNo

def compileStatement : Nat → Compile Unit
  | 0 => outOfFuel
  | fuel + 1 => do
    let s ← getState
    match s.lookAhead.tokenType with
    | TK_IDENT => compileAssignSt fuel
    | KW_CALL => compileCallSt fuel
    | KW_BEGIN => compileGroupSt fuel
    | KW_IF => compileIfSt fuel
    | KW_WHILE => compileWhileSt fuel
    | KW_FOR => compileForSt fuel
    | KW_REPEAT => compileRepeatSt fuel
    | SB_SEMICOLON | KW_END | KW_ELSE | KW_UNTIL =>
      pure ()
    | _ =>
      error ERR_INVALIDSTATEMENT s.lookAhead.lineNo s.lookAhead.colNo

def compileGroupSt : Nat → Compile Unit
  | 0 => outOfFuel
  | fuel + 1 => do
    eat KW_BEGIN
    compileStatements fuel
    eat KW_END

def compileIfSt : Nat → Compile Unit
  | 0 => outOfFuel
  | fuel + 1 => do
    eat KW_IF
    compileCondition fuel
    eat KW_THEN
    compileStatement fuel
    let s ← getState
    if s.lookAhead.tokenType = KW_ELSE then
      compileElseSt fuel

def compileElseSt : Nat → Compile Unit
  | 0 => outOfFuel
  | fuel + 1 => do
    eat KW_ELSE
    compileStatement fuel

def compileWhileSt : Nat → Compile Unit
  | 0 => outOfFuel
  | fuel + 1 => do
    eat KW_WHILE
    compileCondition fuel
    eat KW_DO
    compileStatement fuel

def compileForSt : Nat → Compile Unit
  | 0 => outOfFuel
  | fuel + 1 => do
    eat KW_FOR
    eat TK_IDENT
    eat SB_ASSIGN
    compileExpression fuel
    eat KW_TO
    compileExpression fuel
    eat KW_DO
    compileStatement fuel

def compileRepeatSt : Nat → Compile Unit
  | 0 => outOfFuel
  | fuel + 1 => do
    eat KW_REPEAT
    compileStatements fuel
    eat KW_UNTIL
    compileCondition fuel

end

/-! ## Program and blocks -/

def compileBlock5 (fuel : Nat) : Compile Unit := do
  eat KW_BEGIN
  compileStatements fuel
  eat KW_END

mutual

def compileBlock : Nat → Compile Unit
  | 0 => outOfFuel
  | fuel + 1 => do
    let s ← getState
    if s.lookAhead.tokenType = KW_CONST then
      eat KW_CONST
      compileConstDecl fuel
      compileConstDecls fuel
    compileBlock2 fuel

def compileBlock2 : Nat → Compile Unit
  | 0 => outOfFuel
  | fuel + 1 => do
    let s ← getState
    if s.lookAhead.tokenType = KW_TYPE then
      eat KW_TYPE
      compileTypeDecl fuel
      compileTypeDecls fuel
    compileBlock3 fuel

def compileBlock3 : Nat → Compile Unit
  | 0 => outOfFuel
  | fuel + 1 => do
    let s ← getState
    if s.lookAhead.tokenType = KW_VAR then
      eat KW_VAR
      compileVarDecl fuel
      compileVarDecls fuel
    compileBlock4 fuel

def compileBlock4 : Nat → Compile Unit
  | 0 => outOfFuel
  | fuel + 1 => do
    compileSubDecls fuel
    compileBlock5 fuel

/-- The function `compileSubDecls`; each turn of its `while` loop is one
recursive call. -/
def compileSubDecls : Nat → Compile Unit
  | 0 => outOfFuel
  | fuel + 1 => do
    let s ← getState
    if isSubroutineDecl s.lookAhead.tokenType then
      if s.lookAhead.tokenType = KW_FUNCTION then
        compileFuncDecl fuel
      else
        compileProcDecl fuel
      compileSubDecls fuel

def compileFuncDecl : Nat → Compile Unit
  | 0 => outOfFuel
  | fuel + 1 => do
    eat KW_FUNCTION
    eat TK_IDENT
    compileParams fuel
    eat SB_COLON
    compileBasicType
    eat SB_SEMICOLON
    compileBlock fuel
    eat SB_SEMICOLON

def compileProcDecl : Nat → Compile Unit
  | 0 => outOfFuel
  | fuel + 1 => do
    eat KW_PROCEDURE
    eat TK_IDENT
    compileParams fuel
    eat SB_SEMICOLON
    compileBlock fuel
    eat SB_SEMICOLON

end

def compileProgram (fuel : Nat) : Compile Unit := do
  eat KW_PROGRAM
  eat TK_IDENT
  eat SB_SEMICOLON
  compileBlock fuel
  eat SB_PERIOD

/-! ## Entry point -/

/-- The cursor as `compile` sets it up before `compileProgram` runs:
`currentToken = NULL` and `lookAhead = getValidToken()`; nothing is printed
yet. -/
def initialState (src : TokenSource) : State :=
  { currentToken := none
    lookAhead := (getValidToken src).1
    source := (getValidToken src).2
    printed := [] }

/-- What `compile` returns: `IO_ERROR` when the input cannot be opened, and
otherwise `IO_SUCCESS`, here together with the outcome of the parse. -/
inductive CompileStatus where
  | IO_ERROR
  | IO_SUCCESS (r : Result Unit)

/-- The function `compile`. The outcome of `openInputStream` is the argument
`stream`: `none` is `IO_ERROR`, `some src` is the token source of the opened
file. -/
def compile (fuel : Nat) (stream : Option TokenSource) : CompileStatus :=
  match stream with
  | none => .IO_ERROR
  | some src => .IO_SUCCESS (compileProgram fuel (initialState src))

/-! ## Vocabulary of the properties -/

/-- The state after the lookahead has been matched by `eat`: the token is
printed, it becomes the current token, and the next token of the source is the
new lookahead. -/
def State.advance (s : State) : State :=
  { currentToken := some s.lookAhead
    lookAhead := (getValidToken s.source).1
    source := (getValidToken s.source).2
    printed := s.printed ++ [s.lookAhead] }

/-- The state after `n` tokens have been matched. -/
def State.skip : Nat → State → State
  | 0, s => s
  | n + 1, s => State.skip n s.advance

/-- The next `n` tokens that the parser sees from state `s`: the lookahead,
then the tokens of the source, then the end marker for ever. -/
def State.upcoming (s : State) (n : Nat) : List Token :=
  ((s.lookAhead :: s.source.pending) ++ List.replicate n s.source.endMarker).take n

/-- The token at distance `k` from the lookahead (`peek 0` is the lookahead
itself). -/
def State.peek (s : State) (k : Nat) : Token :=
  (s.lookAhead :: s.source.pending).getD k s.source.endMarker

/-- The kinds of `n` repetitions of `array [ number ] of`, followed by the
kind `b`. -/
def arrayChain (n : Nat) (b : TokenType) : List TokenType :=
  (List.replicate n [KW_ARRAY, SB_LSEL, TK_NUMBER, SB_RSEL, KW_OF]).flatten ++ [b]

/-- The tokens of `call foo(1,2`, with the end marker of the source. -/
def unclosedCall : TokenSource :=
  { pending :=
      [⟨KW_CALL, none, 1, 1⟩, ⟨TK_IDENT, some "foo", 1, 6⟩, ⟨SB_LPAR, none, 1, 9⟩,
       ⟨TK_NUMBER, some "1", 1, 10⟩, ⟨SB_COMMA, none, 1, 11⟩, ⟨TK_NUMBER, some "2", 1, 12⟩]
    endMarker := ⟨TK_EOF, none, 1, 13⟩ }

/-- A statement list stopped by a number literal: the state in which
`compileStatements2` runs after `x := 1` when `2` follows. -/
def strayNumber : State :=
  { currentToken := some ⟨TK_NUMBER, some "1", 2, 8⟩
    lookAhead := ⟨TK_NUMBER, some "2", 2, 10⟩
    source := ⟨[⟨KW_END, none, 3, 1⟩, ⟨SB_PERIOD, none, 3, 4⟩], ⟨TK_EOF, none, 3, 5⟩⟩
    printed := [⟨TK_IDENT, some "x", 2, 3⟩, ⟨SB_ASSIGN, none, 2, 5⟩,
      ⟨TK_NUMBER, some "1", 2, 8⟩] }

/-- The tokens of `program P; begin end` (no final period). -/
def noPeriodProgram : TokenSource :=
  { pending :=
      [⟨KW_PROGRAM, none, 1, 1⟩, ⟨TK_IDENT, some "P", 1, 9⟩, ⟨SB_SEMICOLON, none, 1, 10⟩,
       ⟨KW_BEGIN, none, 2, 1⟩, ⟨KW_END, none, 3, 1⟩]
    endMarker := ⟨TK_EOF, none, 3, 4⟩ }

/-- The tokens of `program P; begin end.` -/
def minimalProgram : TokenSource :=
  { pending :=
      [⟨KW_PROGRAM, none, 1, 1⟩, ⟨TK_IDENT, some "P", 1, 9⟩, ⟨SB_SEMICOLON, none, 1, 10⟩,
       ⟨KW_BEGIN, none, 2, 1⟩, ⟨KW_END, none, 3, 1⟩, ⟨SB_PERIOD, none, 3, 4⟩]
    endMarker := ⟨TK_EOF, none, 3, 5⟩ }

/-- The state before the type of `a : array [3] of array [4] of integer;`. -/
def nestedArrayType : State :=
  { currentToken := some ⟨SB_COLON, none, 1, 3⟩
    lookAhead := ⟨KW_ARRAY, none, 1, 5⟩
    source :=
      ⟨[⟨SB_LSEL, none, 1, 11⟩, ⟨TK_NUMBER, some "3", 1, 12⟩, ⟨SB_RSEL, none, 1, 13⟩,
        ⟨KW_OF, none, 1, 15⟩, ⟨KW_ARRAY, none, 1, 18⟩, ⟨SB_LSEL, none, 1, 24⟩,
        ⟨TK_NUMBER, some "4", 1, 25⟩, ⟨SB_RSEL, none, 1, 26⟩, ⟨KW_OF, none, 1, 28⟩,
        ⟨KW_INTEGER, none, 1, 31⟩, ⟨SB_SEMICOLON, none, 1, 41⟩, ⟨KW_BEGIN, none, 2, 1⟩],
        ⟨TK_EOF, none, 3, 1⟩⟩
    printed := [⟨TK_IDENT, some "a", 1, 1⟩, ⟨SB_COLON, none, 1, 3⟩] }

/-- The outcome `r` of a run from state `s` keeps track of the input: the
state of the outcome is `s` after some number `k` of matched tokens, and an
error event carries the line and column of the lookahead of the state in which
it is raised. -/
def Result.Tracks {α : Type} (s : State) : Result α → Prop
  | .ok _ s1 => ∃ k, s1 = s.skip k
  | .raised e s1 =>
    (∃ k, s1 = s.skip k) ∧ e.lineNo = s1.lookAhead.lineNo ∧ e.colNo = s1.lookAhead.colNo
  | .outOfFuel => True

/-- The production `p` keeps track of the input when it is run from `s`. -/
def Compile.TracksAt {α : Type} (s : State) (p : Compile α) : Prop :=
  (p s).Tracks s

/-- The production `q` extends `p` at `s`: unless `p` runs out of fuel from
`s`, `q` has the outcome of `p`. -/
def Compile.ExtendsAt {α : Type} (s : State) (p q : Compile α) : Prop :=
  p s ≠ .outOfFuel → q s = p s

/-- The kinds of `n` identifiers separated by commas (`n` at least 1). -/
def targetKinds (n : Nat) : List TokenType :=
  TK_IDENT :: (List.replicate (n - 1) [SB_COMMA, TK_IDENT]).flatten

/-- The relation `ExpressionList s m s2`: from state `s` the parser reads `m`
expressions separated by commas and followed by a token that is no comma, and
`s2` is the state after the last of them. Each of the expressions is a run of
`compileExpression` that, given enough fuel, returns without an error. -/
inductive ExpressionList : State → Nat → State → Prop where
  | last (s s1 : State) :
      (∃ fuel, compileExpression fuel s = .ok () s1) →
      s1.lookAhead.tokenType ≠ SB_COMMA →
      ExpressionList s 1 s1
  | cons (s s1 s2 : State) (m : Nat) :
      (∃ fuel, compileExpression fuel s = .ok () s1) →
      s1.lookAhead.tokenType = SB_COMMA →
      ExpressionList s1.advance m s2 →
      ExpressionList s (m + 1) s2

/-- The tokens of `program P; begin x := 1 end.` -/
def singleAssignProgram : TokenSource :=
  { pending :=
      [⟨KW_PROGRAM, none, 1, 1⟩, ⟨TK_IDENT, some "P", 1, 9⟩, ⟨SB_SEMICOLON, none, 1, 10⟩,
       ⟨KW_BEGIN, none, 2, 1⟩, ⟨TK_IDENT, some "x", 2, 7⟩, ⟨SB_ASSIGN, none, 2, 9⟩,
       ⟨TK_NUMBER, some "1", 2, 12⟩, ⟨KW_END, none, 3, 1⟩, ⟨SB_PERIOD, none, 3, 4⟩]
    endMarker := ⟨TK_EOF, none, 3, 5⟩ }

/-- The state after the optional sign of a constant: the sign, when the
lookahead is `+` or `-`, has been matched. -/
def afterSign (s : State) : State :=
  if isAddOperator s.lookAhead.tokenType then s.advance else s

/-- The state in which a statement starts on the keyword `then`. -/
def strayThen : State :=
  { currentToken := some ⟨KW_BEGIN, none, 2, 1⟩
    lookAhead := ⟨KW_THEN, none, 3, 3⟩
    source := ⟨[⟨KW_END, none, 4, 1⟩, ⟨SB_PERIOD, none, 4, 4⟩], ⟨TK_EOF, none, 4, 5⟩⟩
    printed := [⟨KW_BEGIN, none, 2, 1⟩] }

/-- The tokens of `program P; var a, b : integer; begin end.` -/
def twoVarsProgram : TokenSource :=
  { pending :=
      [⟨KW_PROGRAM, none, 1, 1⟩, ⟨TK_IDENT, some "P", 1, 9⟩, ⟨SB_SEMICOLON, none, 1, 10⟩,
       ⟨KW_VAR, none, 2, 1⟩, ⟨TK_IDENT, some "a", 2, 5⟩, ⟨SB_COMMA, none, 2, 6⟩,
       ⟨TK_IDENT, some "b", 2, 8⟩, ⟨SB_COLON, none, 2, 10⟩, ⟨KW_INTEGER, none, 2, 12⟩,
       ⟨SB_SEMICOLON, none, 2, 19⟩, ⟨KW_BEGIN, none, 3, 1⟩, ⟨KW_END, none, 4, 1⟩,
       ⟨SB_PERIOD, none, 4, 4⟩]
    endMarker := ⟨TK_EOF, none, 4, 5⟩ }

/-- A number or a character literal. -/
def isLiteral (type : TokenType) : Bool :=
  type = TK_NUMBER || type = TK_CHAR

/-- One of the binary operators `+`, `-`, `*`, `/`. -/
def isBinaryOperator (type : TokenType) : Bool :=
  isAddOperator type || isMultOperator type

/-- The kinds of a sequence of pairs `operator literal`. -/
def operatorLiteralPairs : List TokenType → Bool
  | [] => true
  | o :: l :: rest => isBinaryOperator o && isLiteral l && operatorLiteralPairs rest
  | _ => false

/-- The kinds of an operator chain: literals separated by binary operators. -/
def operatorChain : List TokenType → Bool
  | l :: rest => isLiteral l && operatorLiteralPairs rest
  | [] => false

/-- The state before the expression `- 1 * 2 + 3` of an assignment that is
followed by `end`. -/
def signedChain : State :=
  { currentToken := some ⟨SB_ASSIGN, none, 2, 5⟩
    lookAhead := ⟨SB_MINUS, none, 2, 8⟩
    source :=
      ⟨[⟨TK_NUMBER, some "1", 2, 9⟩, ⟨SB_TIMES, none, 2, 11⟩, ⟨TK_NUMBER, some "2", 2, 13⟩,
        ⟨SB_PLUS, none, 2, 15⟩, ⟨TK_NUMBER, some "3", 2, 17⟩, ⟨KW_END, none, 3, 1⟩,
        ⟨SB_PERIOD, none, 3, 4⟩], ⟨TK_EOF, none, 3, 5⟩⟩
    printed := [⟨TK_IDENT, some "x", 2, 3⟩, ⟨SB_ASSIGN, none, 2, 5⟩] }

/-- The `const` section of a block: what `compileBlock` runs when the lookahead
is `const`. -/
def constSection (fuel : Nat) : Compile Unit := do
  eat KW_CONST
  compileConstDecl fuel
  compileConstDecls fuel

/-- The `type` section of a block: what `compileBlock2` runs when the lookahead
is `type`. -/
def typeSection (fuel : Nat) : Compile Unit := do
  eat KW_TYPE
  compileTypeDecl fuel
  compileTypeDecls fuel

/-- The `var` section of a block: what `compileBlock3` runs when the lookahead
is `var`. -/
def varSection (fuel : Nat) : Compile Unit := do
  eat KW_VAR
  compileVarDecl fuel
  compileVarDecls fuel

/-- The relation `OptionalSection keyword sec s s1`: from state `s` the block
has passed its optional section `sec` and is in state `s1`. Either the
lookahead is not `keyword`, the section is absent and `s1` is `s`; or the
lookahead is `keyword` and the section, given enough fuel, is parsed without an
error and ends in `s1`. -/
inductive OptionalSection (keyword : TokenType) (sec : Nat → Compile Unit) :
    State → State → Prop where
  | absent (s : State) : s.lookAhead.tokenType ≠ keyword → OptionalSection keyword sec s s
  | present (s s1 : State) :
      s.lookAhead.tokenType = keyword →
      (∃ fuel, sec fuel s = .ok () s1) →
      OptionalSection keyword sec s s1

/-- The state at the start of a block that reads `var x : integer; const`. -/
def constAfterVar : State :=
  { currentToken := some ⟨SB_SEMICOLON, none, 1, 10⟩
    lookAhead := ⟨KW_VAR, none, 2, 1⟩
    source :=
      ⟨[⟨TK_IDENT, some "x", 2, 5⟩, ⟨SB_COLON, none, 2, 7⟩, ⟨KW_INTEGER, none, 2, 9⟩,
        ⟨SB_SEMICOLON, none, 2, 16⟩, ⟨KW_CONST, none, 3, 1⟩, ⟨TK_IDENT, some "c", 3, 7⟩,
        ⟨SB_EQ, none, 3, 9⟩, ⟨TK_NUMBER, some "1", 3, 11⟩, ⟨SB_SEMICOLON, none, 3, 12⟩,
        ⟨KW_BEGIN, none, 4, 1⟩, ⟨KW_END, none, 5, 1⟩, ⟨SB_PERIOD, none, 5, 4⟩],
        ⟨TK_EOF, none, 5, 5⟩⟩
    printed := [⟨KW_PROGRAM, none, 1, 1⟩, ⟨TK_IDENT, some "P", 1, 9⟩,
      ⟨SB_SEMICOLON, none, 1, 10⟩] }

/-- The number of tokens that are still to be consumed in state `s`: the
tokens that the source has not handed out, and the lookahead unless it is an
end marker. -/
def State.remaining (s : State) : Nat :=
  s.source.pending.length + if s.lookAhead.tokenType = TK_EOF then 0 else 1

/-- The production `p`, run from a state `s` whose source ends in an end
marker, does not run out of fuel when `7 * s.remaining + r ≤ n`. The number `n`
is the fuel of the production calls in `p`, and `r` bounds the depth of the
calls that `p` makes before it consumes a token. -/
structure Compile.HaltsAt {α : Type} (n r : Nat) (s : State) (p : Compile α) : Prop where
  run : s.source.endMarker.tokenType = TK_EOF → 7 * s.remaining + r ≤ n → p s ≠ .outOfFuel

/-- The production `p`, when it returns from `s` without an error, has
consumed at least one token, and the lookahead of `s` was no end marker. -/
def Compile.ConsumesAt {α : Type} (s : State) (p : Compile α) : Prop :=
  ∀ a s1, p s = .ok a s1 → s.lookAhead.tokenType ≠ TK_EOF ∧ ∃ k, s1 = s.skip (k + 1)

/-- The outcome `rt` of a run from state `t` repeats the outcome `rs` of the
same production from state `s`: when `rs` ended after `j` matched tokens and `t`
has the same `j + 1` next tokens as `s` (those matched, and the lookahead on
which the production stopped), `rt` is the same outcome, `j` tokens further in
`t`. -/
def Result.LocalTo {α : Type} (s t : State) (rs rt : Result α) : Prop :=
  match rs with
  | .ok a s1 =>
    ∃ j, s1 = s.skip j ∧ (s.upcoming (j + 1) = t.upcoming (j + 1) → rt = .ok a (t.skip j))
  | .raised e s1 =>
    ∃ j, s1 = s.skip j ∧ (s.upcoming (j + 1) = t.upcoming (j + 1) → rt = .raised e (t.skip j))
  | .outOfFuel => True

/-- The production `p` looks at the tokens it matches and at the lookahead on
which it stops, and at nothing else: its run from `t` repeats its run from
`s`. -/
structure Compile.LocalAt {α : Type} (s t : State) (p : Compile α) : Prop where
  run : (p s).LocalTo s t (p t)

/-- The tokens of `program P; begin end.` followed by further tokens:
`begin 7 .`, and an end marker at another place. -/
def minimalProgramThenMore : TokenSource :=
  { pending :=
      [⟨KW_PROGRAM, none, 1, 1⟩, ⟨TK_IDENT, some "P", 1, 9⟩, ⟨SB_SEMICOLON, none, 1, 10⟩,
       ⟨KW_BEGIN, none, 2, 1⟩, ⟨KW_END, none, 3, 1⟩, ⟨SB_PERIOD, none, 3, 4⟩,
       ⟨KW_BEGIN, none, 4, 1⟩, ⟨TK_NUMBER, some "7", 4, 7⟩, ⟨SB_PERIOD, none, 4, 8⟩]
    endMarker := ⟨TK_EOF, none, 4, 9⟩ }

/-- The nonterminals of the expression grammar of the specification (section
4.2): Expression, Term, Factor, Indexes and Arguments, and the three
repetitions that the grammar writes with a star: `((+|-) Term)*`,
`((*|/) Factor)*` and `(, Expression)*`. -/
inductive Nonterminal where
  | expression | expressionRest | term | termRest | factor | indexes
  | arguments | argumentsRest
  deriving DecidableEq, Repr

/-- The expression grammar, written from the words of the specification
(section 4.2) and not from `parser.c`: `Derives X ks` says that the token kinds
`ks` are a sentence of the nonterminal `X`.

* Expression → [`+`|`-`]? Term ((`+`|`-`) Term)*
* Term → Factor ((`*`|`/`) Factor)*
* Factor → number | char-literal | identifier [Indexes | Arguments]? |
  `(` Expression `)`
* Indexes → (`[` Expression `]`)*
* Arguments → `(` Expression (`,` Expression)* `)` -/
inductive Derives : Nonterminal → List TokenType → Prop where
  | number : Derives .factor [TK_NUMBER]
  | char : Derives .factor [TK_CHAR]
  | indexed {ks : List TokenType} :
      Derives .indexes ks → Derives .factor (TK_IDENT :: ks)
  | call {ks : List TokenType} :
      Derives .arguments ks → Derives .factor (TK_IDENT :: ks)
  | paren {ks : List TokenType} :
      Derives .expression ks → Derives .factor (SB_LPAR :: ks ++ [SB_RPAR])
  | indexesNil : Derives .indexes []
  | indexesCons {e r : List TokenType} :
      Derives .expression e → Derives .indexes r →
      Derives .indexes (SB_LSEL :: e ++ SB_RSEL :: r)
  | arguments {e r : List TokenType} :
      Derives .expression e → Derives .argumentsRest r →
      Derives .arguments (SB_LPAR :: e ++ r ++ [SB_RPAR])
  | argumentsRestNil : Derives .argumentsRest []
  | argumentsRestCons {e r : List TokenType} :
      Derives .expression e → Derives .argumentsRest r →
      Derives .argumentsRest (SB_COMMA :: e ++ r)
  | term {f r : List TokenType} :
      Derives .factor f → Derives .termRest r → Derives .term (f ++ r)
  | termRestNil : Derives .termRest []
  | termRestCons {o : TokenType} {f r : List TokenType} :
      isMultOperator o = true → Derives .factor f → Derives .termRest r →
      Derives .termRest (o :: f ++ r)
  | expression {t r : List TokenType} :
      Derives .term t → Derives .expressionRest r → Derives .expression (t ++ r)
  | signed {o : TokenType} {t r : List TokenType} :
      isAddOperator o = true → Derives .term t → Derives .expressionRest r →
      Derives .expression (o :: t ++ r)
  | expressionRestNil : Derives .expressionRest []
  | expressionRestCons {o : TokenType} {t r : List TokenType} :
      isAddOperator o = true → Derives .term t → Derives .expressionRest r →
      Derives .expressionRest (o :: t ++ r)

/-- The function of `parser.c` that parses a nonterminal. -/
def Nonterminal.production : Nonterminal → Nat → Compile Unit
  | .expression => compileExpression
  | .expressionRest => compileExpression3
  | .term => compileTerm
  | .termRest => compileTerm2
  | .factor => compileFactor
  | .indexes => compileIndexes
  | .arguments => compileArguments
  | .argumentsRest => compileArguments2

/-- A token of kind `c` that comes after a sentence whose last token has kind
`last` is taken for a selector or an argument list of that sentence: `[` or
`(` after an identifier, `[` after a `]`. -/
def continuesAfter (last : Option TokenType) (c : TokenType) : Bool :=
  (last = some TK_IDENT && (c = SB_LSEL || c = SB_LPAR)) ||
  (last = some SB_RSEL && c = SB_LSEL)

/-- The sentence `ks` of the nonterminal `X` ends before a token of kind `c`:
`c` does not continue it. A factor is continued by a selector or an argument
list (`continuesAfter`), a term also by `*` and `/`, an expression also by `+`
and `-`; a list of selectors is continued by `[`, and the further arguments of
a call end at `)` only. -/
def Nonterminal.stops : Nonterminal → List TokenType → TokenType → Bool
  | .factor, ks, c => !continuesAfter ks.getLast? c
  | .term, ks, c => !isMultOperator c && !continuesAfter ks.getLast? c
  | .expression, ks, c =>
    !isAddOperator c && !isMultOperator c && !continuesAfter ks.getLast? c
  | .termRest, ks, c => !isMultOperator c && !continuesAfter ks.getLast? c
  | .expressionRest, ks, c =>
    !isAddOperator c && (ks.isEmpty || (!isMultOperator c && !continuesAfter ks.getLast? c))
  | .indexes, _, c => !decide (c = SB_LSEL)
  | .arguments, _, _ => true
  | .argumentsRest, _, c => decide (c = SB_RPAR)

/-- The next tokens that the parser sees from state `s` have the kinds `ks`. -/
def State.Reads (s : State) (ks : List TokenType) : Prop :=
  (s.upcoming ks.length).map Token.tokenType = ks

instance (s : State) (ks : List TokenType) : Decidable (s.Reads ks) :=
  inferInstanceAs (Decidable ((s.upcoming ks.length).map Token.tokenType = ks))

/-- The kinds of a list of expressions separated by commas. -/
def commaSeparated : List (List TokenType) → List TokenType
  | [] => []
  | [e] => e
  | e :: es => e ++ SB_COMMA :: commaSeparated es

/-- The state in which the statement `x := 1 + end` of a group starts: the
expression `1` is followed by `+`, and no term follows the `+`. -/
def danglingPlus : State :=
  { currentToken := some ⟨KW_BEGIN, none, 2, 1⟩
    lookAhead := ⟨TK_IDENT, some "x", 3, 3⟩
    source :=
      ⟨[⟨SB_ASSIGN, none, 3, 5⟩, ⟨TK_NUMBER, some "1", 3, 8⟩, ⟨SB_PLUS, none, 3, 10⟩,
        ⟨KW_END, none, 4, 1⟩, ⟨SB_PERIOD, none, 4, 4⟩], ⟨TK_EOF, none, 4, 5⟩⟩
    printed := [⟨KW_BEGIN, none, 2, 1⟩] }

/-- The state in which the statement `x, y := a[1] * 2, - f(3, 4)` of a group
starts; `end` follows. -/
def twoTargetsTwoValues : State :=
  { currentToken := some ⟨KW_BEGIN, none, 2, 1⟩
    lookAhead := ⟨TK_IDENT, some "x", 3, 3⟩
    source :=
      ⟨[⟨SB_COMMA, none, 3, 4⟩, ⟨TK_IDENT, some "y", 3, 6⟩, ⟨SB_ASSIGN, none, 3, 8⟩,
        ⟨TK_IDENT, some "a", 3, 11⟩, ⟨SB_LSEL, none, 3, 12⟩, ⟨TK_NUMBER, some "1", 3, 13⟩,
        ⟨SB_RSEL, none, 3, 14⟩, ⟨SB_TIMES, none, 3, 16⟩, ⟨TK_NUMBER, some "2", 3, 18⟩,
        ⟨SB_COMMA, none, 3, 19⟩, ⟨SB_MINUS, none, 3, 21⟩, ⟨TK_IDENT, some "f", 3, 23⟩,
        ⟨SB_LPAR, none, 3, 24⟩, ⟨TK_NUMBER, some "3", 3, 25⟩, ⟨SB_COMMA, none, 3, 26⟩,
        ⟨TK_NUMBER, some "4", 3, 28⟩, ⟨SB_RPAR, none, 3, 29⟩, ⟨KW_END, none, 4, 1⟩,
        ⟨SB_PERIOD, none, 4, 4⟩], ⟨TK_EOF, none, 4, 5⟩⟩
    printed := [⟨KW_BEGIN, none, 2, 1⟩] }

/-- The state in which the statement `x[0], y[1][2] := 1, 2` of a group
starts. -/
def indexedSecondTarget : State :=
  { currentToken := some ⟨KW_BEGIN, none, 2, 1⟩
    lookAhead := ⟨TK_IDENT, some "x", 3, 3⟩
    source :=
      ⟨[⟨SB_LSEL, none, 3, 4⟩, ⟨TK_NUMBER, some "0", 3, 5⟩, ⟨SB_RSEL, none, 3, 6⟩,
        ⟨SB_COMMA, none, 3, 7⟩, ⟨TK_IDENT, some "y", 3, 9⟩, ⟨SB_LSEL, none, 3, 10⟩,
        ⟨TK_NUMBER, some "1", 3, 11⟩, ⟨SB_RSEL, none, 3, 12⟩, ⟨SB_LSEL, none, 3, 13⟩,
        ⟨TK_NUMBER, some "2", 3, 14⟩, ⟨SB_RSEL, none, 3, 15⟩, ⟨SB_ASSIGN, none, 3, 17⟩,
        ⟨TK_NUMBER, some "1", 3, 20⟩, ⟨SB_COMMA, none, 3, 21⟩, ⟨TK_NUMBER, some "2", 3, 23⟩,
        ⟨KW_END, none, 4, 1⟩], ⟨TK_EOF, none, 4, 5⟩⟩
    printed := [⟨KW_BEGIN, none, 2, 1⟩] }

/-- The state in which the statement `x[1][2], y := 1, 2` of a group starts;
`end` follows. -/
def indexedFirstTarget : State :=
  { currentToken := some ⟨KW_BEGIN, none, 2, 1⟩
    lookAhead := ⟨TK_IDENT, some "x", 3, 3⟩
    source :=
      ⟨[⟨SB_LSEL, none, 3, 4⟩, ⟨TK_NUMBER, some "1", 3, 5⟩, ⟨SB_RSEL, none, 3, 6⟩,
        ⟨SB_LSEL, none, 3, 7⟩, ⟨TK_NUMBER, some "2", 3, 8⟩, ⟨SB_RSEL, none, 3, 9⟩,
        ⟨SB_COMMA, none, 3, 10⟩, ⟨TK_IDENT, some "y", 3, 12⟩, ⟨SB_ASSIGN, none, 3, 14⟩,
        ⟨TK_NUMBER, some "1", 3, 17⟩, ⟨SB_COMMA, none, 3, 18⟩, ⟨TK_NUMBER, some "2", 3, 20⟩,
        ⟨KW_END, none, 4, 1⟩], ⟨TK_EOF, none, 4, 5⟩⟩
    printed := [⟨KW_BEGIN, none, 2, 1⟩] }

/-! ## Properties -/

/-! ### Sequencing and `eat` -/

theorem bind_eq {α β : Type} (p : Compile α) (f : α → Compile β) (s : State) :
    (p >>= f) s = match p s with
      | .ok a s1 => f a s1
      | .raised e s1 => .raised e s1
      | .outOfFuel => .outOfFuel := rfl

theorem bind_ok {α β : Type} {p : Compile α} {f : α → Compile β} {s s1 : State} {a : α}
    (h : p s = .ok a s1) : (p >>= f) s = f a s1 := by
  rw [bind_eq, h]

theorem bind_raised {α β : Type} {p : Compile α} {f : α → Compile β} {s s1 : State}
    {e : ErrorEvent} (h : p s = .raised e s1) : (p >>= f) s = .raised e s1 := by
  rw [bind_eq, h]

theorem bind_outOfFuel {α β : Type} {p : Compile α} {f : α → Compile β} {s : State}
    (h : p s = .outOfFuel) : (p >>= f) s = .outOfFuel := by
  rw [bind_eq, h]

theorem getState_bind {β : Type} (f : State → Compile β) (s : State) :
    (getState >>= f) s = f s s := rfl

theorem pure_eq {α : Type} (a : α) (s : State) : (pure a : Compile α) s = .ok a s := rfl

theorem eat_ok {k : TokenType} {s : State} (h : s.lookAhead.tokenType = k) :
    eat k s = .ok () s.advance := by
  simp [eat, bind_eq, getState, h, printToken, scan, State.advance]

theorem eat_raised {k : TokenType} {s : State} (h : s.lookAhead.tokenType ≠ k) :
    eat k s = .raised (.missingToken k s.lookAhead.lineNo s.lookAhead.colNo) s := by
  simp [eat, bind_eq, getState, h, missingToken]

theorem eat_self (s : State) : eat s.lookAhead.tokenType s = .ok () s.advance :=
  eat_ok rfl

/-! ### Skipping tokens -/

theorem State.skip_succ (n : Nat) (s : State) : s.advance.skip n = s.skip (n + 1) := rfl

theorem State.skip_add (m n : Nat) (s : State) : (s.skip m).skip n = s.skip (m + n) := by
  induction m generalizing s with
  | zero => simp [State.skip]
  | succ m ih =>
    have : m + 1 + n = (m + n) + 1 := by omega
    rw [this]
    exact ih s.advance

theorem State.skip_advance (n : Nat) (s : State) : (s.skip n).advance = s.skip (n + 1) :=
  State.skip_add n 1 s

theorem take_append_replicate {α : Type} (l : List α) (e : α) (n m : Nat) (h : n ≤ m) :
    (l ++ List.replicate m e).take n = (l ++ List.replicate n e).take n := by
  induction l generalizing n m with
  | nil =>
    simp only [List.nil_append, List.take_replicate]
    congr 1
    omega
  | cons a l ih =>
    cases n with
    | zero => simp
    | succ n =>
      simp only [List.cons_append, List.take_succ_cons]
      rw [ih n m (by omega), ← ih n (n + 1) (Nat.le_succ n)]

theorem State.upcoming_zero (s : State) : s.upcoming 0 = [] := by
  simp [State.upcoming]

theorem State.upcoming_succ (s : State) (n : Nat) :
    s.upcoming (n + 1) = s.lookAhead :: s.advance.upcoming n := by
  unfold State.upcoming State.advance getValidToken
  cases hp : s.source.pending with
  | nil =>
    have h := take_append_replicate [] s.source.endMarker n (n + 1) (by omega)
    simp only [List.nil_append] at h
    simp only [List.cons_append, List.nil_append, List.take_succ_cons, hp,
      ← List.replicate_succ, h]
  | cons t ts =>
    have h := take_append_replicate (t :: ts) s.source.endMarker n (n + 1) (by omega)
    simp only [List.cons_append] at h
    simp only [List.cons_append, List.take_succ_cons, h]

theorem State.upcoming_length (s : State) (n : Nat) : (s.upcoming n).length = n := by
  simp [State.upcoming]
  omega

theorem State.skip_printed (n : Nat) (s : State) :
    (s.skip n).printed = s.printed ++ s.upcoming n := by
  induction n generalizing s with
  | zero => simp [State.skip, State.upcoming_zero]
  | succ n ih =>
    rw [State.upcoming_succ, ← State.skip_succ, ih]
    simp [State.advance]

theorem State.skip_lookAhead_upcoming (s : State) (n : Nat) :
    s.upcoming (n + 1) = s.upcoming n ++ [(s.skip n).lookAhead] := by
  induction n generalizing s with
  | zero => simp [State.upcoming_succ, State.upcoming_zero, State.skip]
  | succ n ih =>
    rw [State.upcoming_succ, ih s.advance, State.upcoming_succ s n, State.skip_succ]
    simp

theorem State.peek_succ (s : State) (k : Nat) : s.peek (k + 1) = s.advance.peek k := by
  unfold State.peek State.advance getValidToken
  cases hp : s.source.pending with
  | nil => cases k <;> simp [hp]
  | cons t ts => simp

theorem State.skip_lookAhead (k : Nat) (s : State) : (s.skip k).lookAhead = s.peek k := by
  induction k generalizing s with
  | zero => simp [State.skip, State.peek]
  | succ k ih => rw [State.peek_succ, ← State.skip_succ, ih]

theorem initialState_upcoming (src : TokenSource) (k : Nat) :
    (initialState src).upcoming k = (src.pending ++ List.replicate k src.endMarker).take k := by
  unfold initialState State.upcoming getValidToken
  cases hp : src.pending with
  | nil =>
    have h := take_append_replicate [] src.endMarker k (k + 1) (by omega)
    simp only [List.nil_append] at h
    simp only [List.cons_append, List.nil_append, hp, ← List.replicate_succ, h]
  | cons t ts => simp

theorem initialState_peek (src : TokenSource) (k : Nat) :
    (initialState src).peek k = src.pending.getD k src.endMarker := by
  unfold initialState State.peek getValidToken
  cases hp : src.pending with
  | nil => cases k <;> simp [hp]
  | cons t ts => simp

/-! ### Every outcome keeps track of the input -/

set_option linter.unusedTactic false
set_option linter.unreachableTactic false

theorem Result.Tracks.trans {α : Type} {s s1 : State} {r : Result α} (k : Nat)
    (h1 : s1 = s.skip k) (h : r.Tracks s1) : r.Tracks s := by
  subst h1
  cases r with
  | ok a s2 =>
    obtain ⟨j, hj⟩ := h
    exact ⟨k + j, by rw [hj, State.skip_add]⟩
  | raised e s2 =>
    obtain ⟨⟨j, hj⟩, hl, hc⟩ := h
    exact ⟨⟨k + j, by rw [hj, State.skip_add]⟩, hl, hc⟩
  | outOfFuel => trivial

theorem tracks_bind {α β : Type} {p : Compile α} {f : α → Compile β} {s : State}
    (hp : p.TracksAt s) (hf : ∀ a s1, (f a).TracksAt s1) : (p >>= f).TracksAt s := by
  unfold Compile.TracksAt at hp ⊢
  rw [bind_eq]
  cases h : p s with
  | ok a s1 =>
    rw [h] at hp
    obtain ⟨k, hk⟩ := hp
    exact Result.Tracks.trans k hk (hf a s1)
  | raised e s1 =>
    rw [h] at hp
    exact hp
  | outOfFuel => trivial

theorem tracks_getState_bind {β : Type} {f : State → Compile β} {s : State}
    (hf : (f s).TracksAt s) : (getState >>= f).TracksAt s := hf

theorem tracks_pure {α : Type} (a : α) (s : State) : (pure a : Compile α).TracksAt s :=
  ⟨0, rfl⟩

theorem tracks_outOfFuel {α : Type} (s : State) : (outOfFuel : Compile α).TracksAt s :=
  trivial

theorem tracks_error {α : Type} (err : ErrorCode) (s : State) :
    (error err s.lookAhead.lineNo s.lookAhead.colNo : Compile α).TracksAt s :=
  ⟨⟨0, rfl⟩, rfl, rfl⟩

theorem tracks_eat (k : TokenType) (s : State) : (eat k).TracksAt s := by
  unfold Compile.TracksAt
  by_cases h : s.lookAhead.tokenType = k
  · rw [eat_ok h]
    exact ⟨1, rfl⟩
  · rw [eat_raised h]
    exact ⟨⟨0, rfl⟩, rfl, rfl⟩

theorem tracks_eatCommaIdentList (fuel : Nat) : ∀ s, (eatCommaIdentList fuel).TracksAt s := by
  induction fuel with
  | zero => exact tracks_outOfFuel
  | succ fuel ih =>
    intro s
    rw [eatCommaIdentList]
    repeat' first
      | with_reducible exact tracks_eat _ _
      | with_reducible exact tracks_error _ _
      | with_reducible exact tracks_pure _ _
      | with_reducible exact ih _
      | with_reducible apply tracks_getState_bind
      | with_reducible apply tracks_bind
      | intro _ _
      | split

theorem tracks_compileUnsignedConstant (s : State) : compileUnsignedConstant.TracksAt s := by
  unfold compileUnsignedConstant
  repeat' first
    | with_reducible exact tracks_eat _ _
    | with_reducible exact tracks_error _ _
    | with_reducible exact tracks_pure _ _
    | with_reducible apply tracks_getState_bind
    | with_reducible apply tracks_bind
    | intro _ _
    | split

theorem tracks_compileConstant (s : State) : compileConstant.TracksAt s := by
  unfold compileConstant
  repeat' first
    | with_reducible exact tracks_eat _ _
    | with_reducible exact tracks_error _ _
    | with_reducible exact tracks_pure _ _
    | with_reducible exact tracks_compileUnsignedConstant _
    | with_reducible apply tracks_getState_bind
    | with_reducible apply tracks_bind
    | intro _ _
    | split

theorem tracks_compileConstant2 (s : State) : compileConstant2.TracksAt s := by
  unfold compileConstant2
  repeat' first
    | with_reducible exact tracks_eat _ _
    | with_reducible exact tracks_error _ _
    | with_reducible exact tracks_pure _ _
    | with_reducible apply tracks_getState_bind
    | with_reducible apply tracks_bind
    | intro _ _
    | split

theorem tracks_compileType (fuel : Nat) : ∀ s, (compileType fuel).TracksAt s := by
  induction fuel with
  | zero => exact tracks_outOfFuel
  | succ fuel ih =>
    intro s
    rw [compileType]
    repeat' first
      | with_reducible exact tracks_eat _ _
      | with_reducible exact tracks_error _ _
      | with_reducible exact tracks_pure _ _
      | with_reducible exact ih _
      | with_reducible apply tracks_getState_bind
      | with_reducible apply tracks_bind
      | intro _ _
      | split

theorem tracks_compileBasicType (s : State) : compileBasicType.TracksAt s := by
  unfold compileBasicType
  repeat' first
    | with_reducible exact tracks_eat _ _
    | with_reducible exact tracks_error _ _
    | with_reducible exact tracks_pure _ _
    | with_reducible apply tracks_getState_bind
    | with_reducible apply tracks_bind
    | intro _ _
    | split

theorem tracks_expressions (fuel : Nat) :
    (∀ s, (compileArguments fuel).TracksAt s) ∧
    (∀ s, (compileArguments2 fuel).TracksAt s) ∧
    (∀ s, (compileExpression fuel).TracksAt s) ∧
    (∀ s, (compileExpression2 fuel).TracksAt s) ∧
    (∀ s, (compileExpression3 fuel).TracksAt s) ∧
    (∀ s, (compileTerm fuel).TracksAt s) ∧
    (∀ s, (compileTerm2 fuel).TracksAt s) ∧
    (∀ s, (compileFactor fuel).TracksAt s) ∧
    (∀ s, (compileIndexes fuel).TracksAt s) := by
  induction fuel with
  | zero =>
    refine ⟨?_, ?_, ?_, ?_, ?_, ?_, ?_, ?_, ?_⟩ <;> exact tracks_outOfFuel
  | succ fuel ih =>
    obtain ⟨ih1, ih2, ih3, ih4, ih5, ih6, ih7, ih8, ih9⟩ := ih
    refine ⟨?_, ?_, ?_, ?_, ?_, ?_, ?_, ?_, ?_⟩ <;> intro s <;> simp only [compileArguments, compileArguments2, compileExpression, compileExpression2, compileExpression3, compileTerm, compileTerm2, compileFactor, compileIndexes]
    repeat' first
      | with_reducible exact tracks_eat _ _
      | with_reducible exact tracks_error _ _
      | with_reducible exact tracks_pure _ _
      | with_reducible exact ih1 _
      | with_reducible exact ih2 _
      | with_reducible exact ih3 _
      | with_reducible exact ih4 _
      | with_reducible exact ih5 _
      | with_reducible exact ih6 _
      | with_reducible exact ih7 _
      | with_reducible exact ih8 _
      | with_reducible exact ih9 _
      | with_reducible apply tracks_getState_bind
      | with_reducible apply tracks_bind
      | intro _ _
      | split

theorem tracks_compileArguments (fuel : Nat) (s : State) : (compileArguments fuel).TracksAt s :=
  (tracks_expressions fuel).1 s

theorem tracks_compileArguments2 (fuel : Nat) (s : State) : (compileArguments2 fuel).TracksAt s :=
  (tracks_expressions fuel).2.1 s

theorem tracks_compileExpression (fuel : Nat) (s : State) : (compileExpression fuel).TracksAt s :=
  (tracks_expressions fuel).2.2.1 s

theorem tracks_compileExpression2 (fuel : Nat) (s : State) : (compileExpression2 fuel).TracksAt s :=
  (tracks_expressions fuel).2.2.2.1 s

theorem tracks_compileExpression3 (fuel : Nat) (s : State) : (compileExpression3 fuel).TracksAt s :=
  (tracks_expressions fuel).2.2.2.2.1 s

theorem tracks_compileTerm (fuel : Nat) (s : State) : (compileTerm fuel).TracksAt s :=
  (tracks_expressions fuel).2.2.2.2.2.1 s

theorem tracks_compileTerm2 (fuel : Nat) (s : State) : (compileTerm2 fuel).TracksAt s :=
  (tracks_expressions fuel).2.2.2.2.2.2.1 s

theorem tracks_compileFactor (fuel : Nat) (s : State) : (compileFactor fuel).TracksAt s :=
  (tracks_expressions fuel).2.2.2.2.2.2.2.1 s

theorem tracks_compileIndexes (fuel : Nat) (s : State) : (compileIndexes fuel).TracksAt s :=
  (tracks_expressions fuel).2.2.2.2.2.2.2.2 s

theorem tracks_compileCondition2 (fuel : Nat) (s : State) : (compileCondition2 fuel).TracksAt s := by
  unfold compileCondition2
  repeat' first
    | with_reducible exact tracks_eat _ _
    | with_reducible exact tracks_error _ _
    | with_reducible exact tracks_pure _ _
    | with_reducible exact tracks_compileExpression _ _
    | with_reducible apply tracks_getState_bind
    | with_reducible apply tracks_bind
    | intro _ _
    | split

theorem tracks_compileCondition (fuel : Nat) (s : State) : (compileCondition fuel).TracksAt s := by
  unfold compileCondition
  repeat' first
    | with_reducible exact tracks_eat _ _
    | with_reducible exact tracks_error _ _
    | with_reducible exact tracks_pure _ _
    | with_reducible exact tracks_compileExpression _ _
    | with_reducible exact tracks_compileCondition2 _ _
    | with_reducible apply tracks_getState_bind
    | with_reducible apply tracks_bind
    | intro _ _
    | split

theorem tracks_compileConstDecl (fuel : Nat) (s : State) : (compileConstDecl fuel).TracksAt s := by
  unfold compileConstDecl
  repeat' first
    | with_reducible exact tracks_eat _ _
    | with_reducible exact tracks_error _ _
    | with_reducible exact tracks_pure _ _
    | with_reducible exact tracks_eatCommaIdentList _ _
    | with_reducible exact tracks_compileConstant _
    | with_reducible apply tracks_getState_bind
    | with_reducible apply tracks_bind
    | intro _ _
    | split

theorem tracks_compileConstDecls (fuel : Nat) : ∀ s, (compileConstDecls fuel).TracksAt s := by
  induction fuel with
  | zero => exact tracks_outOfFuel
  | succ fuel ih =>
    intro s
    rw [compileConstDecls]
    repeat' first
      | with_reducible exact tracks_eat _ _
      | with_reducible exact tracks_error _ _
      | with_reducible exact tracks_pure _ _
      | with_reducible exact ih _
      | with_reducible exact tracks_compileConstDecl _ _
      | with_reducible apply tracks_getState_bind
      | with_reducible apply tracks_bind
      | intro _ _
      | split

theorem tracks_compileTypeDecl (fuel : Nat) (s : State) : (compileTypeDecl fuel).TracksAt s := by
  unfold compileTypeDecl
  repeat' first
    | with_reducible exact tracks_eat _ _
    | with_reducible exact tracks_error _ _
    | with_reducible exact tracks_pure _ _
    | with_reducible exact tracks_eatCommaIdentList _ _
    | with_reducible exact tracks_compileType _ _
    | with_reducible apply tracks_getState_bind
    | with_reducible apply tracks_bind
    | intro _ _
    | split

theorem tracks_compileTypeDecls (fuel : Nat) : ∀ s, (compileTypeDecls fuel).TracksAt s := by
  induction fuel with
  | zero => exact tracks_outOfFuel
  | succ fuel ih =>
    intro s
    rw [compileTypeDecls]
    repeat' first
      | with_reducible exact tracks_eat _ _
      | with_reducible exact tracks_error _ _
      | with_reducible exact tracks_pure _ _
      | with_reducible exact ih _
      | with_reducible exact tracks_compileTypeDecl _ _
      | with_reducible apply tracks_getState_bind
      | with_reducible apply tracks_bind
      | intro _ _
      | split

theorem tracks_compileVarDecl (fuel : Nat) (s : State) : (compileVarDecl fuel).TracksAt s := by
  unfold compileVarDecl
  repeat' first
    | with_reducible exact tracks_eat _ _
    | with_reducible exact tracks_error _ _
    | with_reducible exact tracks_pure _ _
    | with_reducible exact tracks_eatCommaIdentList _ _
    | with_reducible exact tracks_compileType _ _
    | with_reducible apply tracks_getState_bind
    | with_reducible apply tracks_bind
    | intro _ _
    | split

theorem tracks_compileVarDecls (fuel : Nat) : ∀ s, (compileVarDecls fuel).TracksAt s := by
  induction fuel with
  | zero => exact tracks_outOfFuel
  | succ fuel ih =>
    intro s
    rw [compileVarDecls]
    repeat' first
      | with_reducible exact tracks_eat _ _
      | with_reducible exact tracks_error _ _
      | with_reducible exact tracks_pure _ _
      | with_reducible exact ih _
      | with_reducible exact tracks_compileVarDecl _ _
      | with_reducible apply tracks_getState_bind
      | with_reducible apply tracks_bind
      | intro _ _
      | split

theorem tracks_compileParam (s : State) : compileParam.TracksAt s := by
  unfold compileParam
  repeat' first
    | with_reducible exact tracks_eat _ _
    | with_reducible exact tracks_error _ _
    | with_reducible exact tracks_pure _ _
    | with_reducible exact tracks_compileBasicType _
    | with_reducible apply tracks_getState_bind
    | with_reducible apply tracks_bind
    | intro _ _
    | split

theorem tracks_compileParams2 (fuel : Nat) : ∀ s, (compileParams2 fuel).TracksAt s := by
  induction fuel with
  | zero => exact tracks_outOfFuel
  | succ fuel ih =>
    intro s
    rw [compileParams2]
    repeat' first
      | with_reducible exact tracks_eat _ _
      | with_reducible exact tracks_error _ _
      | with_reducible exact tracks_pure _ _
      | with_reducible exact ih _
      | with_reducible exact tracks_compileParam _
      | with_reducible apply tracks_getState_bind
      | with_reducible apply tracks_bind
      | intro _ _
      | split

theorem tracks_compileParams (fuel : Nat) (s : State) : (compileParams fuel).TracksAt s := by
  unfold compileParams
  repeat' first
    | with_reducible exact tracks_eat _ _
    | with_reducible exact tracks_error _ _
    | with_reducible exact tracks_pure _ _
    | with_reducible exact tracks_compileParam _
    | with_reducible exact tracks_compileParams2 _ _
    | with_reducible apply tracks_getState_bind
    | with_reducible apply tracks_bind
    | intro _ _
    | split

theorem tracks_compileAssignStVariables (fuel : Nat) : ∀ n s, (compileAssignStVariables fuel n).TracksAt s := by
  induction fuel with
  | zero => exact fun _ => tracks_outOfFuel
  | succ fuel ih =>
    intro n s
    rw [compileAssignStVariables]
    repeat' first
      | with_reducible exact tracks_eat _ _
      | with_reducible exact tracks_error _ _
      | with_reducible exact tracks_pure _ _
      | with_reducible exact ih _ _
      | with_reducible apply tracks_getState_bind
      | with_reducible apply tracks_bind
      | intro _ _
      | split

theorem tracks_compileAssignStExpressions (fuel : Nat) : ∀ n s, (compileAssignStExpressions fuel n).TracksAt s := by
  induction fuel with
  | zero => exact fun _ => tracks_outOfFuel
  | succ fuel ih =>
    intro n s
    rw [compileAssignStExpressions]
    repeat' first
      | with_reducible exact tracks_eat _ _
      | with_reducible exact tracks_error _ _
      | with_reducible exact tracks_pure _ _
      | with_reducible exact ih _ _
      | with_reducible exact tracks_compileExpression _ _
      | with_reducible apply tracks_getState_bind
      | with_reducible apply tracks_bind
      | intro _ _
      | split

theorem tracks_compileAssignSt (fuel : Nat) (s : State) : (compileAssignSt fuel).TracksAt s := by
  unfold compileAssignSt
  repeat' first
    | with_reducible exact tracks_eat _ _
    | with_reducible exact tracks_error _ _
    | with_reducible exact tracks_pure _ _
    | with_reducible exact tracks_compileIndexes _ _
    | with_reducible exact tracks_compileExpression _ _
    | with_reducible exact tracks_compileAssignStVariables _ _ _
    | with_reducible exact tracks_compileAssignStExpressions _ _ _
    | with_reducible apply tracks_getState_bind
    | with_reducible apply tracks_bind
    | intro _ _
    | split

theorem tracks_compileCallSt (fuel : Nat) (s : State) : (compileCallSt fuel).TracksAt s := by
  unfold compileCallSt
  repeat' first
    | with_reducible exact tracks_eat _ _
    | with_reducible exact tracks_error _ _
    | with_reducible exact tracks_pure _ _
    | with_reducible exact tracks_compileArguments _ _
    | with_reducible apply tracks_getState_bind
    | with_reducible apply tracks_bind
    | intro _ _
    | split

theorem tracks_statements (fuel : Nat) :
    (∀ s, (compileStatements fuel).TracksAt s) ∧
    (∀ s, (compileStatements2 fuel).TracksAt s) ∧
    (∀ s, (compileStatement fuel).TracksAt s) ∧
    (∀ s, (compileGroupSt fuel).TracksAt s) ∧
    (∀ s, (compileIfSt fuel).TracksAt s) ∧
    (∀ s, (compileElseSt fuel).TracksAt s) ∧
    (∀ s, (compileWhileSt fuel).TracksAt s) ∧
    (∀ s, (compileForSt fuel).TracksAt s) ∧
    (∀ s, (compileRepeatSt fuel).TracksAt s) := by
  induction fuel with
  | zero =>
    refine ⟨?_, ?_, ?_, ?_, ?_, ?_, ?_, ?_, ?_⟩ <;> exact tracks_outOfFuel
  | succ fuel ih =>
    obtain ⟨ih1, ih2, ih3, ih4, ih5, ih6, ih7, ih8, ih9⟩ := ih
    refine ⟨?_, ?_, ?_, ?_, ?_, ?_, ?_, ?_, ?_⟩ <;> intro s <;> simp only [compileStatements, compileStatements2, compileStatement, compileGroupSt, compileIfSt, compileElseSt, compileWhileSt, compileForSt, compileRepeatSt]
    repeat' first
      | with_reducible exact tracks_eat _ _
      | with_reducible exact tracks_error _ _
      | with_reducible exact tracks_pure _ _
      | with_reducible exact ih1 _
      | with_reducible exact ih2 _
      | with_reducible exact ih3 _
      | with_reducible exact ih4 _
      | with_reducible exact ih5 _
      | with_reducible exact ih6 _
      | with_reducible exact ih7 _
      | with_reducible exact ih8 _
      | with_reducible exact ih9 _
      | with_reducible exact tracks_compileAssignSt _ _
      | with_reducible exact tracks_compileCallSt _ _
      | with_reducible exact tracks_compileCondition _ _
      | with_reducible exact tracks_compileExpression _ _
      | with_reducible apply tracks_getState_bind
      | with_reducible apply tracks_bind
      | intro _ _
      | split

theorem tracks_compileStatements (fuel : Nat) (s : State) : (compileStatements fuel).TracksAt s :=
  (tracks_statements fuel).1 s

theorem tracks_compileStatements2 (fuel : Nat) (s : State) : (compileStatements2 fuel).TracksAt s :=
  (tracks_statements fuel).2.1 s

theorem tracks_compileStatement (fuel : Nat) (s : State) : (compileStatement fuel).TracksAt s :=
  (tracks_statements fuel).2.2.1 s

theorem tracks_compileGroupSt (fuel : Nat) (s : State) : (compileGroupSt fuel).TracksAt s :=
  (tracks_statements fuel).2.2.2.1 s

theorem tracks_compileIfSt (fuel : Nat) (s : State) : (compileIfSt fuel).TracksAt s :=
  (tracks_statements fuel).2.2.2.2.1 s

theorem tracks_compileElseSt (fuel : Nat) (s : State) : (compileElseSt fuel).TracksAt s :=
  (tracks_statements fuel).2.2.2.2.2.1 s

theorem tracks_compileWhileSt (fuel : Nat) (s : State) : (compileWhileSt fuel).TracksAt s :=
  (tracks_statements fuel).2.2.2.2.2.2.1 s

theorem tracks_compileForSt (fuel : Nat) (s : State) : (compileForSt fuel).TracksAt s :=
  (tracks_statements fuel).2.2.2.2.2.2.2.1 s

theorem tracks_compileRepeatSt (fuel : Nat) (s : State) : (compileRepeatSt fuel).TracksAt s :=
  (tracks_statements fuel).2.2.2.2.2.2.2.2 s

theorem tracks_compileBlock5 (fuel : Nat) (s : State) : (compileBlock5 fuel).TracksAt s := by
  unfold compileBlock5
  repeat' first
    | with_reducible exact tracks_eat _ _
    | with_reducible exact tracks_error _ _
    | with_reducible exact tracks_pure _ _
    | with_reducible exact tracks_compileStatements _ _
    | with_reducible apply tracks_getState_bind
    | with_reducible apply tracks_bind
    | intro _ _
    | split

theorem tracks_blocks (fuel : Nat) :
    (∀ s, (compileBlock fuel).TracksAt s) ∧
    (∀ s, (compileBlock2 fuel).TracksAt s) ∧
    (∀ s, (compileBlock3 fuel).TracksAt s) ∧
    (∀ s, (compileBlock4 fuel).TracksAt s) ∧
    (∀ s, (compileSubDecls fuel).TracksAt s) ∧
    (∀ s, (compileFuncDecl fuel).TracksAt s) ∧
    (∀ s, (compileProcDecl fuel).TracksAt s) := by
  induction fuel with
  | zero =>
    refine ⟨?_, ?_, ?_, ?_, ?_, ?_, ?_⟩ <;> exact tracks_outOfFuel
  | succ fuel ih =>
    obtain ⟨ih1, ih2, ih3, ih4, ih5, ih6, ih7⟩ := ih
    refine ⟨?_, ?_, ?_, ?_, ?_, ?_, ?_⟩ <;> intro s <;> simp only [compileBlock, compileBlock2, compileBlock3, compileBlock4, compileSubDecls, compileFuncDecl, compileProcDecl]
    repeat' first
      | with_reducible exact tracks_eat _ _
      | with_reducible exact tracks_error _ _
      | with_reducible exact tracks_pure _ _
      | with_reducible exact ih1 _
      | with_reducible exact ih2 _
      | with_reducible exact ih3 _
      | with_reducible exact ih4 _
      | with_reducible exact ih5 _
      | with_reducible exact ih6 _
      | with_reducible exact ih7 _
      | with_reducible exact tracks_compileConstDecl _ _
      | with_reducible exact tracks_compileConstDecls _ _
      | with_reducible exact tracks_compileTypeDecl _ _
      | with_reducible exact tracks_compileTypeDecls _ _
      | with_reducible exact tracks_compileVarDecl _ _
      | with_reducible exact tracks_compileVarDecls _ _
      | with_reducible exact tracks_compileBlock5 _ _
      | with_reducible exact tracks_compileParams _ _
      | with_reducible exact tracks_compileBasicType _
      | with_reducible apply tracks_getState_bind
      | with_reducible apply tracks_bind
      | intro _ _
      | split

theorem tracks_compileBlock (fuel : Nat) (s : State) : (compileBlock fuel).TracksAt s :=
  (tracks_blocks fuel).1 s

theorem tracks_compileBlock2 (fuel : Nat) (s : State) : (compileBlock2 fuel).TracksAt s :=
  (tracks_blocks fuel).2.1 s

theorem tracks_compileBlock3 (fuel : Nat) (s : State) : (compileBlock3 fuel).TracksAt s :=
  (tracks_blocks fuel).2.2.1 s

theorem tracks_compileBlock4 (fuel : Nat) (s : State) : (compileBlock4 fuel).TracksAt s :=
  (tracks_blocks fuel).2.2.2.1 s

theorem tracks_compileSubDecls (fuel : Nat) (s : State) : (compileSubDecls fuel).TracksAt s :=
  (tracks_blocks fuel).2.2.2.2.1 s

theorem tracks_compileFuncDecl (fuel : Nat) (s : State) : (compileFuncDecl fuel).TracksAt s :=
  (tracks_blocks fuel).2.2.2.2.2.1 s

theorem tracks_compileProcDecl (fuel : Nat) (s : State) : (compileProcDecl fuel).TracksAt s :=
  (tracks_blocks fuel).2.2.2.2.2.2 s

theorem tracks_compileProgram (fuel : Nat) (s : State) : (compileProgram fuel).TracksAt s := by
  unfold compileProgram
  repeat' first
    | with_reducible exact tracks_eat _ _
    | with_reducible exact tracks_error _ _
    | with_reducible exact tracks_pure _ _
    | with_reducible exact tracks_compileBlock _ _
    | with_reducible apply tracks_getState_bind
    | with_reducible apply tracks_bind
    | intro _ _
    | split

/-! ### More fuel does not change an outcome -/

theorem extends_refl {α : Type} (s : State) (p : Compile α) : p.ExtendsAt s p :=
  fun _ => rfl

theorem extends_outOfFuel {α : Type} (s : State) (q : Compile α) :
    (outOfFuel : Compile α).ExtendsAt s q :=
  fun h => absurd rfl h

theorem extends_bind {α β : Type} {p q : Compile α} {f g : α → Compile β} {s : State}
    (hp : p.ExtendsAt s q) (hf : ∀ a s1, (f a).ExtendsAt s1 (g a)) :
    (p >>= f).ExtendsAt s (q >>= g) := by
  unfold Compile.ExtendsAt at hp ⊢
  intro h
  rw [bind_eq] at h ⊢
  rw [bind_eq]
  cases hps : p s with
  | ok a s1 =>
    rw [hps] at h hp
    rw [hp (by simp)]
    exact hf a s1 h
  | raised e s1 =>
    rw [hps] at hp
    rw [hp (by simp)]
  | outOfFuel =>
    rw [hps] at h
    exact absurd rfl h

theorem extends_getState_bind {β : Type} {f g : State → Compile β} {s : State}
    (hf : (f s).ExtendsAt s (g s)) : (getState >>= f).ExtendsAt s (getState >>= g) := hf

theorem extends_eatCommaIdentList (fuel : Nat) :
    ∀ s, (eatCommaIdentList fuel).ExtendsAt s (eatCommaIdentList (fuel + 1)) := by
  induction fuel with
  | zero => exact fun s => extends_outOfFuel s _
  | succ fuel ih =>
    intro s
    conv => arg 2; rw [eatCommaIdentList]
    conv => arg 3; rw [eatCommaIdentList]
    repeat' first
      | with_reducible exact extends_refl _ _
      | with_reducible exact ih _
      | with_reducible apply extends_getState_bind
      | with_reducible apply extends_bind
      | intro _ _
      | split

theorem extends_compileType (fuel : Nat) :
    ∀ s, (compileType fuel).ExtendsAt s (compileType (fuel + 1)) := by
  induction fuel with
  | zero => exact fun s => extends_outOfFuel s _
  | succ fuel ih =>
    intro s
    conv => arg 2; rw [compileType]
    conv => arg 3; rw [compileType]
    repeat' first
      | with_reducible exact extends_refl _ _
      | with_reducible exact ih _
      | with_reducible apply extends_getState_bind
      | with_reducible apply extends_bind
      | intro _ _
      | split

theorem extends_expressions (fuel : Nat) :
    (∀ s, (compileArguments fuel).ExtendsAt s (compileArguments (fuel + 1))) ∧
    (∀ s, (compileArguments2 fuel).ExtendsAt s (compileArguments2 (fuel + 1))) ∧
    (∀ s, (compileExpression fuel).ExtendsAt s (compileExpression (fuel + 1))) ∧
    (∀ s, (compileExpression2 fuel).ExtendsAt s (compileExpression2 (fuel + 1))) ∧
    (∀ s, (compileExpression3 fuel).ExtendsAt s (compileExpression3 (fuel + 1))) ∧
    (∀ s, (compileTerm fuel).ExtendsAt s (compileTerm (fuel + 1))) ∧
    (∀ s, (compileTerm2 fuel).ExtendsAt s (compileTerm2 (fuel + 1))) ∧
    (∀ s, (compileFactor fuel).ExtendsAt s (compileFactor (fuel + 1))) ∧
    (∀ s, (compileIndexes fuel).ExtendsAt s (compileIndexes (fuel + 1))) := by
  induction fuel with
  | zero =>
    refine ⟨?_, ?_, ?_, ?_, ?_, ?_, ?_, ?_, ?_⟩ <;> exact fun s => extends_outOfFuel s _
  | succ fuel ih =>
    obtain ⟨ih1, ih2, ih3, ih4, ih5, ih6, ih7, ih8, ih9⟩ := ih
    refine ⟨?_, ?_, ?_, ?_, ?_, ?_, ?_, ?_, ?_⟩ <;> intro s
    all_goals conv => arg 2; first | rw [compileArguments] | rw [compileArguments2] | rw [compileExpression] | rw [compileExpression2] | rw [compileExpression3] | rw [compileTerm] | rw [compileTerm2] | rw [compileFactor] | rw [compileIndexes]
    all_goals conv => arg 3; first | rw [compileArguments] | rw [compileArguments2] | rw [compileExpression] | rw [compileExpression2] | rw [compileExpression3] | rw [compileTerm] | rw [compileTerm2] | rw [compileFactor] | rw [compileIndexes]
    all_goals
      repeat' first
        | with_reducible exact extends_refl _ _
        | with_reducible exact ih1 _
        | with_reducible exact ih2 _
        | with_reducible exact ih3 _
        | with_reducible exact ih4 _
        | with_reducible exact ih5 _
        | with_reducible exact ih6 _
        | with_reducible exact ih7 _
        | with_reducible exact ih8 _
        | with_reducible exact ih9 _
        | with_reducible apply extends_getState_bind
        | with_reducible apply extends_bind
        | intro _ _
        | split

theorem extends_compileArguments (fuel : Nat) (s : State) :
    (compileArguments fuel).ExtendsAt s (compileArguments (fuel + 1)) :=
  (extends_expressions fuel).1 s

theorem extends_compileArguments2 (fuel : Nat) (s : State) :
    (compileArguments2 fuel).ExtendsAt s (compileArguments2 (fuel + 1)) :=
  (extends_expressions fuel).2.1 s

theorem extends_compileExpression (fuel : Nat) (s : State) :
    (compileExpression fuel).ExtendsAt s (compileExpression (fuel + 1)) :=
  (extends_expressions fuel).2.2.1 s

theorem extends_compileExpression2 (fuel : Nat) (s : State) :
    (compileExpression2 fuel).ExtendsAt s (compileExpression2 (fuel + 1)) :=
  (extends_expressions fuel).2.2.2.1 s

theorem extends_compileExpression3 (fuel : Nat) (s : State) :
    (compileExpression3 fuel).ExtendsAt s (compileExpression3 (fuel + 1)) :=
  (extends_expressions fuel).2.2.2.2.1 s

theorem extends_compileTerm (fuel : Nat) (s : State) :
    (compileTerm fuel).ExtendsAt s (compileTerm (fuel + 1)) :=
  (extends_expressions fuel).2.2.2.2.2.1 s

theorem extends_compileTerm2 (fuel : Nat) (s : State) :
    (compileTerm2 fuel).ExtendsAt s (compileTerm2 (fuel + 1)) :=
  (extends_expressions fuel).2.2.2.2.2.2.1 s

theorem extends_compileFactor (fuel : Nat) (s : State) :
    (compileFactor fuel).ExtendsAt s (compileFactor (fuel + 1)) :=
  (extends_expressions fuel).2.2.2.2.2.2.2.1 s

theorem extends_compileIndexes (fuel : Nat) (s : State) :
    (compileIndexes fuel).ExtendsAt s (compileIndexes (fuel + 1)) :=
  (extends_expressions fuel).2.2.2.2.2.2.2.2 s

theorem extends_compileCondition2 (fuel : Nat) (s : State) :
    (compileCondition2 fuel).ExtendsAt s (compileCondition2 (fuel + 1)) := by
  unfold compileCondition2
  repeat' first
    | with_reducible exact extends_refl _ _
    | with_reducible exact extends_compileExpression _ _
    | with_reducible apply extends_getState_bind
    | with_reducible apply extends_bind
    | intro _ _
    | split

theorem extends_compileCondition (fuel : Nat) (s : State) :
    (compileCondition fuel).ExtendsAt s (compileCondition (fuel + 1)) := by
  unfold compileCondition
  repeat' first
    | with_reducible exact extends_refl _ _
    | with_reducible exact extends_compileExpression _ _
    | with_reducible exact extends_compileCondition2 _ _
    | with_reducible apply extends_getState_bind
    | with_reducible apply extends_bind
    | intro _ _
    | split

theorem extends_compileConstDecl (fuel : Nat) (s : State) :
    (compileConstDecl fuel).ExtendsAt s (compileConstDecl (fuel + 1)) := by
  unfold compileConstDecl
  repeat' first
    | with_reducible exact extends_refl _ _
    | with_reducible exact extends_eatCommaIdentList _ _
    | with_reducible apply extends_getState_bind
    | with_reducible apply extends_bind
    | intro _ _
    | split

theorem extends_compileConstDecls (fuel : Nat) :
    ∀ s, (compileConstDecls fuel).ExtendsAt s (compileConstDecls (fuel + 1)) := by
  induction fuel with
  | zero => exact fun s => extends_outOfFuel s _
  | succ fuel ih =>
    intro s
    conv => arg 2; rw [compileConstDecls]
    conv => arg 3; rw [compileConstDecls]
    repeat' first
      | with_reducible exact extends_refl _ _
      | with_reducible exact ih _
      | with_reducible exact extends_compileConstDecl _ _
      | with_reducible apply extends_getState_bind
      | with_reducible apply extends_bind
      | intro _ _
      | split

theorem extends_compileTypeDecl (fuel : Nat) (s : State) :
    (compileTypeDecl fuel).ExtendsAt s (compileTypeDecl (fuel + 1)) := by
  unfold compileTypeDecl
  repeat' first
    | with_reducible exact extends_refl _ _
    | with_reducible exact extends_eatCommaIdentList _ _
    | with_reducible exact extends_compileType _ _
    | with_reducible apply extends_getState_bind
    | with_reducible apply extends_bind
    | intro _ _
    | split

theorem extends_compileTypeDecls (fuel : Nat) :
    ∀ s, (compileTypeDecls fuel).ExtendsAt s (compileTypeDecls (fuel + 1)) := by
  induction fuel with
  | zero => exact fun s => extends_outOfFuel s _
  | succ fuel ih =>
    intro s
    conv => arg 2; rw [compileTypeDecls]
    conv => arg 3; rw [compileTypeDecls]
    repeat' first
      | with_reducible exact extends_refl _ _
      | with_reducible exact ih _
      | with_reducible exact extends_compileTypeDecl _ _
      | with_reducible apply extends_getState_bind
      | with_reducible apply extends_bind
      | intro _ _
      | split

theorem extends_compileVarDecl (fuel : Nat) (s : State) :
    (compileVarDecl fuel).ExtendsAt s (compileVarDecl (fuel + 1)) := by
  unfold compileVarDecl
  repeat' first
    | with_reducible exact extends_refl _ _
    | with_reducible exact extends_eatCommaIdentList _ _
    | with_reducible exact extends_compileType _ _
    | with_reducible apply extends_getState_bind
    | with_reducible apply extends_bind
    | intro _ _
    | split

theorem extends_compileVarDecls (fuel : Nat) :
    ∀ s, (compileVarDecls fuel).ExtendsAt s (compileVarDecls (fuel + 1)) := by
  induction fuel with
  | zero => exact fun s => extends_outOfFuel s _
  | succ fuel ih =>
    intro s
    conv => arg 2; rw [compileVarDecls]
    conv => arg 3; rw [compileVarDecls]
    repeat' first
      | with_reducible exact extends_refl _ _
      | with_reducible exact ih _
      | with_reducible exact extends_compileVarDecl _ _
      | with_reducible apply extends_getState_bind
      | with_reducible apply extends_bind
      | intro _ _
      | split

theorem extends_compileParams2 (fuel : Nat) :
    ∀ s, (compileParams2 fuel).ExtendsAt s (compileParams2 (fuel + 1)) := by
  induction fuel with
  | zero => exact fun s => extends_outOfFuel s _
  | succ fuel ih =>
    intro s
    conv => arg 2; rw [compileParams2]
    conv => arg 3; rw [compileParams2]
    repeat' first
      | with_reducible exact extends_refl _ _
      | with_reducible exact ih _
      | with_reducible apply extends_getState_bind
      | with_reducible apply extends_bind
      | intro _ _
      | split

theorem extends_compileParams (fuel : Nat) (s : State) :
    (compileParams fuel).ExtendsAt s (compileParams (fuel + 1)) := by
  unfold compileParams
  repeat' first
    | with_reducible exact extends_refl _ _
    | with_reducible exact extends_compileParams2 _ _
    | with_reducible apply extends_getState_bind
    | with_reducible apply extends_bind
    | intro _ _
    | split

theorem extends_compileAssignStVariables (fuel : Nat) :
    ∀ n s, (compileAssignStVariables fuel n).ExtendsAt s (compileAssignStVariables (fuel + 1) n) := by
  induction fuel with
  | zero => exact fun n s => extends_outOfFuel s _
  | succ fuel ih =>
    intro n s
    conv => arg 2; rw [compileAssignStVariables]
    conv => arg 3; rw [compileAssignStVariables]
    repeat' first
      | with_reducible exact extends_refl _ _
      | with_reducible exact ih _ _
      | with_reducible apply extends_getState_bind
      | with_reducible apply extends_bind
      | intro _ _
      | split

theorem extends_compileAssignStExpressions (fuel : Nat) :
    ∀ n s, (compileAssignStExpressions fuel n).ExtendsAt s (compileAssignStExpressions (fuel + 1) n) := by
  induction fuel with
  | zero => exact fun n s => extends_outOfFuel s _
  | succ fuel ih =>
    intro n s
    conv => arg 2; rw [compileAssignStExpressions]
    conv => arg 3; rw [compileAssignStExpressions]
    repeat' first
      | with_reducible exact extends_refl _ _
      | with_reducible exact ih _ _
      | with_reducible exact extends_compileExpression _ _
      | with_reducible apply extends_getState_bind
      | with_reducible apply extends_bind
      | intro _ _
      | split

theorem extends_compileAssignSt (fuel : Nat) (s : State) :
    (compileAssignSt fuel).ExtendsAt s (compileAssignSt (fuel + 1)) := by
  unfold compileAssignSt
  repeat' first
    | with_reducible exact extends_refl _ _
    | with_reducible exact extends_compileIndexes _ _
    | with_reducible exact extends_compileExpression _ _
    | with_reducible exact extends_compileAssignStVariables _ _ _
    | with_reducible exact extends_compileAssignStExpressions _ _ _
    | with_reducible apply extends_getState_bind
    | with_reducible apply extends_bind
    | intro _ _
    | split

theorem extends_compileCallSt (fuel : Nat) (s : State) :
    (compileCallSt fuel).ExtendsAt s (compileCallSt (fuel + 1)) := by
  unfold compileCallSt
  repeat' first
    | with_reducible exact extends_refl _ _
    | with_reducible exact extends_compileArguments _ _
    | with_reducible apply extends_getState_bind
    | with_reducible apply extends_bind
    | intro _ _
    | split

theorem extends_statements (fuel : Nat) :
    (∀ s, (compileStatements fuel).ExtendsAt s (compileStatements (fuel + 1))) ∧
    (∀ s, (compileStatements2 fuel).ExtendsAt s (compileStatements2 (fuel + 1))) ∧
    (∀ s, (compileStatement fuel).ExtendsAt s (compileStatement (fuel + 1))) ∧
    (∀ s, (compileGroupSt fuel).ExtendsAt s (compileGroupSt (fuel + 1))) ∧
    (∀ s, (compileIfSt fuel).ExtendsAt s (compileIfSt (fuel + 1))) ∧
    (∀ s, (compileElseSt fuel).ExtendsAt s (compileElseSt (fuel + 1))) ∧
    (∀ s, (compileWhileSt fuel).ExtendsAt s (compileWhileSt (fuel + 1))) ∧
    (∀ s, (compileForSt fuel).ExtendsAt s (compileForSt (fuel + 1))) ∧
    (∀ s, (compileRepeatSt fuel).ExtendsAt s (compileRepeatSt (fuel + 1))) := by
  induction fuel with
  | zero =>
    refine ⟨?_, ?_, ?_, ?_, ?_, ?_, ?_, ?_, ?_⟩ <;> exact fun s => extends_outOfFuel s _
  | succ fuel ih =>
    obtain ⟨ih1, ih2, ih3, ih4, ih5, ih6, ih7, ih8, ih9⟩ := ih
    refine ⟨?_, ?_, ?_, ?_, ?_, ?_, ?_, ?_, ?_⟩ <;> intro s
    all_goals conv => arg 2; first | rw [compileStatements] | rw [compileStatements2] | rw [compileStatement] | rw [compileGroupSt] | rw [compileIfSt] | rw [compileElseSt] | rw [compileWhileSt] | rw [compileForSt] | rw [compileRepeatSt]
    all_goals conv => arg 3; first | rw [compileStatements] | rw [compileStatements2] | rw [compileStatement] | rw [compileGroupSt] | rw [compileIfSt] | rw [compileElseSt] | rw [compileWhileSt] | rw [compileForSt] | rw [compileRepeatSt]
    all_goals
      repeat' first
        | with_reducible exact extends_refl _ _
        | with_reducible exact ih1 _
        | with_reducible exact ih2 _
        | with_reducible exact ih3 _
        | with_reducible exact ih4 _
        | with_reducible exact ih5 _
        | with_reducible exact ih6 _
        | with_reducible exact ih7 _
        | with_reducible exact ih8 _
        | with_reducible exact ih9 _
        | with_reducible exact extends_compileAssignSt _ _
        | with_reducible exact extends_compileCallSt _ _
        | with_reducible exact extends_compileCondition _ _
        | with_reducible exact extends_compileExpression _ _
        | with_reducible apply extends_getState_bind
        | with_reducible apply extends_bind
        | intro _ _
        | split

theorem extends_compileStatements (fuel : Nat) (s : State) :
    (compileStatements fuel).ExtendsAt s (compileStatements (fuel + 1)) :=
  (extends_statements fuel).1 s

theorem extends_compileStatements2 (fuel : Nat) (s : State) :
    (compileStatements2 fuel).ExtendsAt s (compileStatements2 (fuel + 1)) :=
  (extends_statements fuel).2.1 s

theorem extends_compileStatement (fuel : Nat) (s : State) :
    (compileStatement fuel).ExtendsAt s (compileStatement (fuel + 1)) :=
  (extends_statements fuel).2.2.1 s

theorem extends_compileGroupSt (fuel : Nat) (s : State) :
    (compileGroupSt fuel).ExtendsAt s (compileGroupSt (fuel + 1)) :=
  (extends_statements fuel).2.2.2.1 s

theorem extends_compileIfSt (fuel : Nat) (s : State) :
    (compileIfSt fuel).ExtendsAt s (compileIfSt (fuel + 1)) :=
  (extends_statements fuel).2.2.2.2.1 s

theorem extends_compileElseSt (fuel : Nat) (s : State) :
    (compileElseSt fuel).ExtendsAt s (compileElseSt (fuel + 1)) :=
  (extends_statements fuel).2.2.2.2.2.1 s

theorem extends_compileWhileSt (fuel : Nat) (s : State) :
    (compileWhileSt fuel).ExtendsAt s (compileWhileSt (fuel + 1)) :=
  (extends_statements fuel).2.2.2.2.2.2.1 s

theorem extends_compileForSt (fuel : Nat) (s : State) :
    (compileForSt fuel).ExtendsAt s (compileForSt (fuel + 1)) :=
  (extends_statements fuel).2.2.2.2.2.2.2.1 s

theorem extends_compileRepeatSt (fuel : Nat) (s : State) :
    (compileRepeatSt fuel).ExtendsAt s (compileRepeatSt (fuel + 1)) :=
  (extends_statements fuel).2.2.2.2.2.2.2.2 s

theorem extends_compileBlock5 (fuel : Nat) (s : State) :
    (compileBlock5 fuel).ExtendsAt s (compileBlock5 (fuel + 1)) := by
  unfold compileBlock5
  repeat' first
    | with_reducible exact extends_refl _ _
    | with_reducible exact extends_compileStatements _ _
    | with_reducible apply extends_getState_bind
    | with_reducible apply extends_bind
    | intro _ _
    | split

theorem extends_blocks (fuel : Nat) :
    (∀ s, (compileBlock fuel).ExtendsAt s (compileBlock (fuel + 1))) ∧
    (∀ s, (compileBlock2 fuel).ExtendsAt s (compileBlock2 (fuel + 1))) ∧
    (∀ s, (compileBlock3 fuel).ExtendsAt s (compileBlock3 (fuel + 1))) ∧
    (∀ s, (compileBlock4 fuel).ExtendsAt s (compileBlock4 (fuel + 1))) ∧
    (∀ s, (compileSubDecls fuel).ExtendsAt s (compileSubDecls (fuel + 1))) ∧
    (∀ s, (compileFuncDecl fuel).ExtendsAt s (compileFuncDecl (fuel + 1))) ∧
    (∀ s, (compileProcDecl fuel).ExtendsAt s (compileProcDecl (fuel + 1))) := by
  induction fuel with
  | zero =>
    refine ⟨?_, ?_, ?_, ?_, ?_, ?_, ?_⟩ <;> exact fun s => extends_outOfFuel s _
  | succ fuel ih =>
    obtain ⟨ih1, ih2, ih3, ih4, ih5, ih6, ih7⟩ := ih
    refine ⟨?_, ?_, ?_, ?_, ?_, ?_, ?_⟩ <;> intro s
    all_goals conv => arg 2; first | rw [compileBlock] | rw [compileBlock2] | rw [compileBlock3] | rw [compileBlock4] | rw [compileSubDecls] | rw [compileFuncDecl] | rw [compileProcDecl]
    all_goals conv => arg 3; first | rw [compileBlock] | rw [compileBlock2] | rw [compileBlock3] | rw [compileBlock4] | rw [compileSubDecls] | rw [compileFuncDecl] | rw [compileProcDecl]
    all_goals
      repeat' first
        | with_reducible exact extends_refl _ _
        | with_reducible exact ih1 _
        | with_reducible exact ih2 _
        | with_reducible exact ih3 _
        | with_reducible exact ih4 _
        | with_reducible exact ih5 _
        | with_reducible exact ih6 _
        | with_reducible exact ih7 _
        | with_reducible exact extends_compileConstDecl _ _
        | with_reducible exact extends_compileConstDecls _ _
        | with_reducible exact extends_compileTypeDecl _ _
        | with_reducible exact extends_compileTypeDecls _ _
        | with_reducible exact extends_compileVarDecl _ _
        | with_reducible exact extends_compileVarDecls _ _
        | with_reducible exact extends_compileBlock5 _ _
        | with_reducible exact extends_compileParams _ _
        | with_reducible apply extends_getState_bind
        | with_reducible apply extends_bind
        | intro _ _
        | split

theorem extends_compileBlock (fuel : Nat) (s : State) :
    (compileBlock fuel).ExtendsAt s (compileBlock (fuel + 1)) :=
  (extends_blocks fuel).1 s

theorem extends_compileBlock2 (fuel : Nat) (s : State) :
    (compileBlock2 fuel).ExtendsAt s (compileBlock2 (fuel + 1)) :=
  (extends_blocks fuel).2.1 s

theorem extends_compileBlock3 (fuel : Nat) (s : State) :
    (compileBlock3 fuel).ExtendsAt s (compileBlock3 (fuel + 1)) :=
  (extends_blocks fuel).2.2.1 s

theorem extends_compileBlock4 (fuel : Nat) (s : State) :
    (compileBlock4 fuel).ExtendsAt s (compileBlock4 (fuel + 1)) :=
  (extends_blocks fuel).2.2.2.1 s

theorem extends_compileSubDecls (fuel : Nat) (s : State) :
    (compileSubDecls fuel).ExtendsAt s (compileSubDecls (fuel + 1)) :=
  (extends_blocks fuel).2.2.2.2.1 s

theorem extends_compileFuncDecl (fuel : Nat) (s : State) :
    (compileFuncDecl fuel).ExtendsAt s (compileFuncDecl (fuel + 1)) :=
  (extends_blocks fuel).2.2.2.2.2.1 s

theorem extends_compileProcDecl (fuel : Nat) (s : State) :
    (compileProcDecl fuel).ExtendsAt s (compileProcDecl (fuel + 1)) :=
  (extends_blocks fuel).2.2.2.2.2.2 s

theorem extends_compileProgram (fuel : Nat) (s : State) :
    (compileProgram fuel).ExtendsAt s (compileProgram (fuel + 1)) := by
  unfold compileProgram
  repeat' first
    | with_reducible exact extends_refl _ _
    | with_reducible exact extends_compileBlock _ _
    | with_reducible apply extends_getState_bind
    | with_reducible apply extends_bind
    | intro _ _
    | split

theorem extends_le {α : Type} {P : Nat → Compile α}
    (h : ∀ n s, (P n).ExtendsAt s (P (n + 1))) {n m : Nat} (hnm : n ≤ m) (s : State) :
    (P n).ExtendsAt s (P m) := by
  induction hnm with
  | refl => exact extends_refl _ _
  | step _ ih =>
    intro hne
    rw [h _ s (by rw [ih hne]; exact hne), ih hne]

theorem compileExpression_fuel {n m : Nat} {s s1 : State}
    (h : compileExpression n s = .ok () s1) (hnm : n ≤ m) :
    compileExpression m s = .ok () s1 := by
  rw [extends_le extends_compileExpression hnm s (by simp [h]), h]

/-! ### Runs of single productions -/

theorem arrayChain_zero (b : TokenType) : arrayChain 0 b = [b] := by
  simp [arrayChain]

theorem arrayChain_succ (n : Nat) (b : TokenType) :
    arrayChain (n + 1) b = KW_ARRAY :: SB_LSEL :: TK_NUMBER :: SB_RSEL :: KW_OF :: arrayChain n b := by
  simp [arrayChain, List.replicate_succ]

/-- The run of `compileType` on a chain of `n` array constructors that ends in
a basic type. -/
theorem compileType_arrayChain_eval (n : Nat) (b : TokenType)
    (hb : b = KW_INTEGER ∨ b = KW_CHAR) (fuel : Nat) (s : State)
    (hs : (s.upcoming (5 * n + 1)).map Token.tokenType = arrayChain n b) :
    compileType (fuel + n + 1) s = .ok () (s.skip (5 * n + 1)) := by
  induction n generalizing s with
  | zero =>
    simp only [Nat.mul_zero, Nat.zero_add, State.upcoming_succ, State.upcoming_zero,
      List.map_cons, List.map_nil, arrayChain_zero, List.cons.injEq, and_true] at hs
    simp only [Nat.add_zero, compileType, getState_bind]
    rcases hb with hb | hb <;> subst hb <;> rw [hs] <;> simp only []
    · rw [← hs, eat_self]; rfl
    · rw [← hs, eat_self]; rfl
  | succ n ih =>
    have e1 : 5 * (n + 1) + 1 = (5 * n + 1) + 1 + 1 + 1 + 1 + 1 := by omega
    rw [e1] at hs ⊢
    rw [State.upcoming_succ, State.upcoming_succ, State.upcoming_succ, State.upcoming_succ,
      State.upcoming_succ] at hs
    simp only [List.map_cons, arrayChain_succ, List.cons.injEq] at hs
    obtain ⟨h1, h2, h3, h4, h5, hrest⟩ := hs
    have e2 : fuel + (n + 1) + 1 = (fuel + n + 1) + 1 := by omega
    rw [e2, compileType, getState_bind, h1]
    simp only []
    rw [bind_ok (eat_ok h1), bind_ok (eat_ok h2), bind_ok (eat_ok h3), bind_ok (eat_ok h4),
      bind_ok (eat_ok h5), ih _ hrest]
    rfl

theorem flatten_replicate_succ {α : Type} (n : Nat) (l : List α) :
    (List.replicate (n + 1) l).flatten = l ++ (List.replicate n l).flatten := by
  simp [List.replicate_succ]

/-- The first loop of `compileAssignSt` on `n` repetitions of `, identifier`
followed by a token that is no comma. -/
theorem compileAssignStVariables_eval (n : Nat) (fuel c : Nat) (s : State)
    (hs : (s.upcoming (2 * n)).map Token.tokenType =
      (List.replicate n [SB_COMMA, TK_IDENT]).flatten)
    (hend : (s.skip (2 * n)).lookAhead.tokenType ≠ SB_COMMA) :
    compileAssignStVariables (fuel + n + 1) c s = .ok (c + n) (s.skip (2 * n)) := by
  induction n generalizing s c with
  | zero =>
    simp only [Nat.mul_zero, State.skip] at hend
    simp only [Nat.add_zero, compileAssignStVariables, getState_bind, if_neg hend]
    rfl
  | succ n ih =>
    have e1 : 2 * (n + 1) = 2 * n + 1 + 1 := by omega
    rw [e1] at hs hend ⊢
    rw [State.upcoming_succ, State.upcoming_succ, flatten_replicate_succ] at hs
    simp only [List.map_cons, List.cons_append, List.nil_append, List.cons.injEq] at hs
    obtain ⟨h1, h2, hrest⟩ := hs
    have e2 : fuel + (n + 1) + 1 = (fuel + n + 1) + 1 := by omega
    rw [e2, compileAssignStVariables, getState_bind, if_pos h1, bind_ok (eat_ok h1),
      bind_ok (eat_ok h2), ih (c + 1) _ hrest hend]
    have e3 : c + 1 + n = c + (n + 1) := by omega
    rw [e3]
    rfl

/-- The first expression and the second loop of `compileAssignSt` on a list of
`m` expressions: with enough fuel they return the count `c + m`. -/
theorem compileAssignStExpressions_eval {s s2 : State} {m : Nat}
    (h : ExpressionList s m s2) :
    ∃ fuel0, ∀ fuel, fuel0 ≤ fuel → ∀ c,
      (compileExpression fuel >>= fun _ => compileAssignStExpressions fuel (c + 1)) s =
        .ok (c + m) s2 := by
  induction h with
  | last s s1 hexp hend =>
    obtain ⟨f1, hf1⟩ := hexp
    refine ⟨f1 + 1, fun fuel hfuel c => ?_⟩
    rw [bind_ok (compileExpression_fuel hf1 (by omega))]
    obtain ⟨k, rfl⟩ : ∃ k, fuel = k + 1 := ⟨fuel - 1, by omega⟩
    simp only [compileAssignStExpressions, getState_bind, if_neg hend]
    rfl
  | cons s s1 s2 m hexp hcomma _ ih =>
    obtain ⟨f1, hf1⟩ := hexp
    obtain ⟨f2, hf2⟩ := ih
    refine ⟨f1 + f2 + 1, fun fuel hfuel c => ?_⟩
    rw [bind_ok (compileExpression_fuel hf1 (by omega))]
    obtain ⟨k, rfl⟩ : ∃ k, fuel = k + 1 := ⟨fuel - 1, by omega⟩
    rw [compileAssignStExpressions, getState_bind, if_pos hcomma, bind_ok (eat_ok hcomma),
      hf2 k (by omega) (c + 1)]
    have e3 : c + 1 + m = c + (m + 1) := by omega
    rw [e3]

/-- The run of `compileAssignSt` on `N` targets, `:=` and `M` expressions. -/
theorem compileAssignSt_eval (N M : Nat) (hN : 1 ≤ N) (s s2 : State)
    (htargets : (s.upcoming (2 * N)).map Token.tokenType = targetKinds N ++ [SB_ASSIGN])
    (hvalues : ExpressionList (s.skip (2 * N)) M s2) :
    ∃ fuel0, ∀ fuel, fuel0 ≤ fuel →
      compileAssignSt fuel s =
        if M ≠ N then
          .raised (.error ERR_INVALIDSTATEMENT s2.lookAhead.lineNo s2.lookAhead.colNo) s2
        else .ok () s2 := by
  obtain ⟨n, rfl⟩ : ∃ n, N = n + 1 := ⟨N - 1, by omega⟩
  obtain ⟨f2, hf2⟩ := compileAssignStExpressions_eval hvalues
  have e1 : 2 * (n + 1) = (2 * n + 1) + 1 := by omega
  have e0 : 2 * n + 1 = (2 * n) + 1 := rfl
  rw [e1] at htargets hvalues hf2
  -- the token sequence: the first identifier, `n` times `, identifier`, and `:=`
  have hassign : (s.skip (2 * n + 1)).lookAhead.tokenType = SB_ASSIGN := by
    rw [State.skip_lookAhead_upcoming, List.map_append] at htargets
    have hlen : (List.map Token.tokenType (s.upcoming (2 * n + 1))).length =
        (targetKinds (n + 1)).length := by
      simp [targetKinds, State.upcoming_length]
      omega
    have := (List.append_inj htargets hlen).2
    simpa using this
  have hfirst : s.lookAhead.tokenType = TK_IDENT ∧
      (s.advance.upcoming (2 * n)).map Token.tokenType =
        (List.replicate n [SB_COMMA, TK_IDENT]).flatten := by
    rw [State.skip_lookAhead_upcoming, List.map_append] at htargets
    have hlen : (List.map Token.tokenType (s.upcoming (2 * n + 1))).length =
        (targetKinds (n + 1)).length := by
      simp [targetKinds, State.upcoming_length]
      omega
    have h := (List.append_inj htargets hlen).1
    rw [State.upcoming_succ] at h
    simpa [targetKinds] using h
  obtain ⟨hid, hcommas⟩ := hfirst
  have hnc : (s.advance.skip (2 * n)).lookAhead.tokenType ≠ SB_COMMA := by
    rw [State.skip_succ, hassign]
    decide
  refine ⟨f2 + n + 1, fun fuel hfuel => ?_⟩
  have hsel : s.advance.lookAhead.tokenType ≠ SB_LSEL := by
    cases n with
    | zero =>
      have := hassign
      simp only [Nat.mul_zero, Nat.zero_add, State.skip] at this
      rw [this]
      decide
    | succ n =>
      have e4 : 2 * (n + 1) = 2 * n + 1 + 1 := by omega
      rw [e4, State.upcoming_succ, flatten_replicate_succ] at hcommas
      simp only [List.map_cons, List.cons_append, List.cons.injEq] at hcommas
      rw [hcommas.1]
      decide
  obtain ⟨k, rfl⟩ : ∃ k, fuel = k + n + 1 := ⟨fuel - n - 1, by omega⟩
  unfold compileAssignSt
  rw [bind_ok (eat_ok hid), getState_bind, if_neg hsel]
  rw [bind_ok (pure_eq _ _)]
  beta_reduce
  rw [bind_ok (compileAssignStVariables_eval n k 1 _ hcommas hnc)]
  rw [State.skip_succ, bind_ok (eat_ok hassign), State.skip_advance]
  have h3 := hf2 (k + n + 1) (by omega) 0
  rw [bind_eq] at h3 ⊢
  cases hce : compileExpression (k + n + 1) (s.skip (2 * n + 1 + 1)) with
  | ok a s1 =>
    rw [hce] at h3
    simp only [] at h3 ⊢
    rw [bind_ok h3]
    simp only [Nat.zero_add]
    split
    · rename_i hne
      rw [getState_bind, if_pos (by omega)]
      rfl
    · rename_i heq
      rw [if_neg (by omega)]
      rfl
  | raised e s1 => rw [hce] at h3; simp at h3
  | outOfFuel => rw [hce] at h3; simp at h3

/-- The call statement with an unclosed argument list, evaluated: the second
call of `compileArguments2` finds the end marker where it accepts `,` or `)`
only, and raises `ERR_INVALIDARGUMENTS` before `compileArguments` reaches its
`eat(SB_RPAR)`. -/
theorem compileCallSt_unclosed_eval (fuel : Nat) (cur : Option Token) (out : List Token)
    (t1 t2 t3 t4 t5 t6 eof : Token)
    (h1 : t1.tokenType = KW_CALL) (h2 : t2.tokenType = TK_IDENT) (h3 : t3.tokenType = SB_LPAR)
    (h4 : t4.tokenType = TK_NUMBER) (h5 : t5.tokenType = SB_COMMA)
    (h6 : t6.tokenType = TK_NUMBER) (h7 : eof.tokenType = TK_EOF) :
    compileCallSt (fuel + 6) ⟨cur, t1, ⟨[t2, t3, t4, t5, t6], eof⟩, out⟩ =
      .raised (.error ERR_INVALIDARGUMENTS eof.lineNo eof.colNo)
        ⟨some t6, eof, ⟨[], eof⟩, out ++ [t1, t2, t3, t4, t5, t6]⟩ := by
  simp [compileCallSt, compileArguments, compileArguments2, compileExpression,
    compileExpression2, compileExpression3, compileTerm, compileTerm2, compileFactor,
    eat, bind_eq, getState, printToken, scan, getValidToken, error, isAddOperator,
    isMultOperator, pure, Compile.pure, h1, h2, h3, h4, h5, h6, h7]

/-- The continuation of a statement list on a lookahead that is none of `;`,
`end`, `until`: the `eat(SB_SEMICOLON)` of the default branch does not match,
so it raises the missing-token event and the state is unchanged. -/
theorem compileStatements2_default_eval (fuel : Nat) (s : State)
    (h1 : s.lookAhead.tokenType ≠ SB_SEMICOLON) (h2 : s.lookAhead.tokenType ≠ KW_END)
    (h3 : s.lookAhead.tokenType ≠ KW_UNTIL) :
    compileStatements2 (fuel + 1) s =
      .raised (.missingToken SB_SEMICOLON s.lookAhead.lineNo s.lookAhead.colNo) s := by
  simp only [compileStatements2, getState_bind]
  rw [bind_raised (eat_raised h1)]

/-- The run of `compileConstant`: one optional sign, then a number or a
character literal. -/
theorem compileConstant_eval (s : State) :
    compileConstant s =
      if (afterSign s).lookAhead.tokenType = TK_NUMBER ∨
          (afterSign s).lookAhead.tokenType = TK_CHAR then
        .ok () (afterSign s).advance
      else
        .raised (.error ERR_INVALIDCONSTANT (afterSign s).lookAhead.lineNo
          (afterSign s).lookAhead.colNo) (afterSign s) := by
  unfold compileConstant afterSign
  rw [getState_bind]
  by_cases hs : isAddOperator s.lookAhead.tokenType = true
  · simp only [if_pos hs]
    rw [bind_ok (eat_self s)]
    unfold compileUnsignedConstant
    rw [getState_bind]
    split
    · exact eat_self _
    · rfl
  · simp only [if_neg hs]
    rw [bind_ok (pure_eq _ _)]
    unfold compileUnsignedConstant
    rw [getState_bind]
    split
    · exact eat_self _
    · rfl

theorem State.upcoming_add (s : State) (a b : Nat) :
    s.upcoming (a + b) = s.upcoming a ++ (s.skip a).upcoming b := by
  induction a generalizing s with
  | zero => simp [State.upcoming_zero, State.skip]
  | succ a ih =>
    have e : a + 1 + b = (a + b) + 1 := by omega
    rw [e, State.upcoming_succ, State.upcoming_succ, ih s.advance, State.skip_succ]
    rfl

/-- Skipping the tokens of an explicit list. -/
theorem State.skip_list (l1 : List Token) (cur : Option Token) (out l2 : List Token)
    (eof : Token) :
    State.skip l1.length
        { currentToken := cur
          lookAhead := (getValidToken ⟨l1 ++ l2, eof⟩).1
          source := (getValidToken ⟨l1 ++ l2, eof⟩).2
          printed := out } =
      { currentToken := (l1.getLast?).or cur
        lookAhead := (getValidToken ⟨l2, eof⟩).1
        source := (getValidToken ⟨l2, eof⟩).2
        printed := out ++ l1 } := by
  induction l1 generalizing cur out with
  | nil => simp [State.skip]
  | cons t l1 ih =>
    have h := ih (some t) (out ++ [t])
    simp only [List.length_cons, State.skip, List.cons_append]
    have hadv : State.advance
        { currentToken := cur
          lookAhead := (getValidToken ⟨t :: (l1 ++ l2), eof⟩).1
          source := (getValidToken ⟨t :: (l1 ++ l2), eof⟩).2
          printed := out } =
        { currentToken := some t
          lookAhead := (getValidToken ⟨l1 ++ l2, eof⟩).1
          source := (getValidToken ⟨l1 ++ l2, eof⟩).2
          printed := out ++ [t] } := rfl
    rw [hadv, h]
    congr 1
    · cases l1 with
      | nil => rfl
      | cons u l1 =>
        rw [List.getLast?_cons_cons, List.getLast?_eq_getLast _ (List.cons_ne_nil u l1)]
        rfl
    · simp

/-- The loop of `eatCommaIdentList` on `m` repetitions of `, identifier`
followed by a token that is no comma. -/
theorem eatCommaIdentList_eval (m : Nat) (fuel : Nat) (s : State)
    (hs : (s.upcoming (2 * m)).map Token.tokenType =
      (List.replicate m [SB_COMMA, TK_IDENT]).flatten)
    (hend : (s.skip (2 * m)).lookAhead.tokenType ≠ SB_COMMA) :
    eatCommaIdentList (fuel + m + 1) s = .ok () (s.skip (2 * m)) := by
  induction m generalizing s with
  | zero =>
    simp only [Nat.mul_zero, State.skip] at hend
    simp only [Nat.add_zero, eatCommaIdentList, getState_bind, if_neg hend]
    rfl
  | succ m ih =>
    have e1 : 2 * (m + 1) = 2 * m + 1 + 1 := by omega
    rw [e1] at hs hend ⊢
    rw [State.upcoming_succ, State.upcoming_succ, flatten_replicate_succ] at hs
    simp only [List.map_cons, List.cons_append, List.nil_append, List.cons.injEq] at hs
    obtain ⟨h1, h2, hrest⟩ := hs
    have e2 : fuel + (m + 1) + 1 = (fuel + m + 1) + 1 := by omega
    rw [e2, eatCommaIdentList, getState_bind, if_pos h1, bind_ok (eat_ok h1),
      bind_ok (eat_ok h2), ih _ hrest hend]
    rfl


theorem length_flatten_replicate_pair {α : Type} (m : Nat) (a b : α) :
    (List.replicate m [a, b]).flatten.length = 2 * m := by
  induction m with
  | zero => rfl
  | succ m ih => rw [flatten_replicate_succ, List.length_append, ih]; simp; omega

/-- The run of `compileProgram` on a program whose only declaration is one
`var` declaration of `m + 1` identifiers of type `integer`, with an empty
body. -/
theorem compileProgram_varDecl_eval (m fuel : Nat) (s : State)
    (hk : (s.upcoming (5 + (2 * m + 6))).map Token.tokenType =
      [KW_PROGRAM, TK_IDENT, SB_SEMICOLON, KW_VAR, TK_IDENT] ++
        ((List.replicate m [SB_COMMA, TK_IDENT]).flatten ++
          [SB_COLON, KW_INTEGER, SB_SEMICOLON, KW_BEGIN, KW_END, SB_PERIOD])) :
    compileProgram (fuel + m + 6) s = .ok () (s.skip (5 + (2 * m + 6))) := by
  rw [State.upcoming_add, List.map_append] at hk
  obtain ⟨hA, hB⟩ := List.append_inj hk (by simp [State.upcoming_length])
  rw [State.upcoming_add, List.map_append] at hB
  obtain ⟨hC, hD⟩ := List.append_inj hB
    (by rw [List.length_map, State.upcoming_length, length_flatten_replicate_pair])
  simp only [State.upcoming_succ, State.upcoming_zero, List.map_cons, List.map_nil,
    List.cons.injEq, and_true] at hA hD
  obtain ⟨h1, h2, h3, h4, h5⟩ := hA
  obtain ⟨h6, h7, h8, h9, h10, h11⟩ := hD
  have hE : eatCommaIdentList (fuel + m + 3) (s.skip 5) = .ok () ((s.skip 5).skip (2 * m)) := by
    have h := eatCommaIdentList_eval m (fuel + 2) (s.skip 5) hC (by rw [h6]; decide)
    rwa [show fuel + 2 + m + 1 = fuel + m + 3 by omega] at h
  have e5 : s.skip 5 = s.advance.advance.advance.advance.advance := rfl
  have e6 : ∀ x : State, x.skip 6 = x.advance.advance.advance.advance.advance.advance :=
    fun _ => rfl
  rw [← State.skip_add, ← State.skip_add, e6]
  rw [e5] at hE h6 h7 h8 h9 h10 h11 ⊢
  simp [compileProgram, compileBlock, compileBlock2, compileBlock3, compileBlock4,
    compileBlock5, compileSubDecls, compileVarDecl, compileVarDecls, compileType,
    compileStatements, compileStatement, compileStatements2, isSubroutineDecl,
    bind_eq, getState, eat_ok, pure, Compile.pure, hE,
    h1, h2, h3, h4, h5, h6, h7, h8, h9, h10, h11]

/-- The state reached from the initial state once the whole list of tokens of
the source is consumed. -/
theorem initialState_skip_all (l : List Token) (eof : Token) :
    (initialState ⟨l, eof⟩).skip l.length =
      { currentToken := l.getLast?, lookAhead := eof, source := ⟨[], eof⟩, printed := l } := by
  have h := State.skip_list l none [] [] eof
  simp only [List.append_nil, List.nil_append] at h
  unfold initialState
  rw [h]
  cases l.getLast? <;> rfl

/-- On a literal, `compileFactor` matches it. -/
theorem compileFactor_literal (fuel : Nat) (s : State)
    (h : isLiteral s.lookAhead.tokenType = true) :
    compileFactor (fuel + 1) s = .ok () s.advance := by
  rw [compileFactor, getState_bind]
  simp only [isLiteral, Bool.or_eq_true, decide_eq_true_eq] at h
  rcases h with h | h
  · rw [h]
    exact eat_ok h
  · rw [h]
    exact eat_ok h

/-- The two loops of an expression, `compileTerm2` and then
`compileExpression3`, on `k` pairs `operator literal` followed by a token that
is no binary operator. -/
theorem compileTerm2_compileExpression3_eval (k : Nat) (f1 f2 : Nat) (s : State)
    (hf1 : k + 1 ≤ f1) (hf2 : k + 2 ≤ f2)
    (hs : operatorLiteralPairs ((s.upcoming (2 * k)).map Token.tokenType) = true)
    (hend : isBinaryOperator (s.skip (2 * k)).lookAhead.tokenType = false) :
    (compileTerm2 f1 >>= fun _ => compileExpression3 f2) s = .ok () (s.skip (2 * k)) := by
  induction k generalizing s f1 f2 with
  | zero =>
    obtain ⟨a, rfl⟩ : ∃ a, f1 = a + 1 := ⟨f1 - 1, by omega⟩
    obtain ⟨b, rfl⟩ : ∃ b, f2 = b + 1 := ⟨f2 - 1, by omega⟩
    simp only [Nat.mul_zero, State.skip, isBinaryOperator, Bool.or_eq_false_iff] at hend
    have ht : compileTerm2 (a + 1) s = .ok () s := by
      rw [compileTerm2, getState_bind]
      simp only [hend.2]
      rfl
    rw [bind_ok ht, compileExpression3, getState_bind]
    simp only [hend.1]
    rfl
  | succ k ih =>
    have e1 : 2 * (k + 1) = 2 * k + 1 + 1 := by omega
    rw [e1] at hs hend ⊢
    rw [State.upcoming_succ, State.upcoming_succ] at hs
    simp only [List.map_cons, operatorLiteralPairs, Bool.and_eq_true] at hs
    obtain ⟨⟨hop, hlit⟩, hrest⟩ := hs
    obtain ⟨a, rfl⟩ : ∃ a, f1 = a + 1 := ⟨f1 - 1, by omega⟩
    obtain ⟨b, rfl⟩ : ∃ b, f2 = b + 1 := ⟨f2 - 1, by omega⟩
    by_cases hm : isMultOperator s.lookAhead.tokenType = true
    · -- a multiplicative operator is taken by `compileTerm2`
      obtain ⟨a, rfl⟩ : ∃ c, a = c + 1 := ⟨a - 1, by omega⟩
      have ht : ∀ g : Unit → Compile Unit,
          (compileTerm2 (a + 1 + 1) >>= g) s = (compileTerm2 (a + 1) >>= g) s.advance.advance := by
        intro g
        rw [bind_eq, bind_eq]
        congr 1
        conv => lhs; rw [compileTerm2]
        rw [getState_bind, if_pos hm, bind_ok (eat_self s),
          bind_ok (compileFactor_literal a s.advance hlit)]
      rw [ht]
      exact ih (a + 1) (b + 1) _ (by omega) (by omega) hrest hend
    · -- an additive operator is left to `compileExpression3`
      have ha : isAddOperator s.lookAhead.tokenType = true := by
        simp only [isBinaryOperator, Bool.or_eq_true] at hop
        rcases hop with h | h
        · exact h
        · exact absurd h hm
      have ht : compileTerm2 (a + 1) s = .ok () s := by
        rw [compileTerm2, getState_bind, if_neg hm]
        rfl
      obtain ⟨b, rfl⟩ : ∃ c, b = c + 1 := ⟨b - 1, by omega⟩
      obtain ⟨b, rfl⟩ : ∃ c, b = c + 1 := ⟨b - 1, by omega⟩
      rw [bind_ok ht]
      conv => lhs; rw [compileExpression3]
      rw [getState_bind, if_pos ha, bind_ok (eat_self s)]
      have hterm : ∀ g : Unit → Compile Unit,
          (compileTerm (b + 1 + 1) >>= g) s.advance =
            (compileTerm2 (b + 1) >>= g) s.advance.advance := by
        intro g
        rw [bind_eq, bind_eq]
        congr 1
        rw [compileTerm, bind_ok (compileFactor_literal b s.advance hlit)]
      rw [hterm]
      exact ih (b + 1) (b + 1 + 1) _ (by omega) (by omega) hrest hend

/-- The run of `compileExpression` on an optional sign and an operator chain of
`k + 1` literals. -/
theorem compileExpression_chain_eval (k fuel : Nat) (s : State)
    (hs : operatorChain (((afterSign s).upcoming (2 * k + 1)).map Token.tokenType) = true)
    (hend : isBinaryOperator ((afterSign s).skip (2 * k + 1)).lookAhead.tokenType = false) :
    compileExpression (fuel + k + 4) s = .ok () ((afterSign s).skip (2 * k + 1)) := by
  rw [State.upcoming_succ] at hs
  simp only [List.map_cons, operatorChain, Bool.and_eq_true] at hs
  obtain ⟨hlit, hrest⟩ := hs
  have hloop := compileTerm2_compileExpression3_eval k (fuel + k + 1) (fuel + k + 2)
    (afterSign s).advance (by omega) (by omega) hrest hend
  have hexp2 : compileExpression2 (fuel + k + 3) (afterSign s) =
      .ok () ((afterSign s).skip (2 * k + 1)) := by
    rw [compileExpression2, bind_eq]
    conv => lhs; rw [compileTerm]
    rw [bind_ok (compileFactor_literal (fuel + k) (afterSign s) hlit)]
    rw [bind_eq] at hloop
    exact hloop
  rw [compileExpression, getState_bind]
  unfold afterSign at hexp2 ⊢
  by_cases hsign : isAddOperator s.lookAhead.tokenType = true
  · simp only [if_pos hsign] at hexp2 ⊢
    rw [bind_ok (eat_self s)]
    exact hexp2
  · simp only [if_neg hsign] at hexp2 ⊢
    rw [bind_ok (pure_eq _ _)]
    exact hexp2

theorem afterSign_skip (s : State) (j : Nat) :
    (afterSign s).skip j =
      s.skip (j + if isAddOperator s.lookAhead.tokenType = true then 1 else 0) := by
  unfold afterSign
  by_cases hsign : isAddOperator s.lookAhead.tokenType = true
  · simp only [if_pos hsign]
    rfl
  · simp only [if_neg hsign]
    rfl

theorem compileIndexes_fuel {n m : Nat} {s s1 : State}
    (h : compileIndexes n s = .ok () s1) (hnm : n ≤ m) :
    compileIndexes m s = .ok () s1 := by
  rw [extends_le extends_compileIndexes hnm s (by simp [h]), h]

/-- Without a selector, `compileIndexes` returns in the state in which it was
called. -/
theorem compileIndexes_none {f : Nat} {s s1 : State}
    (hsel : s.lookAhead.tokenType ≠ SB_LSEL) (h : compileIndexes f s = .ok () s1) :
    s1 = s := by
  cases f with
  | zero => simp [compileIndexes, outOfFuel] at h
  | succ f =>
    rw [compileIndexes, getState_bind, if_neg hsel] at h
    exact (Result.ok.inj h).2.symm

/-- The start of `compileAssignSt`: the first target and its selectors, which
`compileIndexes` consumes; `s1` is the state after them. -/
theorem compileAssignSt_first_target (g : Unit → Compile Unit) (F f : Nat) (s s1 : State)
    (hfirst : s.lookAhead.tokenType = TK_IDENT)
    (hidx : compileIndexes f s.advance = .ok () s1) (hF : f ≤ F) :
    (eat TK_IDENT >>= fun _ => getState >>= fun t =>
        if t.lookAhead.tokenType = SB_LSEL then compileIndexes F >>= g
        else pure PUnit.unit >>= g) s = g () s1 := by
  rw [bind_ok (eat_ok hfirst), getState_bind]
  by_cases hsel : s.advance.lookAhead.tokenType = SB_LSEL
  · rw [if_pos hsel, bind_ok (compileIndexes_fuel hidx hF)]
  · rw [if_neg hsel, bind_ok (pure_eq _ _), compileIndexes_none hsel hidx]

/-- The run of `compileAssignSt` when a target after the first one is followed
by `[`: the first loop stops on the `[` and `eat(SB_ASSIGN)` does not match. -/
theorem compileAssignSt_later_selector_eval (j f : Nat) (s s1 : State)
    (hfirst : s.lookAhead.tokenType = TK_IDENT)
    (hidx : compileIndexes f s.advance = .ok () s1)
    (hmore : (s1.upcoming (2 * j + 1)).map Token.tokenType =
      (List.replicate j [SB_COMMA, TK_IDENT]).flatten ++ [SB_LSEL])
    (fuel : Nat) (hfuel : f + j + 1 ≤ fuel) :
    compileAssignSt fuel s =
      .raised (.missingToken SB_ASSIGN (s1.skip (2 * j)).lookAhead.lineNo
        (s1.skip (2 * j)).lookAhead.colNo) (s1.skip (2 * j)) := by
  rw [State.skip_lookAhead_upcoming, List.map_append] at hmore
  obtain ⟨hcommas, hsel⟩ := List.append_inj hmore
    (by rw [List.length_map, State.upcoming_length, length_flatten_replicate_pair])
  simp only [List.map_cons, List.map_nil, List.cons.injEq, and_true] at hsel
  obtain ⟨k, rfl⟩ : ∃ k, fuel = k + j + 1 := ⟨fuel - j - 1, by omega⟩
  unfold compileAssignSt
  rw [compileAssignSt_first_target _ (k + j + 1) f s s1 hfirst hidx (by omega)]
  beta_reduce
  rw [bind_ok (compileAssignStVariables_eval j k 1 s1 hcommas (by rw [hsel]; decide))]
  exact bind_raised (eat_raised (by rw [hsel]; decide))

theorem Compile.bind_assoc {α β γ : Type} (p : Compile α) (f : α → Compile β)
    (g : β → Compile γ) : (p >>= f) >>= g = p >>= fun a => f a >>= g := by
  funext s
  rw [bind_eq, bind_eq, bind_eq]
  cases p s <;> rfl

theorem extends_constSection (fuel : Nat) (s : State) :
    (constSection fuel).ExtendsAt s (constSection (fuel + 1)) := by
  unfold constSection
  repeat' first
    | with_reducible exact extends_refl _ _
    | with_reducible exact extends_compileConstDecl _ _
    | with_reducible exact extends_compileConstDecls _ _
    | with_reducible apply extends_bind
    | intro _ _

theorem extends_typeSection (fuel : Nat) (s : State) :
    (typeSection fuel).ExtendsAt s (typeSection (fuel + 1)) := by
  unfold typeSection
  repeat' first
    | with_reducible exact extends_refl _ _
    | with_reducible exact extends_compileTypeDecl _ _
    | with_reducible exact extends_compileTypeDecls _ _
    | with_reducible apply extends_bind
    | intro _ _

theorem extends_varSection (fuel : Nat) (s : State) :
    (varSection fuel).ExtendsAt s (varSection (fuel + 1)) := by
  unfold varSection
  repeat' first
    | with_reducible exact extends_refl _ _
    | with_reducible exact extends_compileVarDecl _ _
    | with_reducible exact extends_compileVarDecls _ _
    | with_reducible apply extends_bind
    | intro _ _

/-- A block is its optional `const` section followed by `compileBlock2`. -/
theorem compileBlock_sections (fuel : Nat) (s : State) :
    compileBlock (fuel + 1) s =
      if s.lookAhead.tokenType = KW_CONST then
        (constSection fuel >>= fun _ => compileBlock2 fuel) s
      else compileBlock2 fuel s := by
  rw [compileBlock, getState_bind]
  split
  · unfold constSection
    simp only [Compile.bind_assoc]
  · rfl

theorem compileBlock2_sections (fuel : Nat) (s : State) :
    compileBlock2 (fuel + 1) s =
      if s.lookAhead.tokenType = KW_TYPE then
        (typeSection fuel >>= fun _ => compileBlock3 fuel) s
      else compileBlock3 fuel s := by
  rw [compileBlock2, getState_bind]
  split
  · unfold typeSection
    simp only [Compile.bind_assoc]
  · rfl

theorem compileBlock3_sections (fuel : Nat) (s : State) :
    compileBlock3 (fuel + 1) s =
      if s.lookAhead.tokenType = KW_VAR then
        (varSection fuel >>= fun _ => compileBlock4 fuel) s
      else compileBlock4 fuel s := by
  rw [compileBlock3, getState_bind]
  split
  · unfold varSection
    simp only [Compile.bind_assoc]
  · rfl

/-- After the declaration sections, a lookahead that starts neither a
subroutine nor the body stops the block on `eat(KW_BEGIN)`. -/
theorem compileBlock4_no_begin (fuel : Nat) (s : State)
    (h1 : isSubroutineDecl s.lookAhead.tokenType = false)
    (h2 : s.lookAhead.tokenType ≠ KW_BEGIN) :
    compileBlock4 (fuel + 2) s =
      .raised (.missingToken KW_BEGIN s.lookAhead.lineNo s.lookAhead.colNo) s := by
  have hsub : compileSubDecls (fuel + 1) s = .ok () s := by
    rw [compileSubDecls, getState_bind]
    simp only [h1]
    rfl
  rw [compileBlock4, bind_ok hsub]
  unfold compileBlock5
  exact bind_raised (eat_raised h2)

/-- Passing an optional section with enough fuel. -/
theorem OptionalSection.run {keyword : TokenType} {sec : Nat → Compile Unit} {s s1 : State}
    (h : OptionalSection keyword sec s s1)
    (hsec : ∀ n t, (sec n).ExtendsAt t (sec (n + 1))) :
    ∃ fuel0, ∀ fuel, fuel0 ≤ fuel → ∀ (next : Compile Unit),
      (if s.lookAhead.tokenType = keyword then (sec fuel >>= fun _ => next) s else next s) =
        next s1 := by
  cases h with
  | absent hne => exact ⟨0, fun fuel _ next => by rw [if_neg hne]⟩
  | present _ heq hrun =>
    obtain ⟨f, hf⟩ := hrun
    refine ⟨f, fun fuel hfuel next => ?_⟩
    have h2 : sec fuel s = .ok () s1 := by
      rw [extends_le hsec hfuel s (by simp [hf]), hf]
    rw [if_pos heq, bind_ok h2]

/-- The run of `compileBlock` when the lookahead after the declaration sections
starts neither a subroutine nor the body. -/
theorem compileBlock_no_begin_eval (b bc bt bv : State)
    (hc : OptionalSection KW_CONST constSection b bc)
    (ht : OptionalSection KW_TYPE typeSection bc bt)
    (hv : OptionalSection KW_VAR varSection bt bv)
    (h1 : isSubroutineDecl bv.lookAhead.tokenType = false)
    (h2 : bv.lookAhead.tokenType ≠ KW_BEGIN) :
    ∃ fuel0, ∀ fuel, fuel0 ≤ fuel →
      compileBlock fuel b =
        .raised (.missingToken KW_BEGIN bv.lookAhead.lineNo bv.lookAhead.colNo) bv := by
  obtain ⟨fc, hfc⟩ := hc.run extends_constSection
  obtain ⟨ft, hft⟩ := ht.run extends_typeSection
  obtain ⟨fv, hfv⟩ := hv.run extends_varSection
  refine ⟨fc + ft + fv + 5, fun fuel hfuel => ?_⟩
  obtain ⟨k, rfl⟩ : ∃ k, fuel = k + 2 + 1 + 1 + 1 := ⟨fuel - 5, by omega⟩
  rw [compileBlock_sections, hfc _ (by omega), compileBlock2_sections, hft _ (by omega),
    compileBlock3_sections, hfv _ (by omega)]
  exact compileBlock4_no_begin k bv h1 h2

/-! ### Every production terminates -/

theorem State.advance_endMarker (s : State) :
    s.advance.source.endMarker = s.source.endMarker := by
  unfold State.advance getValidToken
  cases s.source.pending <;> rfl

theorem State.skip_endMarker (k : Nat) (s : State) :
    (s.skip k).source.endMarker = s.source.endMarker := by
  induction k generalizing s with
  | zero => rfl
  | succ k ih => rw [← State.skip_succ, ih, State.advance_endMarker]

theorem State.remaining_advance_le (s : State)
    (heof : s.source.endMarker.tokenType = TK_EOF) : s.advance.remaining ≤ s.remaining := by
  unfold State.remaining State.advance getValidToken
  cases hp : s.source.pending with
  | nil => simp [heof, hp]
  | cons t ts =>
    simp only [List.length_cons]
    split <;> split <;> omega

theorem State.remaining_advance_lt (s : State)
    (heof : s.source.endMarker.tokenType = TK_EOF) (hla : s.lookAhead.tokenType ≠ TK_EOF) :
    s.advance.remaining < s.remaining := by
  unfold State.remaining State.advance getValidToken
  cases hp : s.source.pending with
  | nil => simp [heof, hla, hp]
  | cons t ts =>
    simp only [List.length_cons, if_neg hla]
    split <;> omega

theorem State.remaining_skip_le (k : Nat) (s : State)
    (heof : s.source.endMarker.tokenType = TK_EOF) : (s.skip k).remaining ≤ s.remaining := by
  induction k generalizing s with
  | zero => exact Nat.le_refl _
  | succ k ih =>
    rw [← State.skip_succ]
    exact Nat.le_trans (ih s.advance (by rw [State.advance_endMarker]; exact heof))
      (State.remaining_advance_le s heof)

theorem halts_zero {α : Type} {r : Nat} {s : State} {p : Compile α} (h : 1 ≤ r) :
    p.HaltsAt 0 r s :=
  ⟨fun _ hb => by omega⟩

theorem halts_weaken {α : Type} {n r r1 : Nat} {s : State} {p : Compile α} (h : r1 ≤ r)
    (hp : p.HaltsAt n r1 s) : p.HaltsAt n r s :=
  ⟨fun heof hb => hp.run heof (by omega)⟩

theorem halts_step {α : Type} {n r1 : Nat} {s : State} {p : Compile α} (r : Nat)
    (h : r + 1 ≤ r1) (hp : p.HaltsAt n r s) : p.HaltsAt (n + 1) r1 s :=
  ⟨fun heof hb => hp.run heof (by omega)⟩

theorem halts_pure {α : Type} (a : α) (n r : Nat) (s : State) :
    (pure a : Compile α).HaltsAt n r s :=
  ⟨fun _ _ h => by simp [pure_eq] at h⟩

theorem halts_error {α : Type} (err : ErrorCode) (l c : Int) (n r : Nat) (s : State) :
    (error err l c : Compile α).HaltsAt n r s :=
  ⟨fun _ _ h => by simp [error] at h⟩

theorem halts_eat (k : TokenType) (n r : Nat) (s : State) : (eat k).HaltsAt n r s := by
  refine ⟨fun _ _ h => ?_⟩
  by_cases hk : s.lookAhead.tokenType = k
  · rw [eat_ok hk] at h
    simp at h
  · rw [eat_raised hk] at h
    simp at h

theorem halts_getState_bind {β : Type} {f : State → Compile β} {n r : Nat} {s : State}
    (hf : (f s).HaltsAt n r s) : (getState >>= f).HaltsAt n r s :=
  ⟨hf.run⟩

theorem halts_bind {α β : Type} {p : Compile α} {f : α → Compile β} {n r : Nat} {s : State}
    (ht : p.TracksAt s) (hp : p.HaltsAt n r s) (hf : ∀ a s1, (f a).HaltsAt n r s1) :
    (p >>= f).HaltsAt n r s := by
  refine ⟨fun heof hb => ?_⟩
  have hne := hp.run heof hb
  unfold Compile.TracksAt at ht
  rw [bind_eq]
  cases hps : p s with
  | ok a s1 =>
    rw [hps] at ht
    obtain ⟨k, rfl⟩ := ht
    have hle := State.remaining_skip_le k s heof
    exact (hf a _).run (by rw [State.skip_endMarker]; exact heof) (by omega)
  | raised e s1 => simp
  | outOfFuel => exact absurd hps hne

theorem halts_consuming_bind {α β : Type} {p : Compile α} {f : α → Compile β} {n r : Nat}
    {s : State} (hc : p.ConsumesAt s) (hp : p.HaltsAt n r s)
    (hf : ∀ a s1, (f a).HaltsAt n 6 s1) : (p >>= f).HaltsAt n r s := by
  refine ⟨fun heof hb => ?_⟩
  have hne := hp.run heof hb
  rw [bind_eq]
  cases hps : p s with
  | ok a s1 =>
    obtain ⟨hla, k, rfl⟩ := hc a s1 hps
    have hlt := State.remaining_advance_lt s heof hla
    have hle := State.remaining_skip_le k s.advance
      (by rw [State.advance_endMarker]; exact heof)
    rw [State.skip_succ] at hle
    exact (hf a _).run (by rw [State.skip_endMarker]; exact heof) (by omega)
  | raised e s1 => simp
  | outOfFuel => exact absurd hps hne

theorem consumes_eat_bind {β : Type} {k : TokenType} {f : Unit → Compile β} {s : State}
    (hk : k ≠ TK_EOF) (hf : ∀ s1, (f ()).TracksAt s1) : (eat k >>= f).ConsumesAt s := by
  intro a s1 h
  by_cases hla : s.lookAhead.tokenType = k
  · rw [bind_ok (eat_ok hla)] at h
    have ht := hf s.advance
    unfold Compile.TracksAt at ht
    rw [h] at ht
    obtain ⟨j, hj⟩ := ht
    exact ⟨by rw [hla]; exact hk, j, by rw [hj, State.skip_succ]⟩
  · rw [bind_raised (eat_raised hla)] at h
    simp at h

theorem halts_eat_bind {β : Type} {k : TokenType} {f : Unit → Compile β} {n r : Nat}
    {s : State} (hk : k ≠ TK_EOF) (hf : ∀ s1, (f ()).HaltsAt n 6 s1) :
    (eat k >>= f).HaltsAt n r s := by
  refine ⟨fun heof hb => ?_⟩
  by_cases hla : s.lookAhead.tokenType = k
  · rw [bind_ok (eat_ok hla)]
    have hlt := State.remaining_advance_lt s heof (by rw [hla]; exact hk)
    exact (hf _).run (by rw [State.advance_endMarker]; exact heof) (by omega)
  · rw [bind_raised (eat_raised hla)]
    simp

theorem halts_eat_addOp_bind {β : Type} {f : Unit → Compile β} {n r : Nat} {s : State}
    (h : isAddOperator s.lookAhead.tokenType = true) (hf : ∀ s1, (f ()).HaltsAt n 6 s1) :
    (eat s.lookAhead.tokenType >>= f).HaltsAt n r s :=
  halts_eat_bind (by intro hk; rw [hk] at h; exact absurd h (by decide)) hf

theorem halts_eat_multOp_bind {β : Type} {f : Unit → Compile β} {n r : Nat} {s : State}
    (h : isMultOperator s.lookAhead.tokenType = true) (hf : ∀ s1, (f ()).HaltsAt n 6 s1) :
    (eat s.lookAhead.tokenType >>= f).HaltsAt n r s :=
  halts_eat_bind (by intro hk; rw [hk] at h; exact absurd h (by decide)) hf
theorem halts_eatCommaIdentList (n : Nat) : ∀ s, (eatCommaIdentList n).HaltsAt n 1 s := by
  induction n with
  | zero => exact fun _ => halts_zero (by decide)
  | succ n ih =>
    intro s
    rw [eatCommaIdentList]
    apply halts_step 0 (by decide)
    repeat' first
      | with_reducible exact halts_eat _ _ _ _
      | with_reducible exact halts_error _ _ _ _ _ _
      | with_reducible exact halts_pure _ _ _ _
      | with_reducible exact halts_weaken (by decide) (ih _)
      | with_reducible apply halts_getState_bind
      | with_reducible apply halts_eat_bind (by decide)
      | with_reducible apply halts_eat_addOp_bind (by assumption)
      | with_reducible apply halts_eat_multOp_bind (by assumption)
      | with_reducible apply halts_bind
      | with_reducible exact tracks_eat _ _
      | with_reducible exact tracks_error _ _
      | with_reducible exact tracks_pure _ _
      | with_reducible apply tracks_getState_bind
      | with_reducible apply tracks_bind
      | intro _ _
      | intro _
      | split

theorem halts_compileUnsignedConstant (n r : Nat) (s : State) : compileUnsignedConstant.HaltsAt n r s := by
  unfold compileUnsignedConstant
  repeat' first
    | with_reducible exact halts_eat _ _ _ _
    | with_reducible exact halts_error _ _ _ _ _ _
    | with_reducible exact halts_pure _ _ _ _
    | with_reducible apply halts_getState_bind
    | with_reducible apply halts_eat_bind (by decide)
    | with_reducible apply halts_eat_addOp_bind (by assumption)
    | with_reducible apply halts_eat_multOp_bind (by assumption)
    | with_reducible apply halts_bind
    | with_reducible exact tracks_eat _ _
    | with_reducible exact tracks_error _ _
    | with_reducible exact tracks_pure _ _
    | with_reducible apply tracks_getState_bind
    | with_reducible apply tracks_bind
    | intro _ _
    | intro _
    | split

theorem halts_compileConstant (n r : Nat) (s : State) : compileConstant.HaltsAt n r s := by
  unfold compileConstant
  repeat' first
    | with_reducible exact halts_eat _ _ _ _
    | with_reducible exact halts_error _ _ _ _ _ _
    | with_reducible exact halts_pure _ _ _ _
    | with_reducible exact halts_compileUnsignedConstant _ _ _
    | with_reducible apply halts_getState_bind
    | with_reducible apply halts_eat_bind (by decide)
    | with_reducible apply halts_eat_addOp_bind (by assumption)
    | with_reducible apply halts_eat_multOp_bind (by assumption)
    | with_reducible apply halts_bind
    | with_reducible exact tracks_eat _ _
    | with_reducible exact tracks_error _ _
    | with_reducible exact tracks_pure _ _
    | with_reducible exact tracks_compileUnsignedConstant _
    | with_reducible apply tracks_getState_bind
    | with_reducible apply tracks_bind
    | intro _ _
    | intro _
    | split

theorem halts_compileConstant2 (n r : Nat) (s : State) : compileConstant2.HaltsAt n r s := by
  unfold compileConstant2
  repeat' first
    | with_reducible exact halts_eat _ _ _ _
    | with_reducible exact halts_error _ _ _ _ _ _
    | with_reducible exact halts_pure _ _ _ _
    | with_reducible apply halts_getState_bind
    | with_reducible apply halts_eat_bind (by decide)
    | with_reducible apply halts_eat_addOp_bind (by assumption)
    | with_reducible apply halts_eat_multOp_bind (by assumption)
    | with_reducible apply halts_bind
    | with_reducible exact tracks_eat _ _
    | with_reducible exact tracks_error _ _
    | with_reducible exact tracks_pure _ _
    | with_reducible apply tracks_getState_bind
    | with_reducible apply tracks_bind
    | intro _ _
    | intro _
    | split

theorem halts_compileType (n : Nat) : ∀ s, (compileType n).HaltsAt n 1 s := by
  induction n with
  | zero => exact fun _ => halts_zero (by decide)
  | succ n ih =>
    intro s
    rw [compileType]
    apply halts_step 0 (by decide)
    repeat' first
      | with_reducible exact halts_eat _ _ _ _
      | with_reducible exact halts_error _ _ _ _ _ _
      | with_reducible exact halts_pure _ _ _ _
      | with_reducible exact halts_weaken (by decide) (ih _)
      | with_reducible apply halts_getState_bind
      | with_reducible apply halts_eat_bind (by decide)
      | with_reducible apply halts_eat_addOp_bind (by assumption)
      | with_reducible apply halts_eat_multOp_bind (by assumption)
      | with_reducible apply halts_bind
      | with_reducible exact tracks_eat _ _
      | with_reducible exact tracks_error _ _
      | with_reducible exact tracks_pure _ _
      | with_reducible apply tracks_getState_bind
      | with_reducible apply tracks_bind
      | intro _ _
      | intro _
      | split

theorem halts_compileBasicType (n r : Nat) (s : State) : compileBasicType.HaltsAt n r s := by
  unfold compileBasicType
  repeat' first
    | with_reducible exact halts_eat _ _ _ _
    | with_reducible exact halts_error _ _ _ _ _ _
    | with_reducible exact halts_pure _ _ _ _
    | with_reducible apply halts_getState_bind
    | with_reducible apply halts_eat_bind (by decide)
    | with_reducible apply halts_eat_addOp_bind (by assumption)
    | with_reducible apply halts_eat_multOp_bind (by assumption)
    | with_reducible apply halts_bind
    | with_reducible exact tracks_eat _ _
    | with_reducible exact tracks_error _ _
    | with_reducible exact tracks_pure _ _
    | with_reducible apply tracks_getState_bind
    | with_reducible apply tracks_bind
    | intro _ _
    | intro _
    | split

theorem halts_expressions (n : Nat) :
    (∀ s, (compileArguments n).HaltsAt n 1 s) ∧
    (∀ s, (compileArguments2 n).HaltsAt n 1 s) ∧
    (∀ s, (compileExpression n).HaltsAt n 4 s) ∧
    (∀ s, (compileExpression2 n).HaltsAt n 3 s) ∧
    (∀ s, (compileExpression3 n).HaltsAt n 1 s) ∧
    (∀ s, (compileTerm n).HaltsAt n 2 s) ∧
    (∀ s, (compileTerm2 n).HaltsAt n 1 s) ∧
    (∀ s, (compileFactor n).HaltsAt n 1 s) ∧
    (∀ s, (compileIndexes n).HaltsAt n 1 s) := by
  induction n with
  | zero =>
    refine ⟨?_, ?_, ?_, ?_, ?_, ?_, ?_, ?_, ?_⟩ <;> exact fun _ => halts_zero (by decide)
  | succ n ih =>
    obtain ⟨ih1, ih2, ih3, ih4, ih5, ih6, ih7, ih8, ih9⟩ := ih
    refine ⟨?_, ?_, ?_, ?_, ?_, ?_, ?_, ?_, ?_⟩
    · intro s
      rw [compileArguments]
      apply halts_step 0 (by decide)
      repeat' first
        | with_reducible exact halts_eat _ _ _ _
        | with_reducible exact halts_error _ _ _ _ _ _
        | with_reducible exact halts_pure _ _ _ _
        | with_reducible exact halts_weaken (by decide) (ih1 _)
        | with_reducible exact halts_weaken (by decide) (ih2 _)
        | with_reducible exact halts_weaken (by decide) (ih3 _)
        | with_reducible exact halts_weaken (by decide) (ih4 _)
        | with_reducible exact halts_weaken (by decide) (ih5 _)
        | with_reducible exact halts_weaken (by decide) (ih6 _)
        | with_reducible exact halts_weaken (by decide) (ih7 _)
        | with_reducible exact halts_weaken (by decide) (ih8 _)
        | with_reducible exact halts_weaken (by decide) (ih9 _)
        | with_reducible exact halts_weaken (by decide) (halts_compileArguments _ _)
        | with_reducible exact halts_weaken (by decide) (halts_compileArguments2 _ _)
        | with_reducible exact halts_weaken (by decide) (halts_compileExpression _ _)
        | with_reducible exact halts_weaken (by decide) (halts_compileExpression2 _ _)
        | with_reducible exact halts_weaken (by decide) (halts_compileExpression3 _ _)
        | with_reducible exact halts_weaken (by decide) (halts_compileTerm _ _)
        | with_reducible exact halts_weaken (by decide) (halts_compileTerm2 _ _)
        | with_reducible exact halts_weaken (by decide) (halts_compileFactor _ _)
        | with_reducible exact halts_weaken (by decide) (halts_compileIndexes _ _)
        | with_reducible apply halts_getState_bind
        | with_reducible apply halts_eat_bind (by decide)
        | with_reducible apply halts_eat_addOp_bind (by assumption)
        | with_reducible apply halts_eat_multOp_bind (by assumption)
        | with_reducible apply halts_bind
        | with_reducible exact tracks_eat _ _
        | with_reducible exact tracks_error _ _
        | with_reducible exact tracks_pure _ _
        | with_reducible exact tracks_compileArguments _ _
        | with_reducible exact tracks_compileArguments2 _ _
        | with_reducible exact tracks_compileExpression _ _
        | with_reducible exact tracks_compileExpression2 _ _
        | with_reducible exact tracks_compileExpression3 _ _
        | with_reducible exact tracks_compileTerm _ _
        | with_reducible exact tracks_compileTerm2 _ _
        | with_reducible exact tracks_compileFactor _ _
        | with_reducible exact tracks_compileIndexes _ _
        | with_reducible apply tracks_getState_bind
        | with_reducible apply tracks_bind
        | intro _ _
        | intro _
        | split
    · intro s
      rw [compileArguments2]
      apply halts_step 0 (by decide)
      repeat' first
        | with_reducible exact halts_eat _ _ _ _
        | with_reducible exact halts_error _ _ _ _ _ _
        | with_reducible exact halts_pure _ _ _ _
        | with_reducible exact halts_weaken (by decide) (ih1 _)
        | with_reducible exact halts_weaken (by decide) (ih2 _)
        | with_reducible exact halts_weaken (by decide) (ih3 _)
        | with_reducible exact halts_weaken (by decide) (ih4 _)
        | with_reducible exact halts_weaken (by decide) (ih5 _)
        | with_reducible exact halts_weaken (by decide) (ih6 _)
        | with_reducible exact halts_weaken (by decide) (ih7 _)
        | with_reducible exact halts_weaken (by decide) (ih8 _)
        | with_reducible exact halts_weaken (by decide) (ih9 _)
        | with_reducible exact halts_weaken (by decide) (halts_compileArguments _ _)
        | with_reducible exact halts_weaken (by decide) (halts_compileArguments2 _ _)
        | with_reducible exact halts_weaken (by decide) (halts_compileExpression _ _)
        | with_reducible exact halts_weaken (by decide) (halts_compileExpression2 _ _)
        | with_reducible exact halts_weaken (by decide) (halts_compileExpression3 _ _)
        | with_reducible exact halts_weaken (by decide) (halts_compileTerm _ _)
        | with_reducible exact halts_weaken (by decide) (halts_compileTerm2 _ _)
        | with_reducible exact halts_weaken (by decide) (halts_compileFactor _ _)
        | with_reducible exact halts_weaken (by decide) (halts_compileIndexes _ _)
        | with_reducible apply halts_getState_bind
        | with_reducible apply halts_eat_bind (by decide)
        | with_reducible apply halts_eat_addOp_bind (by assumption)
        | with_reducible apply halts_eat_multOp_bind (by assumption)
        | with_reducible apply halts_bind
        | with_reducible exact tracks_eat _ _
        | with_reducible exact tracks_error _ _
        | with_reducible exact tracks_pure _ _
        | with_reducible exact tracks_compileArguments _ _
        | with_reducible exact tracks_compileArguments2 _ _
        | with_reducible exact tracks_compileExpression _ _
        | with_reducible exact tracks_compileExpression2 _ _
        | with_reducible exact tracks_compileExpression3 _ _
        | with_reducible exact tracks_compileTerm _ _
        | with_reducible exact tracks_compileTerm2 _ _
        | with_reducible exact tracks_compileFactor _ _
        | with_reducible exact tracks_compileIndexes _ _
        | with_reducible apply tracks_getState_bind
        | with_reducible apply tracks_bind
        | intro _ _
        | intro _
        | split
    · intro s
      rw [compileExpression]
      apply halts_step 3 (by decide)
      repeat' first
        | with_reducible exact halts_eat _ _ _ _
        | with_reducible exact halts_error _ _ _ _ _ _
        | with_reducible exact halts_pure _ _ _ _
        | with_reducible exact halts_weaken (by decide) (ih1 _)
        | with_reducible exact halts_weaken (by decide) (ih2 _)
        | with_reducible exact halts_weaken (by decide) (ih3 _)
        | with_reducible exact halts_weaken (by decide) (ih4 _)
        | with_reducible exact halts_weaken (by decide) (ih5 _)
        | with_reducible exact halts_weaken (by decide) (ih6 _)
        | with_reducible exact halts_weaken (by decide) (ih7 _)
        | with_reducible exact halts_weaken (by decide) (ih8 _)
        | with_reducible exact halts_weaken (by decide) (ih9 _)
        | with_reducible exact halts_weaken (by decide) (halts_compileArguments _ _)
        | with_reducible exact halts_weaken (by decide) (halts_compileArguments2 _ _)
        | with_reducible exact halts_weaken (by decide) (halts_compileExpression _ _)
        | with_reducible exact halts_weaken (by decide) (halts_compileExpression2 _ _)
        | with_reducible exact halts_weaken (by decide) (halts_compileExpression3 _ _)
        | with_reducible exact halts_weaken (by decide) (halts_compileTerm _ _)
        | with_reducible exact halts_weaken (by decide) (halts_compileTerm2 _ _)
        | with_reducible exact halts_weaken (by decide) (halts_compileFactor _ _)
        | with_reducible exact halts_weaken (by decide) (halts_compileIndexes _ _)
        | with_reducible apply halts_getState_bind
        | with_reducible apply halts_eat_bind (by decide)
        | with_reducible apply halts_eat_addOp_bind (by assumption)
        | with_reducible apply halts_eat_multOp_bind (by assumption)
        | with_reducible apply halts_bind
        | with_reducible exact tracks_eat _ _
        | with_reducible exact tracks_error _ _
        | with_reducible exact tracks_pure _ _
        | with_reducible exact tracks_compileArguments _ _
        | with_reducible exact tracks_compileArguments2 _ _
        | with_reducible exact tracks_compileExpression _ _
        | with_reducible exact tracks_compileExpression2 _ _
        | with_reducible exact tracks_compileExpression3 _ _
        | with_reducible exact tracks_compileTerm _ _
        | with_reducible exact tracks_compileTerm2 _ _
        | with_reducible exact tracks_compileFactor _ _
        | with_reducible exact tracks_compileIndexes _ _
        | with_reducible apply tracks_getState_bind
        | with_reducible apply tracks_bind
        | intro _ _
        | intro _
        | split
    · intro s
      rw [compileExpression2]
      apply halts_step 2 (by decide)
      repeat' first
        | with_reducible exact halts_eat _ _ _ _
        | with_reducible exact halts_error _ _ _ _ _ _
        | with_reducible exact halts_pure _ _ _ _
        | with_reducible exact halts_weaken (by decide) (ih1 _)
        | with_reducible exact halts_weaken (by decide) (ih2 _)
        | with_reducible exact halts_weaken (by decide) (ih3 _)
        | with_reducible exact halts_weaken (by decide) (ih4 _)
        | with_reducible exact halts_weaken (by decide) (ih5 _)
        | with_reducible exact halts_weaken (by decide) (ih6 _)
        | with_reducible exact halts_weaken (by decide) (ih7 _)
        | with_reducible exact halts_weaken (by decide) (ih8 _)
        | with_reducible exact halts_weaken (by decide) (ih9 _)
        | with_reducible exact halts_weaken (by decide) (halts_compileArguments _ _)
        | with_reducible exact halts_weaken (by decide) (halts_compileArguments2 _ _)
        | with_reducible exact halts_weaken (by decide) (halts_compileExpression _ _)
        | with_reducible exact halts_weaken (by decide) (halts_compileExpression2 _ _)
        | with_reducible exact halts_weaken (by decide) (halts_compileExpression3 _ _)
        | with_reducible exact halts_weaken (by decide) (halts_compileTerm _ _)
        | with_reducible exact halts_weaken (by decide) (halts_compileTerm2 _ _)
        | with_reducible exact halts_weaken (by decide) (halts_compileFactor _ _)
        | with_reducible exact halts_weaken (by decide) (halts_compileIndexes _ _)
        | with_reducible apply halts_getState_bind
        | with_reducible apply halts_eat_bind (by decide)
        | with_reducible apply halts_eat_addOp_bind (by assumption)
        | with_reducible apply halts_eat_multOp_bind (by assumption)
        | with_reducible apply halts_bind
        | with_reducible exact tracks_eat _ _
        | with_reducible exact tracks_error _ _
        | with_reducible exact tracks_pure _ _
        | with_reducible exact tracks_compileArguments _ _
        | with_reducible exact tracks_compileArguments2 _ _
        | with_reducible exact tracks_compileExpression _ _
        | with_reducible exact tracks_compileExpression2 _ _
        | with_reducible exact tracks_compileExpression3 _ _
        | with_reducible exact tracks_compileTerm _ _
        | with_reducible exact tracks_compileTerm2 _ _
        | with_reducible exact tracks_compileFactor _ _
        | with_reducible exact tracks_compileIndexes _ _
        | with_reducible apply tracks_getState_bind
        | with_reducible apply tracks_bind
        | intro _ _
        | intro _
        | split
    · intro s
      rw [compileExpression3]
      apply halts_step 0 (by decide)
      repeat' first
        | with_reducible exact halts_eat _ _ _ _
        | with_reducible exact halts_error _ _ _ _ _ _
        | with_reducible exact halts_pure _ _ _ _
        | with_reducible exact halts_weaken (by decide) (ih1 _)
        | with_reducible exact halts_weaken (by decide) (ih2 _)
        | with_reducible exact halts_weaken (by decide) (ih3 _)
        | with_reducible exact halts_weaken (by decide) (ih4 _)
        | with_reducible exact halts_weaken (by decide) (ih5 _)
        | with_reducible exact halts_weaken (by decide) (ih6 _)
        | with_reducible exact halts_weaken (by decide) (ih7 _)
        | with_reducible exact halts_weaken (by decide) (ih8 _)
        | with_reducible exact halts_weaken (by decide) (ih9 _)
        | with_reducible exact halts_weaken (by decide) (halts_compileArguments _ _)
        | with_reducible exact halts_weaken (by decide) (halts_compileArguments2 _ _)
        | with_reducible exact halts_weaken (by decide) (halts_compileExpression _ _)
        | with_reducible exact halts_weaken (by decide) (halts_compileExpression2 _ _)
        | with_reducible exact halts_weaken (by decide) (halts_compileExpression3 _ _)
        | with_reducible exact halts_weaken (by decide) (halts_compileTerm _ _)
        | with_reducible exact halts_weaken (by decide) (halts_compileTerm2 _ _)
        | with_reducible exact halts_weaken (by decide) (halts_compileFactor _ _)
        | with_reducible exact halts_weaken (by decide) (halts_compileIndexes _ _)
        | with_reducible apply halts_getState_bind
        | with_reducible apply halts_eat_bind (by decide)
        | with_reducible apply halts_eat_addOp_bind (by assumption)
        | with_reducible apply halts_eat_multOp_bind (by assumption)
        | with_reducible apply halts_bind
        | with_reducible exact tracks_eat _ _
        | with_reducible exact tracks_error _ _
        | with_reducible exact tracks_pure _ _
        | with_reducible exact tracks_compileArguments _ _
        | with_reducible exact tracks_compileArguments2 _ _
        | with_reducible exact tracks_compileExpression _ _
        | with_reducible exact tracks_compileExpression2 _ _
        | with_reducible exact tracks_compileExpression3 _ _
        | with_reducible exact tracks_compileTerm _ _
        | with_reducible exact tracks_compileTerm2 _ _
        | with_reducible exact tracks_compileFactor _ _
        | with_reducible exact tracks_compileIndexes _ _
        | with_reducible apply tracks_getState_bind
        | with_reducible apply tracks_bind
        | intro _ _
        | intro _
        | split
    · intro s
      rw [compileTerm]
      apply halts_step 1 (by decide)
      repeat' first
        | with_reducible exact halts_eat _ _ _ _
        | with_reducible exact halts_error _ _ _ _ _ _
        | with_reducible exact halts_pure _ _ _ _
        | with_reducible exact halts_weaken (by decide) (ih1 _)
        | with_reducible exact halts_weaken (by decide) (ih2 _)
        | with_reducible exact halts_weaken (by decide) (ih3 _)
        | with_reducible exact halts_weaken (by decide) (ih4 _)
        | with_reducible exact halts_weaken (by decide) (ih5 _)
        | with_reducible exact halts_weaken (by decide) (ih6 _)
        | with_reducible exact halts_weaken (by decide) (ih7 _)
        | with_reducible exact halts_weaken (by decide) (ih8 _)
        | with_reducible exact halts_weaken (by decide) (ih9 _)
        | with_reducible exact halts_weaken (by decide) (halts_compileArguments _ _)
        | with_reducible exact halts_weaken (by decide) (halts_compileArguments2 _ _)
        | with_reducible exact halts_weaken (by decide) (halts_compileExpression _ _)
        | with_reducible exact halts_weaken (by decide) (halts_compileExpression2 _ _)
        | with_reducible exact halts_weaken (by decide) (halts_compileExpression3 _ _)
        | with_reducible exact halts_weaken (by decide) (halts_compileTerm _ _)
        | with_reducible exact halts_weaken (by decide) (halts_compileTerm2 _ _)
        | with_reducible exact halts_weaken (by decide) (halts_compileFactor _ _)
        | with_reducible exact halts_weaken (by decide) (halts_compileIndexes _ _)
        | with_reducible apply halts_getState_bind
        | with_reducible apply halts_eat_bind (by decide)
        | with_reducible apply halts_eat_addOp_bind (by assumption)
        | with_reducible apply halts_eat_multOp_bind (by assumption)
        | with_reducible apply halts_bind
        | with_reducible exact tracks_eat _ _
        | with_reducible exact tracks_error _ _
        | with_reducible exact tracks_pure _ _
        | with_reducible exact tracks_compileArguments _ _
        | with_reducible exact tracks_compileArguments2 _ _
        | with_reducible exact tracks_compileExpression _ _
        | with_reducible exact tracks_compileExpression2 _ _
        | with_reducible exact tracks_compileExpression3 _ _
        | with_reducible exact tracks_compileTerm _ _
        | with_reducible exact tracks_compileTerm2 _ _
        | with_reducible exact tracks_compileFactor _ _
        | with_reducible exact tracks_compileIndexes _ _
        | with_reducible apply tracks_getState_bind
        | with_reducible apply tracks_bind
        | intro _ _
        | intro _
        | split
    · intro s
      rw [compileTerm2]
      apply halts_step 0 (by decide)
      repeat' first
        | with_reducible exact halts_eat _ _ _ _
        | with_reducible exact halts_error _ _ _ _ _ _
        | with_reducible exact halts_pure _ _ _ _
        | with_reducible exact halts_weaken (by decide) (ih1 _)
        | with_reducible exact halts_weaken (by decide) (ih2 _)
        | with_reducible exact halts_weaken (by decide) (ih3 _)
        | with_reducible exact halts_weaken (by decide) (ih4 _)
        | with_reducible exact halts_weaken (by decide) (ih5 _)
        | with_reducible exact halts_weaken (by decide) (ih6 _)
        | with_reducible exact halts_weaken (by decide) (ih7 _)
        | with_reducible exact halts_weaken (by decide) (ih8 _)
        | with_reducible exact halts_weaken (by decide) (ih9 _)
        | with_reducible exact halts_weaken (by decide) (halts_compileArguments _ _)
        | with_reducible exact halts_weaken (by decide) (halts_compileArguments2 _ _)
        | with_reducible exact halts_weaken (by decide) (halts_compileExpression _ _)
        | with_reducible exact halts_weaken (by decide) (halts_compileExpression2 _ _)
        | with_reducible exact halts_weaken (by decide) (halts_compileExpression3 _ _)
        | with_reducible exact halts_weaken (by decide) (halts_compileTerm _ _)
        | with_reducible exact halts_weaken (by decide) (halts_compileTerm2 _ _)
        | with_reducible exact halts_weaken (by decide) (halts_compileFactor _ _)
        | with_reducible exact halts_weaken (by decide) (halts_compileIndexes _ _)
        | with_reducible apply halts_getState_bind
        | with_reducible apply halts_eat_bind (by decide)
        | with_reducible apply halts_eat_addOp_bind (by assumption)
        | with_reducible apply halts_eat_multOp_bind (by assumption)
        | with_reducible apply halts_bind
        | with_reducible exact tracks_eat _ _
        | with_reducible exact tracks_error _ _
        | with_reducible exact tracks_pure _ _
        | with_reducible exact tracks_compileArguments _ _
        | with_reducible exact tracks_compileArguments2 _ _
        | with_reducible exact tracks_compileExpression _ _
        | with_reducible exact tracks_compileExpression2 _ _
        | with_reducible exact tracks_compileExpression3 _ _
        | with_reducible exact tracks_compileTerm _ _
        | with_reducible exact tracks_compileTerm2 _ _
        | with_reducible exact tracks_compileFactor _ _
        | with_reducible exact tracks_compileIndexes _ _
        | with_reducible apply tracks_getState_bind
        | with_reducible apply tracks_bind
        | intro _ _
        | intro _
        | split
    · intro s
      rw [compileFactor]
      apply halts_step 0 (by decide)
      repeat' first
        | with_reducible exact halts_eat _ _ _ _
        | with_reducible exact halts_error _ _ _ _ _ _
        | with_reducible exact halts_pure _ _ _ _
        | with_reducible exact halts_weaken (by decide) (ih1 _)
        | with_reducible exact halts_weaken (by decide) (ih2 _)
        | with_reducible exact halts_weaken (by decide) (ih3 _)
        | with_reducible exact halts_weaken (by decide) (ih4 _)
        | with_reducible exact halts_weaken (by decide) (ih5 _)
        | with_reducible exact halts_weaken (by decide) (ih6 _)
        | with_reducible exact halts_weaken (by decide) (ih7 _)
        | with_reducible exact halts_weaken (by decide) (ih8 _)
        | with_reducible exact halts_weaken (by decide) (ih9 _)
        | with_reducible exact halts_weaken (by decide) (halts_compileArguments _ _)
        | with_reducible exact halts_weaken (by decide) (halts_compileArguments2 _ _)
        | with_reducible exact halts_weaken (by decide) (halts_compileExpression _ _)
        | with_reducible exact halts_weaken (by decide) (halts_compileExpression2 _ _)
        | with_reducible exact halts_weaken (by decide) (halts_compileExpression3 _ _)
        | with_reducible exact halts_weaken (by decide) (halts_compileTerm _ _)
        | with_reducible exact halts_weaken (by decide) (halts_compileTerm2 _ _)
        | with_reducible exact halts_weaken (by decide) (halts_compileFactor _ _)
        | with_reducible exact halts_weaken (by decide) (halts_compileIndexes _ _)
        | with_reducible apply halts_getState_bind
        | with_reducible apply halts_eat_bind (by decide)
        | with_reducible apply halts_eat_addOp_bind (by assumption)
        | with_reducible apply halts_eat_multOp_bind (by assumption)
        | with_reducible apply halts_bind
        | with_reducible exact tracks_eat _ _
        | with_reducible exact tracks_error _ _
        | with_reducible exact tracks_pure _ _
        | with_reducible exact tracks_compileArguments _ _
        | with_reducible exact tracks_compileArguments2 _ _
        | with_reducible exact tracks_compileExpression _ _
        | with_reducible exact tracks_compileExpression2 _ _
        | with_reducible exact tracks_compileExpression3 _ _
        | with_reducible exact tracks_compileTerm _ _
        | with_reducible exact tracks_compileTerm2 _ _
        | with_reducible exact tracks_compileFactor _ _
        | with_reducible exact tracks_compileIndexes _ _
        | with_reducible apply tracks_getState_bind
        | with_reducible apply tracks_bind
        | intro _ _
        | intro _
        | split
    · intro s
      rw [compileIndexes]
      apply halts_step 0 (by decide)
      repeat' first
        | with_reducible exact halts_eat _ _ _ _
        | with_reducible exact halts_error _ _ _ _ _ _
        | with_reducible exact halts_pure _ _ _ _
        | with_reducible exact halts_weaken (by decide) (ih1 _)
        | with_reducible exact halts_weaken (by decide) (ih2 _)
        | with_reducible exact halts_weaken (by decide) (ih3 _)
        | with_reducible exact halts_weaken (by decide) (ih4 _)
        | with_reducible exact halts_weaken (by decide) (ih5 _)
        | with_reducible exact halts_weaken (by decide) (ih6 _)
        | with_reducible exact halts_weaken (by decide) (ih7 _)
        | with_reducible exact halts_weaken (by decide) (ih8 _)
        | with_reducible exact halts_weaken (by decide) (ih9 _)
        | with_reducible exact halts_weaken (by decide) (halts_compileArguments _ _)
        | with_reducible exact halts_weaken (by decide) (halts_compileArguments2 _ _)
        | with_reducible exact halts_weaken (by decide) (halts_compileExpression _ _)
        | with_reducible exact halts_weaken (by decide) (halts_compileExpression2 _ _)
        | with_reducible exact halts_weaken (by decide) (halts_compileExpression3 _ _)
        | with_reducible exact halts_weaken (by decide) (halts_compileTerm _ _)
        | with_reducible exact halts_weaken (by decide) (halts_compileTerm2 _ _)
        | with_reducible exact halts_weaken (by decide) (halts_compileFactor _ _)
        | with_reducible exact halts_weaken (by decide) (halts_compileIndexes _ _)
        | with_reducible apply halts_getState_bind
        | with_reducible apply halts_eat_bind (by decide)
        | with_reducible apply halts_eat_addOp_bind (by assumption)
        | with_reducible apply halts_eat_multOp_bind (by assumption)
        | with_reducible apply halts_bind
        | with_reducible exact tracks_eat _ _
        | with_reducible exact tracks_error _ _
        | with_reducible exact tracks_pure _ _
        | with_reducible exact tracks_compileArguments _ _
        | with_reducible exact tracks_compileArguments2 _ _
        | with_reducible exact tracks_compileExpression _ _
        | with_reducible exact tracks_compileExpression2 _ _
        | with_reducible exact tracks_compileExpression3 _ _
        | with_reducible exact tracks_compileTerm _ _
        | with_reducible exact tracks_compileTerm2 _ _
        | with_reducible exact tracks_compileFactor _ _
        | with_reducible exact tracks_compileIndexes _ _
        | with_reducible apply tracks_getState_bind
        | with_reducible apply tracks_bind
        | intro _ _
        | intro _
        | split

theorem halts_compileArguments (n : Nat) (s : State) : (compileArguments n).HaltsAt n 1 s :=
  (halts_expressions n).1 s

theorem halts_compileArguments2 (n : Nat) (s : State) : (compileArguments2 n).HaltsAt n 1 s :=
  (halts_expressions n).2.1 s

theorem halts_compileExpression (n : Nat) (s : State) : (compileExpression n).HaltsAt n 4 s :=
  (halts_expressions n).2.2.1 s

theorem halts_compileExpression2 (n : Nat) (s : State) : (compileExpression2 n).HaltsAt n 3 s :=
  (halts_expressions n).2.2.2.1 s

theorem halts_compileExpression3 (n : Nat) (s : State) : (compileExpression3 n).HaltsAt n 1 s :=
  (halts_expressions n).2.2.2.2.1 s

theorem halts_compileTerm (n : Nat) (s : State) : (compileTerm n).HaltsAt n 2 s :=
  (halts_expressions n).2.2.2.2.2.1 s

theorem halts_compileTerm2 (n : Nat) (s : State) : (compileTerm2 n).HaltsAt n 1 s :=
  (halts_expressions n).2.2.2.2.2.2.1 s

theorem halts_compileFactor (n : Nat) (s : State) : (compileFactor n).HaltsAt n 1 s :=
  (halts_expressions n).2.2.2.2.2.2.2.1 s

theorem halts_compileIndexes (n : Nat) (s : State) : (compileIndexes n).HaltsAt n 1 s :=
  (halts_expressions n).2.2.2.2.2.2.2.2 s

theorem halts_compileCondition2 (n : Nat) (s : State) : (compileCondition2 n).HaltsAt n 4 s := by
  unfold compileCondition2
  repeat' first
    | with_reducible exact halts_eat _ _ _ _
    | with_reducible exact halts_error _ _ _ _ _ _
    | with_reducible exact halts_pure _ _ _ _
    | with_reducible exact halts_weaken (by decide) (halts_compileExpression _ _)
    | with_reducible apply halts_getState_bind
    | with_reducible apply halts_eat_bind (by decide)
    | with_reducible apply halts_eat_addOp_bind (by assumption)
    | with_reducible apply halts_eat_multOp_bind (by assumption)
    | with_reducible apply halts_bind
    | with_reducible exact tracks_eat _ _
    | with_reducible exact tracks_error _ _
    | with_reducible exact tracks_pure _ _
    | with_reducible exact tracks_compileExpression _ _
    | with_reducible apply tracks_getState_bind
    | with_reducible apply tracks_bind
    | intro _ _
    | intro _
    | split

theorem halts_compileCondition (n : Nat) (s : State) : (compileCondition n).HaltsAt n 4 s := by
  unfold compileCondition
  repeat' first
    | with_reducible exact halts_eat _ _ _ _
    | with_reducible exact halts_error _ _ _ _ _ _
    | with_reducible exact halts_pure _ _ _ _
    | with_reducible exact halts_weaken (by decide) (halts_compileExpression _ _)
    | with_reducible exact halts_weaken (by decide) (halts_compileCondition2 _ _)
    | with_reducible apply halts_getState_bind
    | with_reducible apply halts_eat_bind (by decide)
    | with_reducible apply halts_eat_addOp_bind (by assumption)
    | with_reducible apply halts_eat_multOp_bind (by assumption)
    | with_reducible apply halts_bind
    | with_reducible exact tracks_eat _ _
    | with_reducible exact tracks_error _ _
    | with_reducible exact tracks_pure _ _
    | with_reducible exact tracks_compileExpression _ _
    | with_reducible exact tracks_compileCondition2 _ _
    | with_reducible apply tracks_getState_bind
    | with_reducible apply tracks_bind
    | intro _ _
    | intro _
    | split

theorem halts_compileConstDecl (n : Nat) (s : State) : (compileConstDecl n).HaltsAt n 0 s := by
  unfold compileConstDecl
  repeat' first
    | with_reducible exact halts_eat _ _ _ _
    | with_reducible exact halts_error _ _ _ _ _ _
    | with_reducible exact halts_pure _ _ _ _
    | with_reducible exact halts_weaken (by decide) (halts_eatCommaIdentList _ _)
    | with_reducible exact halts_compileConstant _ _ _
    | with_reducible apply halts_getState_bind
    | with_reducible apply halts_eat_bind (by decide)
    | with_reducible apply halts_eat_addOp_bind (by assumption)
    | with_reducible apply halts_eat_multOp_bind (by assumption)
    | with_reducible apply halts_bind
    | with_reducible exact tracks_eat _ _
    | with_reducible exact tracks_error _ _
    | with_reducible exact tracks_pure _ _
    | with_reducible exact tracks_eatCommaIdentList _ _
    | with_reducible exact tracks_compileConstant _
    | with_reducible apply tracks_getState_bind
    | with_reducible apply tracks_bind
    | intro _ _
    | intro _
    | split

theorem consumes_compileConstDecl (fuel : Nat) (s : State) : (compileConstDecl fuel).ConsumesAt s := by
  unfold compileConstDecl
  apply consumes_eat_bind (by decide)
  intro s1
  repeat' first
    | with_reducible exact tracks_eat _ _
    | with_reducible exact tracks_error _ _
    | with_reducible exact tracks_pure _ _
    | with_reducible exact tracks_eatCommaIdentList _ _
    | with_reducible exact tracks_compileConstant _
    | with_reducible apply tracks_getState_bind
    | with_reducible apply tracks_bind
    | intro _ _
    | split

theorem halts_compileConstDecls (n : Nat) : ∀ s, (compileConstDecls n).HaltsAt n 1 s := by
  induction n with
  | zero => exact fun _ => halts_zero (by decide)
  | succ n ih =>
    intro s
    rw [compileConstDecls]
    apply halts_step 0 (by decide)
    repeat' first
      | with_reducible exact halts_eat _ _ _ _
      | with_reducible exact halts_error _ _ _ _ _ _
      | with_reducible exact halts_pure _ _ _ _
      | with_reducible exact halts_weaken (by decide) (ih _)
      | with_reducible exact halts_weaken (by decide) (halts_compileConstDecl _ _)
      | with_reducible apply halts_getState_bind
      | with_reducible apply halts_eat_bind (by decide)
      | with_reducible apply halts_eat_addOp_bind (by assumption)
      | with_reducible apply halts_eat_multOp_bind (by assumption)
      | with_reducible apply halts_consuming_bind (consumes_compileConstDecl _ _)
      | with_reducible apply halts_bind
      | with_reducible exact tracks_eat _ _
      | with_reducible exact tracks_error _ _
      | with_reducible exact tracks_pure _ _
      | with_reducible exact tracks_compileConstDecl _ _
      | with_reducible apply tracks_getState_bind
      | with_reducible apply tracks_bind
      | intro _ _
      | intro _
      | split

theorem halts_compileTypeDecl (n : Nat) (s : State) : (compileTypeDecl n).HaltsAt n 0 s := by
  unfold compileTypeDecl
  repeat' first
    | with_reducible exact halts_eat _ _ _ _
    | with_reducible exact halts_error _ _ _ _ _ _
    | with_reducible exact halts_pure _ _ _ _
    | with_reducible exact halts_weaken (by decide) (halts_eatCommaIdentList _ _)
    | with_reducible exact halts_weaken (by decide) (halts_compileType _ _)
    | with_reducible apply halts_getState_bind
    | with_reducible apply halts_eat_bind (by decide)
    | with_reducible apply halts_eat_addOp_bind (by assumption)
    | with_reducible apply halts_eat_multOp_bind (by assumption)
    | with_reducible apply halts_bind
    | with_reducible exact tracks_eat _ _
    | with_reducible exact tracks_error _ _
    | with_reducible exact tracks_pure _ _
    | with_reducible exact tracks_eatCommaIdentList _ _
    | with_reducible exact tracks_compileType _ _
    | with_reducible apply tracks_getState_bind
    | with_reducible apply tracks_bind
    | intro _ _
    | intro _
    | split

theorem consumes_compileTypeDecl (fuel : Nat) (s : State) : (compileTypeDecl fuel).ConsumesAt s := by
  unfold compileTypeDecl
  apply consumes_eat_bind (by decide)
  intro s1
  repeat' first
    | with_reducible exact tracks_eat _ _
    | with_reducible exact tracks_error _ _
    | with_reducible exact tracks_pure _ _
    | with_reducible exact tracks_eatCommaIdentList _ _
    | with_reducible exact tracks_compileType _ _
    | with_reducible apply tracks_getState_bind
    | with_reducible apply tracks_bind
    | intro _ _
    | split

theorem halts_compileTypeDecls (n : Nat) : ∀ s, (compileTypeDecls n).HaltsAt n 1 s := by
  induction n with
  | zero => exact fun _ => halts_zero (by decide)
  | succ n ih =>
    intro s
    rw [compileTypeDecls]
    apply halts_step 0 (by decide)
    repeat' first
      | with_reducible exact halts_eat _ _ _ _
      | with_reducible exact halts_error _ _ _ _ _ _
      | with_reducible exact halts_pure _ _ _ _
      | with_reducible exact halts_weaken (by decide) (ih _)
      | with_reducible exact halts_weaken (by decide) (halts_compileTypeDecl _ _)
      | with_reducible apply halts_getState_bind
      | with_reducible apply halts_eat_bind (by decide)
      | with_reducible apply halts_eat_addOp_bind (by assumption)
      | with_reducible apply halts_eat_multOp_bind (by assumption)
      | with_reducible apply halts_consuming_bind (consumes_compileTypeDecl _ _)
      | with_reducible apply halts_bind
      | with_reducible exact tracks_eat _ _
      | with_reducible exact tracks_error _ _
      | with_reducible exact tracks_pure _ _
      | with_reducible exact tracks_compileTypeDecl _ _
      | with_reducible apply tracks_getState_bind
      | with_reducible apply tracks_bind
      | intro _ _
      | intro _
      | split

theorem halts_compileVarDecl (n : Nat) (s : State) : (compileVarDecl n).HaltsAt n 0 s := by
  unfold compileVarDecl
  repeat' first
    | with_reducible exact halts_eat _ _ _ _
    | with_reducible exact halts_error _ _ _ _ _ _
    | with_reducible exact halts_pure _ _ _ _
    | with_reducible exact halts_weaken (by decide) (halts_eatCommaIdentList _ _)
    | with_reducible exact halts_weaken (by decide) (halts_compileType _ _)
    | with_reducible apply halts_getState_bind
    | with_reducible apply halts_eat_bind (by decide)
    | with_reducible apply halts_eat_addOp_bind (by assumption)
    | with_reducible apply halts_eat_multOp_bind (by assumption)
    | with_reducible apply halts_bind
    | with_reducible exact tracks_eat _ _
    | with_reducible exact tracks_error _ _
    | with_reducible exact tracks_pure _ _
    | with_reducible exact tracks_eatCommaIdentList _ _
    | with_reducible exact tracks_compileType _ _
    | with_reducible apply tracks_getState_bind
    | with_reducible apply tracks_bind
    | intro _ _
    | intro _
    | split

theorem consumes_compileVarDecl (fuel : Nat) (s : State) : (compileVarDecl fuel).ConsumesAt s := by
  unfold compileVarDecl
  apply consumes_eat_bind (by decide)
  intro s1
  repeat' first
    | with_reducible exact tracks_eat _ _
    | with_reducible exact tracks_error _ _
    | with_reducible exact tracks_pure _ _
    | with_reducible exact tracks_eatCommaIdentList _ _
    | with_reducible exact tracks_compileType _ _
    | with_reducible apply tracks_getState_bind
    | with_reducible apply tracks_bind
    | intro _ _
    | split

theorem halts_compileVarDecls (n : Nat) : ∀ s, (compileVarDecls n).HaltsAt n 1 s := by
  induction n with
  | zero => exact fun _ => halts_zero (by decide)
  | succ n ih =>
    intro s
    rw [compileVarDecls]
    apply halts_step 0 (by decide)
    repeat' first
      | with_reducible exact halts_eat _ _ _ _
      | with_reducible exact halts_error _ _ _ _ _ _
      | with_reducible exact halts_pure _ _ _ _
      | with_reducible exact halts_weaken (by decide) (ih _)
      | with_reducible exact halts_weaken (by decide) (halts_compileVarDecl _ _)
      | with_reducible apply halts_getState_bind
      | with_reducible apply halts_eat_bind (by decide)
      | with_reducible apply halts_eat_addOp_bind (by assumption)
      | with_reducible apply halts_eat_multOp_bind (by assumption)
      | with_reducible apply halts_consuming_bind (consumes_compileVarDecl _ _)
      | with_reducible apply halts_bind
      | with_reducible exact tracks_eat _ _
      | with_reducible exact tracks_error _ _
      | with_reducible exact tracks_pure _ _
      | with_reducible exact tracks_compileVarDecl _ _
      | with_reducible apply tracks_getState_bind
      | with_reducible apply tracks_bind
      | intro _ _
      | intro _
      | split

theorem halts_compileParam (n r : Nat) (s : State) : compileParam.HaltsAt n r s := by
  unfold compileParam
  repeat' first
    | with_reducible exact halts_eat _ _ _ _
    | with_reducible exact halts_error _ _ _ _ _ _
    | with_reducible exact halts_pure _ _ _ _
    | with_reducible exact halts_compileBasicType _ _ _
    | with_reducible apply halts_getState_bind
    | with_reducible apply halts_eat_bind (by decide)
    | with_reducible apply halts_eat_addOp_bind (by assumption)
    | with_reducible apply halts_eat_multOp_bind (by assumption)
    | with_reducible apply halts_bind
    | with_reducible exact tracks_eat _ _
    | with_reducible exact tracks_error _ _
    | with_reducible exact tracks_pure _ _
    | with_reducible exact tracks_compileBasicType _
    | with_reducible apply tracks_getState_bind
    | with_reducible apply tracks_bind
    | intro _ _
    | intro _
    | split

theorem halts_compileParams2 (n : Nat) : ∀ s, (compileParams2 n).HaltsAt n 1 s := by
  induction n with
  | zero => exact fun _ => halts_zero (by decide)
  | succ n ih =>
    intro s
    rw [compileParams2]
    apply halts_step 0 (by decide)
    repeat' first
      | with_reducible exact halts_eat _ _ _ _
      | with_reducible exact halts_error _ _ _ _ _ _
      | with_reducible exact halts_pure _ _ _ _
      | with_reducible exact halts_weaken (by decide) (ih _)
      | with_reducible exact halts_compileParam _ _ _
      | with_reducible apply halts_getState_bind
      | with_reducible apply halts_eat_bind (by decide)
      | with_reducible apply halts_eat_addOp_bind (by assumption)
      | with_reducible apply halts_eat_multOp_bind (by assumption)
      | with_reducible apply halts_bind
      | with_reducible exact tracks_eat _ _
      | with_reducible exact tracks_error _ _
      | with_reducible exact tracks_pure _ _
      | with_reducible exact tracks_compileParam _
      | with_reducible apply tracks_getState_bind
      | with_reducible apply tracks_bind
      | intro _ _
      | intro _
      | split

theorem halts_compileParams (n : Nat) (s : State) : (compileParams n).HaltsAt n 0 s := by
  unfold compileParams
  repeat' first
    | with_reducible exact halts_eat _ _ _ _
    | with_reducible exact halts_error _ _ _ _ _ _
    | with_reducible exact halts_pure _ _ _ _
    | with_reducible exact halts_compileParam _ _ _
    | with_reducible exact halts_weaken (by decide) (halts_compileParams2 _ _)
    | with_reducible apply halts_getState_bind
    | with_reducible apply halts_eat_bind (by decide)
    | with_reducible apply halts_eat_addOp_bind (by assumption)
    | with_reducible apply halts_eat_multOp_bind (by assumption)
    | with_reducible apply halts_bind
    | with_reducible exact tracks_eat _ _
    | with_reducible exact tracks_error _ _
    | with_reducible exact tracks_pure _ _
    | with_reducible exact tracks_compileParam _
    | with_reducible exact tracks_compileParams2 _ _
    | with_reducible apply tracks_getState_bind
    | with_reducible apply tracks_bind
    | intro _ _
    | intro _
    | split

theorem halts_compileAssignStVariables (n : Nat) : ∀ c s, (compileAssignStVariables n c).HaltsAt n 1 s := by
  induction n with
  | zero => exact fun _ _ => halts_zero (by decide)
  | succ n ih =>
    intro c s
    rw [compileAssignStVariables]
    apply halts_step 0 (by decide)
    repeat' first
      | with_reducible exact halts_eat _ _ _ _
      | with_reducible exact halts_error _ _ _ _ _ _
      | with_reducible exact halts_pure _ _ _ _
      | with_reducible exact halts_weaken (by decide) (ih _ _)
      | with_reducible apply halts_getState_bind
      | with_reducible apply halts_eat_bind (by decide)
      | with_reducible apply halts_eat_addOp_bind (by assumption)
      | with_reducible apply halts_eat_multOp_bind (by assumption)
      | with_reducible apply halts_bind
      | with_reducible exact tracks_eat _ _
      | with_reducible exact tracks_error _ _
      | with_reducible exact tracks_pure _ _
      | with_reducible apply tracks_getState_bind
      | with_reducible apply tracks_bind
      | intro _ _
      | intro _
      | split

theorem halts_compileAssignStExpressions (n : Nat) : ∀ c s, (compileAssignStExpressions n c).HaltsAt n 1 s := by
  induction n with
  | zero => exact fun _ _ => halts_zero (by decide)
  | succ n ih =>
    intro c s
    rw [compileAssignStExpressions]
    apply halts_step 0 (by decide)
    repeat' first
      | with_reducible exact halts_eat _ _ _ _
      | with_reducible exact halts_error _ _ _ _ _ _
      | with_reducible exact halts_pure _ _ _ _
      | with_reducible exact halts_weaken (by decide) (ih _ _)
      | with_reducible exact halts_weaken (by decide) (halts_compileExpression _ _)
      | with_reducible apply halts_getState_bind
      | with_reducible apply halts_eat_bind (by decide)
      | with_reducible apply halts_eat_addOp_bind (by assumption)
      | with_reducible apply halts_eat_multOp_bind (by assumption)
      | with_reducible apply halts_bind
      | with_reducible exact tracks_eat _ _
      | with_reducible exact tracks_error _ _
      | with_reducible exact tracks_pure _ _
      | with_reducible exact tracks_compileExpression _ _
      | with_reducible apply tracks_getState_bind
      | with_reducible apply tracks_bind
      | intro _ _
      | intro _
      | split

theorem halts_compileAssignSt (n : Nat) (s : State) : (compileAssignSt n).HaltsAt n 0 s := by
  unfold compileAssignSt
  repeat' first
    | with_reducible exact halts_eat _ _ _ _
    | with_reducible exact halts_error _ _ _ _ _ _
    | with_reducible exact halts_pure _ _ _ _
    | with_reducible exact halts_weaken (by decide) (halts_compileIndexes _ _)
    | with_reducible exact halts_weaken (by decide) (halts_compileExpression _ _)
    | with_reducible exact halts_weaken (by decide) (halts_compileAssignStVariables _ _ _)
    | with_reducible exact halts_weaken (by decide) (halts_compileAssignStExpressions _ _ _)
    | with_reducible apply halts_getState_bind
    | with_reducible apply halts_eat_bind (by decide)
    | with_reducible apply halts_eat_addOp_bind (by assumption)
    | with_reducible apply halts_eat_multOp_bind (by assumption)
    | with_reducible apply halts_bind
    | with_reducible exact tracks_eat _ _
    | with_reducible exact tracks_error _ _
    | with_reducible exact tracks_pure _ _
    | with_reducible exact tracks_compileIndexes _ _
    | with_reducible exact tracks_compileExpression _ _
    | with_reducible exact tracks_compileAssignStVariables _ _ _
    | with_reducible exact tracks_compileAssignStExpressions _ _ _
    | with_reducible apply tracks_getState_bind
    | with_reducible apply tracks_bind
    | intro _ _
    | intro _
    | split

theorem halts_compileCallSt (n : Nat) (s : State) : (compileCallSt n).HaltsAt n 0 s := by
  unfold compileCallSt
  repeat' first
    | with_reducible exact halts_eat _ _ _ _
    | with_reducible exact halts_error _ _ _ _ _ _
    | with_reducible exact halts_pure _ _ _ _
    | with_reducible exact halts_weaken (by decide) (halts_compileArguments _ _)
    | with_reducible apply halts_getState_bind
    | with_reducible apply halts_eat_bind (by decide)
    | with_reducible apply halts_eat_addOp_bind (by assumption)
    | with_reducible apply halts_eat_multOp_bind (by assumption)
    | with_reducible apply halts_bind
    | with_reducible exact tracks_eat _ _
    | with_reducible exact tracks_error _ _
    | with_reducible exact tracks_pure _ _
    | with_reducible exact tracks_compileArguments _ _
    | with_reducible apply tracks_getState_bind
    | with_reducible apply tracks_bind
    | intro _ _
    | intro _
    | split

theorem halts_statements (n : Nat) :
    (∀ s, (compileStatements n).HaltsAt n 3 s) ∧
    (∀ s, (compileStatements2 n).HaltsAt n 1 s) ∧
    (∀ s, (compileStatement n).HaltsAt n 2 s) ∧
    (∀ s, (compileGroupSt n).HaltsAt n 1 s) ∧
    (∀ s, (compileIfSt n).HaltsAt n 1 s) ∧
    (∀ s, (compileElseSt n).HaltsAt n 1 s) ∧
    (∀ s, (compileWhileSt n).HaltsAt n 1 s) ∧
    (∀ s, (compileForSt n).HaltsAt n 1 s) ∧
    (∀ s, (compileRepeatSt n).HaltsAt n 1 s) := by
  induction n with
  | zero =>
    refine ⟨?_, ?_, ?_, ?_, ?_, ?_, ?_, ?_, ?_⟩ <;> exact fun _ => halts_zero (by decide)
  | succ n ih =>
    obtain ⟨ih1, ih2, ih3, ih4, ih5, ih6, ih7, ih8, ih9⟩ := ih
    refine ⟨?_, ?_, ?_, ?_, ?_, ?_, ?_, ?_, ?_⟩
    · intro s
      rw [compileStatements]
      apply halts_step 2 (by decide)
      repeat' first
        | with_reducible exact halts_eat _ _ _ _
        | with_reducible exact halts_error _ _ _ _ _ _
        | with_reducible exact halts_pure _ _ _ _
        | with_reducible exact halts_weaken (by decide) (ih1 _)
        | with_reducible exact halts_weaken (by decide) (ih2 _)
        | with_reducible exact halts_weaken (by decide) (ih3 _)
        | with_reducible exact halts_weaken (by decide) (ih4 _)
        | with_reducible exact halts_weaken (by decide) (ih5 _)
        | with_reducible exact halts_weaken (by decide) (ih6 _)
        | with_reducible exact halts_weaken (by decide) (ih7 _)
        | with_reducible exact halts_weaken (by decide) (ih8 _)
        | with_reducible exact halts_weaken (by decide) (ih9 _)
        | with_reducible exact halts_weaken (by decide) (halts_compileAssignSt _ _)
        | with_reducible exact halts_weaken (by decide) (halts_compileCallSt _ _)
        | with_reducible exact halts_weaken (by decide) (halts_compileCondition _ _)
        | with_reducible exact halts_weaken (by decide) (halts_compileExpression _ _)
        | with_reducible exact halts_weaken (by decide) (halts_compileStatements _ _)
        | with_reducible exact halts_weaken (by decide) (halts_compileStatements2 _ _)
        | with_reducible exact halts_weaken (by decide) (halts_compileStatement _ _)
        | with_reducible exact halts_weaken (by decide) (halts_compileGroupSt _ _)
        | with_reducible exact halts_weaken (by decide) (halts_compileIfSt _ _)
        | with_reducible exact halts_weaken (by decide) (halts_compileElseSt _ _)
        | with_reducible exact halts_weaken (by decide) (halts_compileWhileSt _ _)
        | with_reducible exact halts_weaken (by decide) (halts_compileForSt _ _)
        | with_reducible exact halts_weaken (by decide) (halts_compileRepeatSt _ _)
        | with_reducible apply halts_getState_bind
        | with_reducible apply halts_eat_bind (by decide)
        | with_reducible apply halts_eat_addOp_bind (by assumption)
        | with_reducible apply halts_eat_multOp_bind (by assumption)
        | with_reducible apply halts_bind
        | with_reducible exact tracks_eat _ _
        | with_reducible exact tracks_error _ _
        | with_reducible exact tracks_pure _ _
        | with_reducible exact tracks_compileAssignSt _ _
        | with_reducible exact tracks_compileCallSt _ _
        | with_reducible exact tracks_compileCondition _ _
        | with_reducible exact tracks_compileExpression _ _
        | with_reducible exact tracks_compileStatements _ _
        | with_reducible exact tracks_compileStatements2 _ _
        | with_reducible exact tracks_compileStatement _ _
        | with_reducible exact tracks_compileGroupSt _ _
        | with_reducible exact tracks_compileIfSt _ _
        | with_reducible exact tracks_compileElseSt _ _
        | with_reducible exact tracks_compileWhileSt _ _
        | with_reducible exact tracks_compileForSt _ _
        | with_reducible exact tracks_compileRepeatSt _ _
        | with_reducible apply tracks_getState_bind
        | with_reducible apply tracks_bind
        | intro _ _
        | intro _
        | split
    · intro s
      rw [compileStatements2]
      apply halts_step 0 (by decide)
      repeat' first
        | with_reducible exact halts_eat _ _ _ _
        | with_reducible exact halts_error _ _ _ _ _ _
        | with_reducible exact halts_pure _ _ _ _
        | with_reducible exact halts_weaken (by decide) (ih1 _)
        | with_reducible exact halts_weaken (by decide) (ih2 _)
        | with_reducible exact halts_weaken (by decide) (ih3 _)
        | with_reducible exact halts_weaken (by decide) (ih4 _)
        | with_reducible exact halts_weaken (by decide) (ih5 _)
        | with_reducible exact halts_weaken (by decide) (ih6 _)
        | with_reducible exact halts_weaken (by decide) (ih7 _)
        | with_reducible exact halts_weaken (by decide) (ih8 _)
        | with_reducible exact halts_weaken (by decide) (ih9 _)
        | with_reducible exact halts_weaken (by decide) (halts_compileAssignSt _ _)
        | with_reducible exact halts_weaken (by decide) (halts_compileCallSt _ _)
        | with_reducible exact halts_weaken (by decide) (halts_compileCondition _ _)
        | with_reducible exact halts_weaken (by decide) (halts_compileExpression _ _)
        | with_reducible exact halts_weaken (by decide) (halts_compileStatements _ _)
        | with_reducible exact halts_weaken (by decide) (halts_compileStatements2 _ _)
        | with_reducible exact halts_weaken (by decide) (halts_compileStatement _ _)
        | with_reducible exact halts_weaken (by decide) (halts_compileGroupSt _ _)
        | with_reducible exact halts_weaken (by decide) (halts_compileIfSt _ _)
        | with_reducible exact halts_weaken (by decide) (halts_compileElseSt _ _)
        | with_reducible exact halts_weaken (by decide) (halts_compileWhileSt _ _)
        | with_reducible exact halts_weaken (by decide) (halts_compileForSt _ _)
        | with_reducible exact halts_weaken (by decide) (halts_compileRepeatSt _ _)
        | with_reducible apply halts_getState_bind
        | with_reducible apply halts_eat_bind (by decide)
        | with_reducible apply halts_eat_addOp_bind (by assumption)
        | with_reducible apply halts_eat_multOp_bind (by assumption)
        | with_reducible apply halts_bind
        | with_reducible exact tracks_eat _ _
        | with_reducible exact tracks_error _ _
        | with_reducible exact tracks_pure _ _
        | with_reducible exact tracks_compileAssignSt _ _
        | with_reducible exact tracks_compileCallSt _ _
        | with_reducible exact tracks_compileCondition _ _
        | with_reducible exact tracks_compileExpression _ _
        | with_reducible exact tracks_compileStatements _ _
        | with_reducible exact tracks_compileStatements2 _ _
        | with_reducible exact tracks_compileStatement _ _
        | with_reducible exact tracks_compileGroupSt _ _
        | with_reducible exact tracks_compileIfSt _ _
        | with_reducible exact tracks_compileElseSt _ _
        | with_reducible exact tracks_compileWhileSt _ _
        | with_reducible exact tracks_compileForSt _ _
        | with_reducible exact tracks_compileRepeatSt _ _
        | with_reducible apply tracks_getState_bind
        | with_reducible apply tracks_bind
        | intro _ _
        | intro _
        | split
    · intro s
      rw [compileStatement]
      apply halts_step 1 (by decide)
      repeat' first
        | with_reducible exact halts_eat _ _ _ _
        | with_reducible exact halts_error _ _ _ _ _ _
        | with_reducible exact halts_pure _ _ _ _
        | with_reducible exact halts_weaken (by decide) (ih1 _)
        | with_reducible exact halts_weaken (by decide) (ih2 _)
        | with_reducible exact halts_weaken (by decide) (ih3 _)
        | with_reducible exact halts_weaken (by decide) (ih4 _)
        | with_reducible exact halts_weaken (by decide) (ih5 _)
        | with_reducible exact halts_weaken (by decide) (ih6 _)
        | with_reducible exact halts_weaken (by decide) (ih7 _)
        | with_reducible exact halts_weaken (by decide) (ih8 _)
        | with_reducible exact halts_weaken (by decide) (ih9 _)
        | with_reducible exact halts_weaken (by decide) (halts_compileAssignSt _ _)
        | with_reducible exact halts_weaken (by decide) (halts_compileCallSt _ _)
        | with_reducible exact halts_weaken (by decide) (halts_compileCondition _ _)
        | with_reducible exact halts_weaken (by decide) (halts_compileExpression _ _)
        | with_reducible exact halts_weaken (by decide) (halts_compileStatements _ _)
        | with_reducible exact halts_weaken (by decide) (halts_compileStatements2 _ _)
        | with_reducible exact halts_weaken (by decide) (halts_compileStatement _ _)
        | with_reducible exact halts_weaken (by decide) (halts_compileGroupSt _ _)
        | with_reducible exact halts_weaken (by decide) (halts_compileIfSt _ _)
        | with_reducible exact halts_weaken (by decide) (halts_compileElseSt _ _)
        | with_reducible exact halts_weaken (by decide) (halts_compileWhileSt _ _)
        | with_reducible exact halts_weaken (by decide) (halts_compileForSt _ _)
        | with_reducible exact halts_weaken (by decide) (halts_compileRepeatSt _ _)
        | with_reducible apply halts_getState_bind
        | with_reducible apply halts_eat_bind (by decide)
        | with_reducible apply halts_eat_addOp_bind (by assumption)
        | with_reducible apply halts_eat_multOp_bind (by assumption)
        | with_reducible apply halts_bind
        | with_reducible exact tracks_eat _ _
        | with_reducible exact tracks_error _ _
        | with_reducible exact tracks_pure _ _
        | with_reducible exact tracks_compileAssignSt _ _
        | with_reducible exact tracks_compileCallSt _ _
        | with_reducible exact tracks_compileCondition _ _
        | with_reducible exact tracks_compileExpression _ _
        | with_reducible exact tracks_compileStatements _ _
        | with_reducible exact tracks_compileStatements2 _ _
        | with_reducible exact tracks_compileStatement _ _
        | with_reducible exact tracks_compileGroupSt _ _
        | with_reducible exact tracks_compileIfSt _ _
        | with_reducible exact tracks_compileElseSt _ _
        | with_reducible exact tracks_compileWhileSt _ _
        | with_reducible exact tracks_compileForSt _ _
        | with_reducible exact tracks_compileRepeatSt _ _
        | with_reducible apply tracks_getState_bind
        | with_reducible apply tracks_bind
        | intro _ _
        | intro _
        | split
    · intro s
      rw [compileGroupSt]
      apply halts_step 0 (by decide)
      repeat' first
        | with_reducible exact halts_eat _ _ _ _
        | with_reducible exact halts_error _ _ _ _ _ _
        | with_reducible exact halts_pure _ _ _ _
        | with_reducible exact halts_weaken (by decide) (ih1 _)
        | with_reducible exact halts_weaken (by decide) (ih2 _)
        | with_reducible exact halts_weaken (by decide) (ih3 _)
        | with_reducible exact halts_weaken (by decide) (ih4 _)
        | with_reducible exact halts_weaken (by decide) (ih5 _)
        | with_reducible exact halts_weaken (by decide) (ih6 _)
        | with_reducible exact halts_weaken (by decide) (ih7 _)
        | with_reducible exact halts_weaken (by decide) (ih8 _)
        | with_reducible exact halts_weaken (by decide) (ih9 _)
        | with_reducible exact halts_weaken (by decide) (halts_compileAssignSt _ _)
        | with_reducible exact halts_weaken (by decide) (halts_compileCallSt _ _)
        | with_reducible exact halts_weaken (by decide) (halts_compileCondition _ _)
        | with_reducible exact halts_weaken (by decide) (halts_compileExpression _ _)
        | with_reducible exact halts_weaken (by decide) (halts_compileStatements _ _)
        | with_reducible exact halts_weaken (by decide) (halts_compileStatements2 _ _)
        | with_reducible exact halts_weaken (by decide) (halts_compileStatement _ _)
        | with_reducible exact halts_weaken (by decide) (halts_compileGroupSt _ _)
        | with_reducible exact halts_weaken (by decide) (halts_compileIfSt _ _)
        | with_reducible exact halts_weaken (by decide) (halts_compileElseSt _ _)
        | with_reducible exact halts_weaken (by decide) (halts_compileWhileSt _ _)
        | with_reducible exact halts_weaken (by decide) (halts_compileForSt _ _)
        | with_reducible exact halts_weaken (by decide) (halts_compileRepeatSt _ _)
        | with_reducible apply halts_getState_bind
        | with_reducible apply halts_eat_bind (by decide)
        | with_reducible apply halts_eat_addOp_bind (by assumption)
        | with_reducible apply halts_eat_multOp_bind (by assumption)
        | with_reducible apply halts_bind
        | with_reducible exact tracks_eat _ _
        | with_reducible exact tracks_error _ _
        | with_reducible exact tracks_pure _ _
        | with_reducible exact tracks_compileAssignSt _ _
        | with_reducible exact tracks_compileCallSt _ _
        | with_reducible exact tracks_compileCondition _ _
        | with_reducible exact tracks_compileExpression _ _
        | with_reducible exact tracks_compileStatements _ _
        | with_reducible exact tracks_compileStatements2 _ _
        | with_reducible exact tracks_compileStatement _ _
        | with_reducible exact tracks_compileGroupSt _ _
        | with_reducible exact tracks_compileIfSt _ _
        | with_reducible exact tracks_compileElseSt _ _
        | with_reducible exact tracks_compileWhileSt _ _
        | with_reducible exact tracks_compileForSt _ _
        | with_reducible exact tracks_compileRepeatSt _ _
        | with_reducible apply tracks_getState_bind
        | with_reducible apply tracks_bind
        | intro _ _
        | intro _
        | split
    · intro s
      rw [compileIfSt]
      apply halts_step 0 (by decide)
      repeat' first
        | with_reducible exact halts_eat _ _ _ _
        | with_reducible exact halts_error _ _ _ _ _ _
        | with_reducible exact halts_pure _ _ _ _
        | with_reducible exact halts_weaken (by decide) (ih1 _)
        | with_reducible exact halts_weaken (by decide) (ih2 _)
        | with_reducible exact halts_weaken (by decide) (ih3 _)
        | with_reducible exact halts_weaken (by decide) (ih4 _)
        | with_reducible exact halts_weaken (by decide) (ih5 _)
        | with_reducible exact halts_weaken (by decide) (ih6 _)
        | with_reducible exact halts_weaken (by decide) (ih7 _)
        | with_reducible exact halts_weaken (by decide) (ih8 _)
        | with_reducible exact halts_weaken (by decide) (ih9 _)
        | with_reducible exact halts_weaken (by decide) (halts_compileAssignSt _ _)
        | with_reducible exact halts_weaken (by decide) (halts_compileCallSt _ _)
        | with_reducible exact halts_weaken (by decide) (halts_compileCondition _ _)
        | with_reducible exact halts_weaken (by decide) (halts_compileExpression _ _)
        | with_reducible exact halts_weaken (by decide) (halts_compileStatements _ _)
        | with_reducible exact halts_weaken (by decide) (halts_compileStatements2 _ _)
        | with_reducible exact halts_weaken (by decide) (halts_compileStatement _ _)
        | with_reducible exact halts_weaken (by decide) (halts_compileGroupSt _ _)
        | with_reducible exact halts_weaken (by decide) (halts_compileIfSt _ _)
        | with_reducible exact halts_weaken (by decide) (halts_compileElseSt _ _)
        | with_reducible exact halts_weaken (by decide) (halts_compileWhileSt _ _)
        | with_reducible exact halts_weaken (by decide) (halts_compileForSt _ _)
        | with_reducible exact halts_weaken (by decide) (halts_compileRepeatSt _ _)
        | with_reducible apply halts_getState_bind
        | with_reducible apply halts_eat_bind (by decide)
        | with_reducible apply halts_eat_addOp_bind (by assumption)
        | with_reducible apply halts_eat_multOp_bind (by assumption)
        | with_reducible apply halts_bind
        | with_reducible exact tracks_eat _ _
        | with_reducible exact tracks_error _ _
        | with_reducible exact tracks_pure _ _
        | with_reducible exact tracks_compileAssignSt _ _
        | with_reducible exact tracks_compileCallSt _ _
        | with_reducible exact tracks_compileCondition _ _
        | with_reducible exact tracks_compileExpression _ _
        | with_reducible exact tracks_compileStatements _ _
        | with_reducible exact tracks_compileStatements2 _ _
        | with_reducible exact tracks_compileStatement _ _
        | with_reducible exact tracks_compileGroupSt _ _
        | with_reducible exact tracks_compileIfSt _ _
        | with_reducible exact tracks_compileElseSt _ _
        | with_reducible exact tracks_compileWhileSt _ _
        | with_reducible exact tracks_compileForSt _ _
        | with_reducible exact tracks_compileRepeatSt _ _
        | with_reducible apply tracks_getState_bind
        | with_reducible apply tracks_bind
        | intro _ _
        | intro _
        | split
    · intro s
      rw [compileElseSt]
      apply halts_step 0 (by decide)
      repeat' first
        | with_reducible exact halts_eat _ _ _ _
        | with_reducible exact halts_error _ _ _ _ _ _
        | with_reducible exact halts_pure _ _ _ _
        | with_reducible exact halts_weaken (by decide) (ih1 _)
        | with_reducible exact halts_weaken (by decide) (ih2 _)
        | with_reducible exact halts_weaken (by decide) (ih3 _)
        | with_reducible exact halts_weaken (by decide) (ih4 _)
        | with_reducible exact halts_weaken (by decide) (ih5 _)
        | with_reducible exact halts_weaken (by decide) (ih6 _)
        | with_reducible exact halts_weaken (by decide) (ih7 _)
        | with_reducible exact halts_weaken (by decide) (ih8 _)
        | with_reducible exact halts_weaken (by decide) (ih9 _)
        | with_reducible exact halts_weaken (by decide) (halts_compileAssignSt _ _)
        | with_reducible exact halts_weaken (by decide) (halts_compileCallSt _ _)
        | with_reducible exact halts_weaken (by decide) (halts_compileCondition _ _)
        | with_reducible exact halts_weaken (by decide) (halts_compileExpression _ _)
        | with_reducible exact halts_weaken (by decide) (halts_compileStatements _ _)
        | with_reducible exact halts_weaken (by decide) (halts_compileStatements2 _ _)
        | with_reducible exact halts_weaken (by decide) (halts_compileStatement _ _)
        | with_reducible exact halts_weaken (by decide) (halts_compileGroupSt _ _)
        | with_reducible exact halts_weaken (by decide) (halts_compileIfSt _ _)
        | with_reducible exact halts_weaken (by decide) (halts_compileElseSt _ _)
        | with_reducible exact halts_weaken (by decide) (halts_compileWhileSt _ _)
        | with_reducible exact halts_weaken (by decide) (halts_compileForSt _ _)
        | with_reducible exact halts_weaken (by decide) (halts_compileRepeatSt _ _)
        | with_reducible apply halts_getState_bind
        | with_reducible apply halts_eat_bind (by decide)
        | with_reducible apply halts_eat_addOp_bind (by assumption)
        | with_reducible apply halts_eat_multOp_bind (by assumption)
        | with_reducible apply halts_bind
        | with_reducible exact tracks_eat _ _
        | with_reducible exact tracks_error _ _
        | with_reducible exact tracks_pure _ _
        | with_reducible exact tracks_compileAssignSt _ _
        | with_reducible exact tracks_compileCallSt _ _
        | with_reducible exact tracks_compileCondition _ _
        | with_reducible exact tracks_compileExpression _ _
        | with_reducible exact tracks_compileStatements _ _
        | with_reducible exact tracks_compileStatements2 _ _
        | with_reducible exact tracks_compileStatement _ _
        | with_reducible exact tracks_compileGroupSt _ _
        | with_reducible exact tracks_compileIfSt _ _
        | with_reducible exact tracks_compileElseSt _ _
        | with_reducible exact tracks_compileWhileSt _ _
        | with_reducible exact tracks_compileForSt _ _
        | with_reducible exact tracks_compileRepeatSt _ _
        | with_reducible apply tracks_getState_bind
        | with_reducible apply tracks_bind
        | intro _ _
        | intro _
        | split
    · intro s
      rw [compileWhileSt]
      apply halts_step 0 (by decide)
      repeat' first
        | with_reducible exact halts_eat _ _ _ _
        | with_reducible exact halts_error _ _ _ _ _ _
        | with_reducible exact halts_pure _ _ _ _
        | with_reducible exact halts_weaken (by decide) (ih1 _)
        | with_reducible exact halts_weaken (by decide) (ih2 _)
        | with_reducible exact halts_weaken (by decide) (ih3 _)
        | with_reducible exact halts_weaken (by decide) (ih4 _)
        | with_reducible exact halts_weaken (by decide) (ih5 _)
        | with_reducible exact halts_weaken (by decide) (ih6 _)
        | with_reducible exact halts_weaken (by decide) (ih7 _)
        | with_reducible exact halts_weaken (by decide) (ih8 _)
        | with_reducible exact halts_weaken (by decide) (ih9 _)
        | with_reducible exact halts_weaken (by decide) (halts_compileAssignSt _ _)
        | with_reducible exact halts_weaken (by decide) (halts_compileCallSt _ _)
        | with_reducible exact halts_weaken (by decide) (halts_compileCondition _ _)
        | with_reducible exact halts_weaken (by decide) (halts_compileExpression _ _)
        | with_reducible exact halts_weaken (by decide) (halts_compileStatements _ _)
        | with_reducible exact halts_weaken (by decide) (halts_compileStatements2 _ _)
        | with_reducible exact halts_weaken (by decide) (halts_compileStatement _ _)
        | with_reducible exact halts_weaken (by decide) (halts_compileGroupSt _ _)
        | with_reducible exact halts_weaken (by decide) (halts_compileIfSt _ _)
        | with_reducible exact halts_weaken (by decide) (halts_compileElseSt _ _)
        | with_reducible exact halts_weaken (by decide) (halts_compileWhileSt _ _)
        | with_reducible exact halts_weaken (by decide) (halts_compileForSt _ _)
        | with_reducible exact halts_weaken (by decide) (halts_compileRepeatSt _ _)
        | with_reducible apply halts_getState_bind
        | with_reducible apply halts_eat_bind (by decide)
        | with_reducible apply halts_eat_addOp_bind (by assumption)
        | with_reducible apply halts_eat_multOp_bind (by assumption)
        | with_reducible apply halts_bind
        | with_reducible exact tracks_eat _ _
        | with_reducible exact tracks_error _ _
        | with_reducible exact tracks_pure _ _
        | with_reducible exact tracks_compileAssignSt _ _
        | with_reducible exact tracks_compileCallSt _ _
        | with_reducible exact tracks_compileCondition _ _
        | with_reducible exact tracks_compileExpression _ _
        | with_reducible exact tracks_compileStatements _ _
        | with_reducible exact tracks_compileStatements2 _ _
        | with_reducible exact tracks_compileStatement _ _
        | with_reducible exact tracks_compileGroupSt _ _
        | with_reducible exact tracks_compileIfSt _ _
        | with_reducible exact tracks_compileElseSt _ _
        | with_reducible exact tracks_compileWhileSt _ _
        | with_reducible exact tracks_compileForSt _ _
        | with_reducible exact tracks_compileRepeatSt _ _
        | with_reducible apply tracks_getState_bind
        | with_reducible apply tracks_bind
        | intro _ _
        | intro _
        | split
    · intro s
      rw [compileForSt]
      apply halts_step 0 (by decide)
      repeat' first
        | with_reducible exact halts_eat _ _ _ _
        | with_reducible exact halts_error _ _ _ _ _ _
        | with_reducible exact halts_pure _ _ _ _
        | with_reducible exact halts_weaken (by decide) (ih1 _)
        | with_reducible exact halts_weaken (by decide) (ih2 _)
        | with_reducible exact halts_weaken (by decide) (ih3 _)
        | with_reducible exact halts_weaken (by decide) (ih4 _)
        | with_reducible exact halts_weaken (by decide) (ih5 _)
        | with_reducible exact halts_weaken (by decide) (ih6 _)
        | with_reducible exact halts_weaken (by decide) (ih7 _)
        | with_reducible exact halts_weaken (by decide) (ih8 _)
        | with_reducible exact halts_weaken (by decide) (ih9 _)
        | with_reducible exact halts_weaken (by decide) (halts_compileAssignSt _ _)
        | with_reducible exact halts_weaken (by decide) (halts_compileCallSt _ _)
        | with_reducible exact halts_weaken (by decide) (halts_compileCondition _ _)
        | with_reducible exact halts_weaken (by decide) (halts_compileExpression _ _)
        | with_reducible exact halts_weaken (by decide) (halts_compileStatements _ _)
        | with_reducible exact halts_weaken (by decide) (halts_compileStatements2 _ _)
        | with_reducible exact halts_weaken (by decide) (halts_compileStatement _ _)
        | with_reducible exact halts_weaken (by decide) (halts_compileGroupSt _ _)
        | with_reducible exact halts_weaken (by decide) (halts_compileIfSt _ _)
        | with_reducible exact halts_weaken (by decide) (halts_compileElseSt _ _)
        | with_reducible exact halts_weaken (by decide) (halts_compileWhileSt _ _)
        | with_reducible exact halts_weaken (by decide) (halts_compileForSt _ _)
        | with_reducible exact halts_weaken (by decide) (halts_compileRepeatSt _ _)
        | with_reducible apply halts_getState_bind
        | with_reducible apply halts_eat_bind (by decide)
        | with_reducible apply halts_eat_addOp_bind (by assumption)
        | with_reducible apply halts_eat_multOp_bind (by assumption)
        | with_reducible apply halts_bind
        | with_reducible exact tracks_eat _ _
        | with_reducible exact tracks_error _ _
        | with_reducible exact tracks_pure _ _
        | with_reducible exact tracks_compileAssignSt _ _
        | with_reducible exact tracks_compileCallSt _ _
        | with_reducible exact tracks_compileCondition _ _
        | with_reducible exact tracks_compileExpression _ _
        | with_reducible exact tracks_compileStatements _ _
        | with_reducible exact tracks_compileStatements2 _ _
        | with_reducible exact tracks_compileStatement _ _
        | with_reducible exact tracks_compileGroupSt _ _
        | with_reducible exact tracks_compileIfSt _ _
        | with_reducible exact tracks_compileElseSt _ _
        | with_reducible exact tracks_compileWhileSt _ _
        | with_reducible exact tracks_compileForSt _ _
        | with_reducible exact tracks_compileRepeatSt _ _
        | with_reducible apply tracks_getState_bind
        | with_reducible apply tracks_bind
        | intro _ _
        | intro _
        | split
    · intro s
      rw [compileRepeatSt]
      apply halts_step 0 (by decide)
      repeat' first
        | with_reducible exact halts_eat _ _ _ _
        | with_reducible exact halts_error _ _ _ _ _ _
        | with_reducible exact halts_pure _ _ _ _
        | with_reducible exact halts_weaken (by decide) (ih1 _)
        | with_reducible exact halts_weaken (by decide) (ih2 _)
        | with_reducible exact halts_weaken (by decide) (ih3 _)
        | with_reducible exact halts_weaken (by decide) (ih4 _)
        | with_reducible exact halts_weaken (by decide) (ih5 _)
        | with_reducible exact halts_weaken (by decide) (ih6 _)
        | with_reducible exact halts_weaken (by decide) (ih7 _)
        | with_reducible exact halts_weaken (by decide) (ih8 _)
        | with_reducible exact halts_weaken (by decide) (ih9 _)
        | with_reducible exact halts_weaken (by decide) (halts_compileAssignSt _ _)
        | with_reducible exact halts_weaken (by decide) (halts_compileCallSt _ _)
        | with_reducible exact halts_weaken (by decide) (halts_compileCondition _ _)
        | with_reducible exact halts_weaken (by decide) (halts_compileExpression _ _)
        | with_reducible exact halts_weaken (by decide) (halts_compileStatements _ _)
        | with_reducible exact halts_weaken (by decide) (halts_compileStatements2 _ _)
        | with_reducible exact halts_weaken (by decide) (halts_compileStatement _ _)
        | with_reducible exact halts_weaken (by decide) (halts_compileGroupSt _ _)
        | with_reducible exact halts_weaken (by decide) (halts_compileIfSt _ _)
        | with_reducible exact halts_weaken (by decide) (halts_compileElseSt _ _)
        | with_reducible exact halts_weaken (by decide) (halts_compileWhileSt _ _)
        | with_reducible exact halts_weaken (by decide) (halts_compileForSt _ _)
        | with_reducible exact halts_weaken (by decide) (halts_compileRepeatSt _ _)
        | with_reducible apply halts_getState_bind
        | with_reducible apply halts_eat_bind (by decide)
        | with_reducible apply halts_eat_addOp_bind (by assumption)
        | with_reducible apply halts_eat_multOp_bind (by assumption)
        | with_reducible apply halts_bind
        | with_reducible exact tracks_eat _ _
        | with_reducible exact tracks_error _ _
        | with_reducible exact tracks_pure _ _
        | with_reducible exact tracks_compileAssignSt _ _
        | with_reducible exact tracks_compileCallSt _ _
        | with_reducible exact tracks_compileCondition _ _
        | with_reducible exact tracks_compileExpression _ _
        | with_reducible exact tracks_compileStatements _ _
        | with_reducible exact tracks_compileStatements2 _ _
        | with_reducible exact tracks_compileStatement _ _
        | with_reducible exact tracks_compileGroupSt _ _
        | with_reducible exact tracks_compileIfSt _ _
        | with_reducible exact tracks_compileElseSt _ _
        | with_reducible exact tracks_compileWhileSt _ _
        | with_reducible exact tracks_compileForSt _ _
        | with_reducible exact tracks_compileRepeatSt _ _
        | with_reducible apply tracks_getState_bind
        | with_reducible apply tracks_bind
        | intro _ _
        | intro _
        | split

theorem halts_compileStatements (n : Nat) (s : State) : (compileStatements n).HaltsAt n 3 s :=
  (halts_statements n).1 s

theorem halts_compileStatements2 (n : Nat) (s : State) : (compileStatements2 n).HaltsAt n 1 s :=
  (halts_statements n).2.1 s

theorem halts_compileStatement (n : Nat) (s : State) : (compileStatement n).HaltsAt n 2 s :=
  (halts_statements n).2.2.1 s

theorem halts_compileGroupSt (n : Nat) (s : State) : (compileGroupSt n).HaltsAt n 1 s :=
  (halts_statements n).2.2.2.1 s

theorem halts_compileIfSt (n : Nat) (s : State) : (compileIfSt n).HaltsAt n 1 s :=
  (halts_statements n).2.2.2.2.1 s

theorem halts_compileElseSt (n : Nat) (s : State) : (compileElseSt n).HaltsAt n 1 s :=
  (halts_statements n).2.2.2.2.2.1 s

theorem halts_compileWhileSt (n : Nat) (s : State) : (compileWhileSt n).HaltsAt n 1 s :=
  (halts_statements n).2.2.2.2.2.2.1 s

theorem halts_compileForSt (n : Nat) (s : State) : (compileForSt n).HaltsAt n 1 s :=
  (halts_statements n).2.2.2.2.2.2.2.1 s

theorem halts_compileRepeatSt (n : Nat) (s : State) : (compileRepeatSt n).HaltsAt n 1 s :=
  (halts_statements n).2.2.2.2.2.2.2.2 s

theorem halts_compileBlock5 (n : Nat) (s : State) : (compileBlock5 n).HaltsAt n 0 s := by
  unfold compileBlock5
  repeat' first
    | with_reducible exact halts_eat _ _ _ _
    | with_reducible exact halts_error _ _ _ _ _ _
    | with_reducible exact halts_pure _ _ _ _
    | with_reducible exact halts_weaken (by decide) (halts_compileStatements _ _)
    | with_reducible apply halts_getState_bind
    | with_reducible apply halts_eat_bind (by decide)
    | with_reducible apply halts_eat_addOp_bind (by assumption)
    | with_reducible apply halts_eat_multOp_bind (by assumption)
    | with_reducible apply halts_bind
    | with_reducible exact tracks_eat _ _
    | with_reducible exact tracks_error _ _
    | with_reducible exact tracks_pure _ _
    | with_reducible exact tracks_compileStatements _ _
    | with_reducible apply tracks_getState_bind
    | with_reducible apply tracks_bind
    | intro _ _
    | intro _
    | split

theorem consumes_compileFuncDecl (fuel : Nat) (s : State) : (compileFuncDecl fuel).ConsumesAt s := by
  cases fuel with
  | zero =>
    intro a s1 h
    simp [compileFuncDecl, outOfFuel] at h
  | succ fuel =>
    rw [compileFuncDecl]
    apply consumes_eat_bind (by decide)
    intro s1
    repeat' first
      | with_reducible exact tracks_eat _ _
      | with_reducible exact tracks_error _ _
      | with_reducible exact tracks_pure _ _
      | with_reducible exact tracks_compileParams _ _
      | with_reducible exact tracks_compileBasicType _
      | with_reducible exact tracks_compileBlock _ _
      | with_reducible apply tracks_getState_bind
      | with_reducible apply tracks_bind
      | intro _ _
      | split

theorem consumes_compileProcDecl (fuel : Nat) (s : State) : (compileProcDecl fuel).ConsumesAt s := by
  cases fuel with
  | zero =>
    intro a s1 h
    simp [compileProcDecl, outOfFuel] at h
  | succ fuel =>
    rw [compileProcDecl]
    apply consumes_eat_bind (by decide)
    intro s1
    repeat' first
      | with_reducible exact tracks_eat _ _
      | with_reducible exact tracks_error _ _
      | with_reducible exact tracks_pure _ _
      | with_reducible exact tracks_compileParams _ _
      | with_reducible exact tracks_compileBlock _ _
      | with_reducible apply tracks_getState_bind
      | with_reducible apply tracks_bind
      | intro _ _
      | split

theorem halts_blocks (n : Nat) :
    (∀ s, (compileBlock n).HaltsAt n 6 s) ∧
    (∀ s, (compileBlock2 n).HaltsAt n 5 s) ∧
    (∀ s, (compileBlock3 n).HaltsAt n 4 s) ∧
    (∀ s, (compileBlock4 n).HaltsAt n 3 s) ∧
    (∀ s, (compileSubDecls n).HaltsAt n 2 s) ∧
    (∀ s, (compileFuncDecl n).HaltsAt n 1 s) ∧
    (∀ s, (compileProcDecl n).HaltsAt n 1 s) := by
  induction n with
  | zero =>
    refine ⟨?_, ?_, ?_, ?_, ?_, ?_, ?_⟩ <;> exact fun _ => halts_zero (by decide)
  | succ n ih =>
    obtain ⟨ih1, ih2, ih3, ih4, ih5, ih6, ih7⟩ := ih
    refine ⟨?_, ?_, ?_, ?_, ?_, ?_, ?_⟩
    · intro s
      rw [compileBlock]
      apply halts_step 5 (by decide)
      repeat' first
        | with_reducible exact halts_eat _ _ _ _
        | with_reducible exact halts_error _ _ _ _ _ _
        | with_reducible exact halts_pure _ _ _ _
        | with_reducible exact halts_weaken (by decide) (ih1 _)
        | with_reducible exact halts_weaken (by decide) (ih2 _)
        | with_reducible exact halts_weaken (by decide) (ih3 _)
        | with_reducible exact halts_weaken (by decide) (ih4 _)
        | with_reducible exact halts_weaken (by decide) (ih5 _)
        | with_reducible exact halts_weaken (by decide) (ih6 _)
        | with_reducible exact halts_weaken (by decide) (ih7 _)
        | with_reducible exact halts_weaken (by decide) (halts_compileConstDecl _ _)
        | with_reducible exact halts_weaken (by decide) (halts_compileConstDecls _ _)
        | with_reducible exact halts_weaken (by decide) (halts_compileTypeDecl _ _)
        | with_reducible exact halts_weaken (by decide) (halts_compileTypeDecls _ _)
        | with_reducible exact halts_weaken (by decide) (halts_compileVarDecl _ _)
        | with_reducible exact halts_weaken (by decide) (halts_compileVarDecls _ _)
        | with_reducible exact halts_weaken (by decide) (halts_compileBlock5 _ _)
        | with_reducible exact halts_weaken (by decide) (halts_compileParams _ _)
        | with_reducible exact halts_compileBasicType _ _ _
        | with_reducible exact halts_weaken (by decide) (halts_compileBlock _ _)
        | with_reducible exact halts_weaken (by decide) (halts_compileBlock2 _ _)
        | with_reducible exact halts_weaken (by decide) (halts_compileBlock3 _ _)
        | with_reducible exact halts_weaken (by decide) (halts_compileBlock4 _ _)
        | with_reducible exact halts_weaken (by decide) (halts_compileSubDecls _ _)
        | with_reducible exact halts_weaken (by decide) (halts_compileFuncDecl _ _)
        | with_reducible exact halts_weaken (by decide) (halts_compileProcDecl _ _)
        | with_reducible apply halts_getState_bind
        | with_reducible apply halts_eat_bind (by decide)
        | with_reducible apply halts_eat_addOp_bind (by assumption)
        | with_reducible apply halts_eat_multOp_bind (by assumption)
        | with_reducible apply halts_consuming_bind (consumes_compileFuncDecl _ _)
        | with_reducible apply halts_consuming_bind (consumes_compileProcDecl _ _)
        | with_reducible apply halts_bind
        | with_reducible exact tracks_eat _ _
        | with_reducible exact tracks_error _ _
        | with_reducible exact tracks_pure _ _
        | with_reducible exact tracks_compileConstDecl _ _
        | with_reducible exact tracks_compileConstDecls _ _
        | with_reducible exact tracks_compileTypeDecl _ _
        | with_reducible exact tracks_compileTypeDecls _ _
        | with_reducible exact tracks_compileVarDecl _ _
        | with_reducible exact tracks_compileVarDecls _ _
        | with_reducible exact tracks_compileBlock5 _ _
        | with_reducible exact tracks_compileParams _ _
        | with_reducible exact tracks_compileBasicType _
        | with_reducible exact tracks_compileBlock _ _
        | with_reducible exact tracks_compileBlock2 _ _
        | with_reducible exact tracks_compileBlock3 _ _
        | with_reducible exact tracks_compileBlock4 _ _
        | with_reducible exact tracks_compileSubDecls _ _
        | with_reducible exact tracks_compileFuncDecl _ _
        | with_reducible exact tracks_compileProcDecl _ _
        | with_reducible apply tracks_getState_bind
        | with_reducible apply tracks_bind
        | intro _ _
        | intro _
        | split
    · intro s
      rw [compileBlock2]
      apply halts_step 4 (by decide)
      repeat' first
        | with_reducible exact halts_eat _ _ _ _
        | with_reducible exact halts_error _ _ _ _ _ _
        | with_reducible exact halts_pure _ _ _ _
        | with_reducible exact halts_weaken (by decide) (ih1 _)
        | with_reducible exact halts_weaken (by decide) (ih2 _)
        | with_reducible exact halts_weaken (by decide) (ih3 _)
        | with_reducible exact halts_weaken (by decide) (ih4 _)
        | with_reducible exact halts_weaken (by decide) (ih5 _)
        | with_reducible exact halts_weaken (by decide) (ih6 _)
        | with_reducible exact halts_weaken (by decide) (ih7 _)
        | with_reducible exact halts_weaken (by decide) (halts_compileConstDecl _ _)
        | with_reducible exact halts_weaken (by decide) (halts_compileConstDecls _ _)
        | with_reducible exact halts_weaken (by decide) (halts_compileTypeDecl _ _)
        | with_reducible exact halts_weaken (by decide) (halts_compileTypeDecls _ _)
        | with_reducible exact halts_weaken (by decide) (halts_compileVarDecl _ _)
        | with_reducible exact halts_weaken (by decide) (halts_compileVarDecls _ _)
        | with_reducible exact halts_weaken (by decide) (halts_compileBlock5 _ _)
        | with_reducible exact halts_weaken (by decide) (halts_compileParams _ _)
        | with_reducible exact halts_compileBasicType _ _ _
        | with_reducible exact halts_weaken (by decide) (halts_compileBlock _ _)
        | with_reducible exact halts_weaken (by decide) (halts_compileBlock2 _ _)
        | with_reducible exact halts_weaken (by decide) (halts_compileBlock3 _ _)
        | with_reducible exact halts_weaken (by decide) (halts_compileBlock4 _ _)
        | with_reducible exact halts_weaken (by decide) (halts_compileSubDecls _ _)
        | with_reducible exact halts_weaken (by decide) (halts_compileFuncDecl _ _)
        | with_reducible exact halts_weaken (by decide) (halts_compileProcDecl _ _)
        | with_reducible apply halts_getState_bind
        | with_reducible apply halts_eat_bind (by decide)
        | with_reducible apply halts_eat_addOp_bind (by assumption)
        | with_reducible apply halts_eat_multOp_bind (by assumption)
        | with_reducible apply halts_consuming_bind (consumes_compileFuncDecl _ _)
        | with_reducible apply halts_consuming_bind (consumes_compileProcDecl _ _)
        | with_reducible apply halts_bind
        | with_reducible exact tracks_eat _ _
        | with_reducible exact tracks_error _ _
        | with_reducible exact tracks_pure _ _
        | with_reducible exact tracks_compileConstDecl _ _
        | with_reducible exact tracks_compileConstDecls _ _
        | with_reducible exact tracks_compileTypeDecl _ _
        | with_reducible exact tracks_compileTypeDecls _ _
        | with_reducible exact tracks_compileVarDecl _ _
        | with_reducible exact tracks_compileVarDecls _ _
        | with_reducible exact tracks_compileBlock5 _ _
        | with_reducible exact tracks_compileParams _ _
        | with_reducible exact tracks_compileBasicType _
        | with_reducible exact tracks_compileBlock _ _
        | with_reducible exact tracks_compileBlock2 _ _
        | with_reducible exact tracks_compileBlock3 _ _
        | with_reducible exact tracks_compileBlock4 _ _
        | with_reducible exact tracks_compileSubDecls _ _
        | with_reducible exact tracks_compileFuncDecl _ _
        | with_reducible exact tracks_compileProcDecl _ _
        | with_reducible apply tracks_getState_bind
        | with_reducible apply tracks_bind
        | intro _ _
        | intro _
        | split
    · intro s
      rw [compileBlock3]
      apply halts_step 3 (by decide)
      repeat' first
        | with_reducible exact halts_eat _ _ _ _
        | with_reducible exact halts_error _ _ _ _ _ _
        | with_reducible exact halts_pure _ _ _ _
        | with_reducible exact halts_weaken (by decide) (ih1 _)
        | with_reducible exact halts_weaken (by decide) (ih2 _)
        | with_reducible exact halts_weaken (by decide) (ih3 _)
        | with_reducible exact halts_weaken (by decide) (ih4 _)
        | with_reducible exact halts_weaken (by decide) (ih5 _)
        | with_reducible exact halts_weaken (by decide) (ih6 _)
        | with_reducible exact halts_weaken (by decide) (ih7 _)
        | with_reducible exact halts_weaken (by decide) (halts_compileConstDecl _ _)
        | with_reducible exact halts_weaken (by decide) (halts_compileConstDecls _ _)
        | with_reducible exact halts_weaken (by decide) (halts_compileTypeDecl _ _)
        | with_reducible exact halts_weaken (by decide) (halts_compileTypeDecls _ _)
        | with_reducible exact halts_weaken (by decide) (halts_compileVarDecl _ _)
        | with_reducible exact halts_weaken (by decide) (halts_compileVarDecls _ _)
        | with_reducible exact halts_weaken (by decide) (halts_compileBlock5 _ _)
        | with_reducible exact halts_weaken (by decide) (halts_compileParams _ _)
        | with_reducible exact halts_compileBasicType _ _ _
        | with_reducible exact halts_weaken (by decide) (halts_compileBlock _ _)
        | with_reducible exact halts_weaken (by decide) (halts_compileBlock2 _ _)
        | with_reducible exact halts_weaken (by decide) (halts_compileBlock3 _ _)
        | with_reducible exact halts_weaken (by decide) (halts_compileBlock4 _ _)
        | with_reducible exact halts_weaken (by decide) (halts_compileSubDecls _ _)
        | with_reducible exact halts_weaken (by decide) (halts_compileFuncDecl _ _)
        | with_reducible exact halts_weaken (by decide) (halts_compileProcDecl _ _)
        | with_reducible apply halts_getState_bind
        | with_reducible apply halts_eat_bind (by decide)
        | with_reducible apply halts_eat_addOp_bind (by assumption)
        | with_reducible apply halts_eat_multOp_bind (by assumption)
        | with_reducible apply halts_consuming_bind (consumes_compileFuncDecl _ _)
        | with_reducible apply halts_consuming_bind (consumes_compileProcDecl _ _)
        | with_reducible apply halts_bind
        | with_reducible exact tracks_eat _ _
        | with_reducible exact tracks_error _ _
        | with_reducible exact tracks_pure _ _
        | with_reducible exact tracks_compileConstDecl _ _
        | with_reducible exact tracks_compileConstDecls _ _
        | with_reducible exact tracks_compileTypeDecl _ _
        | with_reducible exact tracks_compileTypeDecls _ _
        | with_reducible exact tracks_compileVarDecl _ _
        | with_reducible exact tracks_compileVarDecls _ _
        | with_reducible exact tracks_compileBlock5 _ _
        | with_reducible exact tracks_compileParams _ _
        | with_reducible exact tracks_compileBasicType _
        | with_reducible exact tracks_compileBlock _ _
        | with_reducible exact tracks_compileBlock2 _ _
        | with_reducible exact tracks_compileBlock3 _ _
        | with_reducible exact tracks_compileBlock4 _ _
        | with_reducible exact tracks_compileSubDecls _ _
        | with_reducible exact tracks_compileFuncDecl _ _
        | with_reducible exact tracks_compileProcDecl _ _
        | with_reducible apply tracks_getState_bind
        | with_reducible apply tracks_bind
        | intro _ _
        | intro _
        | split
    · intro s
      rw [compileBlock4]
      apply halts_step 2 (by decide)
      repeat' first
        | with_reducible exact halts_eat _ _ _ _
        | with_reducible exact halts_error _ _ _ _ _ _
        | with_reducible exact halts_pure _ _ _ _
        | with_reducible exact halts_weaken (by decide) (ih1 _)
        | with_reducible exact halts_weaken (by decide) (ih2 _)
        | with_reducible exact halts_weaken (by decide) (ih3 _)
        | with_reducible exact halts_weaken (by decide) (ih4 _)
        | with_reducible exact halts_weaken (by decide) (ih5 _)
        | with_reducible exact halts_weaken (by decide) (ih6 _)
        | with_reducible exact halts_weaken (by decide) (ih7 _)
        | with_reducible exact halts_weaken (by decide) (halts_compileConstDecl _ _)
        | with_reducible exact halts_weaken (by decide) (halts_compileConstDecls _ _)
        | with_reducible exact halts_weaken (by decide) (halts_compileTypeDecl _ _)
        | with_reducible exact halts_weaken (by decide) (halts_compileTypeDecls _ _)
        | with_reducible exact halts_weaken (by decide) (halts_compileVarDecl _ _)
        | with_reducible exact halts_weaken (by decide) (halts_compileVarDecls _ _)
        | with_reducible exact halts_weaken (by decide) (halts_compileBlock5 _ _)
        | with_reducible exact halts_weaken (by decide) (halts_compileParams _ _)
        | with_reducible exact halts_compileBasicType _ _ _
        | with_reducible exact halts_weaken (by decide) (halts_compileBlock _ _)
        | with_reducible exact halts_weaken (by decide) (halts_compileBlock2 _ _)
        | with_reducible exact halts_weaken (by decide) (halts_compileBlock3 _ _)
        | with_reducible exact halts_weaken (by decide) (halts_compileBlock4 _ _)
        | with_reducible exact halts_weaken (by decide) (halts_compileSubDecls _ _)
        | with_reducible exact halts_weaken (by decide) (halts_compileFuncDecl _ _)
        | with_reducible exact halts_weaken (by decide) (halts_compileProcDecl _ _)
        | with_reducible apply halts_getState_bind
        | with_reducible apply halts_eat_bind (by decide)
        | with_reducible apply halts_eat_addOp_bind (by assumption)
        | with_reducible apply halts_eat_multOp_bind (by assumption)
        | with_reducible apply halts_consuming_bind (consumes_compileFuncDecl _ _)
        | with_reducible apply halts_consuming_bind (consumes_compileProcDecl _ _)
        | with_reducible apply halts_bind
        | with_reducible exact tracks_eat _ _
        | with_reducible exact tracks_error _ _
        | with_reducible exact tracks_pure _ _
        | with_reducible exact tracks_compileConstDecl _ _
        | with_reducible exact tracks_compileConstDecls _ _
        | with_reducible exact tracks_compileTypeDecl _ _
        | with_reducible exact tracks_compileTypeDecls _ _
        | with_reducible exact tracks_compileVarDecl _ _
        | with_reducible exact tracks_compileVarDecls _ _
        | with_reducible exact tracks_compileBlock5 _ _
        | with_reducible exact tracks_compileParams _ _
        | with_reducible exact tracks_compileBasicType _
        | with_reducible exact tracks_compileBlock _ _
        | with_reducible exact tracks_compileBlock2 _ _
        | with_reducible exact tracks_compileBlock3 _ _
        | with_reducible exact tracks_compileBlock4 _ _
        | with_reducible exact tracks_compileSubDecls _ _
        | with_reducible exact tracks_compileFuncDecl _ _
        | with_reducible exact tracks_compileProcDecl _ _
        | with_reducible apply tracks_getState_bind
        | with_reducible apply tracks_bind
        | intro _ _
        | intro _
        | split
    · intro s
      rw [compileSubDecls]
      apply halts_step 1 (by decide)
      repeat' first
        | with_reducible exact halts_eat _ _ _ _
        | with_reducible exact halts_error _ _ _ _ _ _
        | with_reducible exact halts_pure _ _ _ _
        | with_reducible exact halts_weaken (by decide) (ih1 _)
        | with_reducible exact halts_weaken (by decide) (ih2 _)
        | with_reducible exact halts_weaken (by decide) (ih3 _)
        | with_reducible exact halts_weaken (by decide) (ih4 _)
        | with_reducible exact halts_weaken (by decide) (ih5 _)
        | with_reducible exact halts_weaken (by decide) (ih6 _)
        | with_reducible exact halts_weaken (by decide) (ih7 _)
        | with_reducible exact halts_weaken (by decide) (halts_compileConstDecl _ _)
        | with_reducible exact halts_weaken (by decide) (halts_compileConstDecls _ _)
        | with_reducible exact halts_weaken (by decide) (halts_compileTypeDecl _ _)
        | with_reducible exact halts_weaken (by decide) (halts_compileTypeDecls _ _)
        | with_reducible exact halts_weaken (by decide) (halts_compileVarDecl _ _)
        | with_reducible exact halts_weaken (by decide) (halts_compileVarDecls _ _)
        | with_reducible exact halts_weaken (by decide) (halts_compileBlock5 _ _)
        | with_reducible exact halts_weaken (by decide) (halts_compileParams _ _)
        | with_reducible exact halts_compileBasicType _ _ _
        | with_reducible exact halts_weaken (by decide) (halts_compileBlock _ _)
        | with_reducible exact halts_weaken (by decide) (halts_compileBlock2 _ _)
        | with_reducible exact halts_weaken (by decide) (halts_compileBlock3 _ _)
        | with_reducible exact halts_weaken (by decide) (halts_compileBlock4 _ _)
        | with_reducible exact halts_weaken (by decide) (halts_compileSubDecls _ _)
        | with_reducible exact halts_weaken (by decide) (halts_compileFuncDecl _ _)
        | with_reducible exact halts_weaken (by decide) (halts_compileProcDecl _ _)
        | with_reducible apply halts_getState_bind
        | with_reducible apply halts_eat_bind (by decide)
        | with_reducible apply halts_eat_addOp_bind (by assumption)
        | with_reducible apply halts_eat_multOp_bind (by assumption)
        | with_reducible apply halts_consuming_bind (consumes_compileFuncDecl _ _)
        | with_reducible apply halts_consuming_bind (consumes_compileProcDecl _ _)
        | with_reducible apply halts_bind
        | with_reducible exact tracks_eat _ _
        | with_reducible exact tracks_error _ _
        | with_reducible exact tracks_pure _ _
        | with_reducible exact tracks_compileConstDecl _ _
        | with_reducible exact tracks_compileConstDecls _ _
        | with_reducible exact tracks_compileTypeDecl _ _
        | with_reducible exact tracks_compileTypeDecls _ _
        | with_reducible exact tracks_compileVarDecl _ _
        | with_reducible exact tracks_compileVarDecls _ _
        | with_reducible exact tracks_compileBlock5 _ _
        | with_reducible exact tracks_compileParams _ _
        | with_reducible exact tracks_compileBasicType _
        | with_reducible exact tracks_compileBlock _ _
        | with_reducible exact tracks_compileBlock2 _ _
        | with_reducible exact tracks_compileBlock3 _ _
        | with_reducible exact tracks_compileBlock4 _ _
        | with_reducible exact tracks_compileSubDecls _ _
        | with_reducible exact tracks_compileFuncDecl _ _
        | with_reducible exact tracks_compileProcDecl _ _
        | with_reducible apply tracks_getState_bind
        | with_reducible apply tracks_bind
        | intro _ _
        | intro _
        | split
    · intro s
      rw [compileFuncDecl]
      apply halts_step 0 (by decide)
      repeat' first
        | with_reducible exact halts_eat _ _ _ _
        | with_reducible exact halts_error _ _ _ _ _ _
        | with_reducible exact halts_pure _ _ _ _
        | with_reducible exact halts_weaken (by decide) (ih1 _)
        | with_reducible exact halts_weaken (by decide) (ih2 _)
        | with_reducible exact halts_weaken (by decide) (ih3 _)
        | with_reducible exact halts_weaken (by decide) (ih4 _)
        | with_reducible exact halts_weaken (by decide) (ih5 _)
        | with_reducible exact halts_weaken (by decide) (ih6 _)
        | with_reducible exact halts_weaken (by decide) (ih7 _)
        | with_reducible exact halts_weaken (by decide) (halts_compileConstDecl _ _)
        | with_reducible exact halts_weaken (by decide) (halts_compileConstDecls _ _)
        | with_reducible exact halts_weaken (by decide) (halts_compileTypeDecl _ _)
        | with_reducible exact halts_weaken (by decide) (halts_compileTypeDecls _ _)
        | with_reducible exact halts_weaken (by decide) (halts_compileVarDecl _ _)
        | with_reducible exact halts_weaken (by decide) (halts_compileVarDecls _ _)
        | with_reducible exact halts_weaken (by decide) (halts_compileBlock5 _ _)
        | with_reducible exact halts_weaken (by decide) (halts_compileParams _ _)
        | with_reducible exact halts_compileBasicType _ _ _
        | with_reducible exact halts_weaken (by decide) (halts_compileBlock _ _)
        | with_reducible exact halts_weaken (by decide) (halts_compileBlock2 _ _)
        | with_reducible exact halts_weaken (by decide) (halts_compileBlock3 _ _)
        | with_reducible exact halts_weaken (by decide) (halts_compileBlock4 _ _)
        | with_reducible exact halts_weaken (by decide) (halts_compileSubDecls _ _)
        | with_reducible exact halts_weaken (by decide) (halts_compileFuncDecl _ _)
        | with_reducible exact halts_weaken (by decide) (halts_compileProcDecl _ _)
        | with_reducible apply halts_getState_bind
        | with_reducible apply halts_eat_bind (by decide)
        | with_reducible apply halts_eat_addOp_bind (by assumption)
        | with_reducible apply halts_eat_multOp_bind (by assumption)
        | with_reducible apply halts_consuming_bind (consumes_compileFuncDecl _ _)
        | with_reducible apply halts_consuming_bind (consumes_compileProcDecl _ _)
        | with_reducible apply halts_bind
        | with_reducible exact tracks_eat _ _
        | with_reducible exact tracks_error _ _
        | with_reducible exact tracks_pure _ _
        | with_reducible exact tracks_compileConstDecl _ _
        | with_reducible exact tracks_compileConstDecls _ _
        | with_reducible exact tracks_compileTypeDecl _ _
        | with_reducible exact tracks_compileTypeDecls _ _
        | with_reducible exact tracks_compileVarDecl _ _
        | with_reducible exact tracks_compileVarDecls _ _
        | with_reducible exact tracks_compileBlock5 _ _
        | with_reducible exact tracks_compileParams _ _
        | with_reducible exact tracks_compileBasicType _
        | with_reducible exact tracks_compileBlock _ _
        | with_reducible exact tracks_compileBlock2 _ _
        | with_reducible exact tracks_compileBlock3 _ _
        | with_reducible exact tracks_compileBlock4 _ _
        | with_reducible exact tracks_compileSubDecls _ _
        | with_reducible exact tracks_compileFuncDecl _ _
        | with_reducible exact tracks_compileProcDecl _ _
        | with_reducible apply tracks_getState_bind
        | with_reducible apply tracks_bind
        | intro _ _
        | intro _
        | split
    · intro s
      rw [compileProcDecl]
      apply halts_step 0 (by decide)
      repeat' first
        | with_reducible exact halts_eat _ _ _ _
        | with_reducible exact halts_error _ _ _ _ _ _
        | with_reducible exact halts_pure _ _ _ _
        | with_reducible exact halts_weaken (by decide) (ih1 _)
        | with_reducible exact halts_weaken (by decide) (ih2 _)
        | with_reducible exact halts_weaken (by decide) (ih3 _)
        | with_reducible exact halts_weaken (by decide) (ih4 _)
        | with_reducible exact halts_weaken (by decide) (ih5 _)
        | with_reducible exact halts_weaken (by decide) (ih6 _)
        | with_reducible exact halts_weaken (by decide) (ih7 _)
        | with_reducible exact halts_weaken (by decide) (halts_compileConstDecl _ _)
        | with_reducible exact halts_weaken (by decide) (halts_compileConstDecls _ _)
        | with_reducible exact halts_weaken (by decide) (halts_compileTypeDecl _ _)
        | with_reducible exact halts_weaken (by decide) (halts_compileTypeDecls _ _)
        | with_reducible exact halts_weaken (by decide) (halts_compileVarDecl _ _)
        | with_reducible exact halts_weaken (by decide) (halts_compileVarDecls _ _)
        | with_reducible exact halts_weaken (by decide) (halts_compileBlock5 _ _)
        | with_reducible exact halts_weaken (by decide) (halts_compileParams _ _)
        | with_reducible exact halts_compileBasicType _ _ _
        | with_reducible exact halts_weaken (by decide) (halts_compileBlock _ _)
        | with_reducible exact halts_weaken (by decide) (halts_compileBlock2 _ _)
        | with_reducible exact halts_weaken (by decide) (halts_compileBlock3 _ _)
        | with_reducible exact halts_weaken (by decide) (halts_compileBlock4 _ _)
        | with_reducible exact halts_weaken (by decide) (halts_compileSubDecls _ _)
        | with_reducible exact halts_weaken (by decide) (halts_compileFuncDecl _ _)
        | with_reducible exact halts_weaken (by decide) (halts_compileProcDecl _ _)
        | with_reducible apply halts_getState_bind
        | with_reducible apply halts_eat_bind (by decide)
        | with_reducible apply halts_eat_addOp_bind (by assumption)
        | with_reducible apply halts_eat_multOp_bind (by assumption)
        | with_reducible apply halts_consuming_bind (consumes_compileFuncDecl _ _)
        | with_reducible apply halts_consuming_bind (consumes_compileProcDecl _ _)
        | with_reducible apply halts_bind
        | with_reducible exact tracks_eat _ _
        | with_reducible exact tracks_error _ _
        | with_reducible exact tracks_pure _ _
        | with_reducible exact tracks_compileConstDecl _ _
        | with_reducible exact tracks_compileConstDecls _ _
        | with_reducible exact tracks_compileTypeDecl _ _
        | with_reducible exact tracks_compileTypeDecls _ _
        | with_reducible exact tracks_compileVarDecl _ _
        | with_reducible exact tracks_compileVarDecls _ _
        | with_reducible exact tracks_compileBlock5 _ _
        | with_reducible exact tracks_compileParams _ _
        | with_reducible exact tracks_compileBasicType _
        | with_reducible exact tracks_compileBlock _ _
        | with_reducible exact tracks_compileBlock2 _ _
        | with_reducible exact tracks_compileBlock3 _ _
        | with_reducible exact tracks_compileBlock4 _ _
        | with_reducible exact tracks_compileSubDecls _ _
        | with_reducible exact tracks_compileFuncDecl _ _
        | with_reducible exact tracks_compileProcDecl _ _
        | with_reducible apply tracks_getState_bind
        | with_reducible apply tracks_bind
        | intro _ _
        | intro _
        | split

theorem halts_compileBlock (n : Nat) (s : State) : (compileBlock n).HaltsAt n 6 s :=
  (halts_blocks n).1 s

theorem halts_compileBlock2 (n : Nat) (s : State) : (compileBlock2 n).HaltsAt n 5 s :=
  (halts_blocks n).2.1 s

theorem halts_compileBlock3 (n : Nat) (s : State) : (compileBlock3 n).HaltsAt n 4 s :=
  (halts_blocks n).2.2.1 s

theorem halts_compileBlock4 (n : Nat) (s : State) : (compileBlock4 n).HaltsAt n 3 s :=
  (halts_blocks n).2.2.2.1 s

theorem halts_compileSubDecls (n : Nat) (s : State) : (compileSubDecls n).HaltsAt n 2 s :=
  (halts_blocks n).2.2.2.2.1 s

theorem halts_compileFuncDecl (n : Nat) (s : State) : (compileFuncDecl n).HaltsAt n 1 s :=
  (halts_blocks n).2.2.2.2.2.1 s

theorem halts_compileProcDecl (n : Nat) (s : State) : (compileProcDecl n).HaltsAt n 1 s :=
  (halts_blocks n).2.2.2.2.2.2 s

theorem halts_compileProgram (n : Nat) (s : State) : (compileProgram n).HaltsAt n 0 s := by
  unfold compileProgram
  repeat' first
    | with_reducible exact halts_eat _ _ _ _
    | with_reducible exact halts_error _ _ _ _ _ _
    | with_reducible exact halts_pure _ _ _ _
    | with_reducible exact halts_weaken (by decide) (halts_compileBlock _ _)
    | with_reducible apply halts_getState_bind
    | with_reducible apply halts_eat_bind (by decide)
    | with_reducible apply halts_eat_addOp_bind (by assumption)
    | with_reducible apply halts_eat_multOp_bind (by assumption)
    | with_reducible apply halts_bind
    | with_reducible exact tracks_eat _ _
    | with_reducible exact tracks_error _ _
    | with_reducible exact tracks_pure _ _
    | with_reducible exact tracks_compileBlock _ _
    | with_reducible apply tracks_getState_bind
    | with_reducible apply tracks_bind
    | intro _ _
    | intro _
    | split

theorem initialState_remaining_le (src : TokenSource)
    (heof : src.endMarker.tokenType = TK_EOF) :
    (initialState src).remaining ≤ src.pending.length := by
  unfold State.remaining initialState getValidToken
  cases hp : src.pending with
  | nil => simp [hp, heof]
  | cons t ts =>
    simp only [List.length_cons]
    split <;> omega

/-- A run of `compileProgram` from the initial state of a source that ends in
an end marker does not run out of fuel, once the fuel is seven times the number
of tokens. -/
theorem compileProgram_halts (src : TokenSource) (heof : src.endMarker.tokenType = TK_EOF)
    (fuel : Nat) (hfuel : 7 * src.pending.length ≤ fuel) :
    compileProgram fuel (initialState src) ≠ .outOfFuel := by
  refine (halts_compileProgram fuel (initialState src)).run ?_ ?_
  · unfold initialState getValidToken
    cases hp : src.pending with
    | nil => simpa [hp] using heof
    | cons t ts => exact heof
  · have h := initialState_remaining_le src heof
    omega

/-! ### A production depends on the tokens it has seen only -/

theorem upcoming_agree_split {s t : State} (a b : Nat)
    (h : s.upcoming (a + b) = t.upcoming (a + b)) :
    s.upcoming a = t.upcoming a ∧ (s.skip a).upcoming b = (t.skip a).upcoming b := by
  rw [State.upcoming_add, State.upcoming_add] at h
  exact List.append_inj h (by rw [State.upcoming_length, State.upcoming_length])

theorem upcoming_agree_lookAhead {s t : State} (j : Nat)
    (h : s.upcoming (j + 1) = t.upcoming (j + 1)) : s.lookAhead = t.lookAhead := by
  rw [State.upcoming_succ, State.upcoming_succ] at h
  exact (List.cons.inj h).1

theorem local_pure {α : Type} (a : α) (s t : State) : (pure a : Compile α).LocalAt s t :=
  ⟨⟨0, rfl, fun _ => rfl⟩⟩

theorem local_outOfFuel {α : Type} (s t : State) : (outOfFuel : Compile α).LocalAt s t :=
  ⟨trivial⟩

theorem local_error {α : Type} (err : ErrorCode) (l c : Int) (s t : State) :
    (error err l c : Compile α).LocalAt s t :=
  ⟨⟨0, rfl, fun _ => rfl⟩⟩

theorem local_eat (k : TokenType) (s t : State) : (eat k).LocalAt s t := by
  refine ⟨?_⟩
  by_cases hk : s.lookAhead.tokenType = k
  · rw [eat_ok hk]
    refine ⟨1, rfl, fun hag => ?_⟩
    have hla := upcoming_agree_lookAhead 1 hag
    exact eat_ok (by rw [← hla]; exact hk)
  · rw [eat_raised hk]
    refine ⟨0, rfl, fun hag => ?_⟩
    have hla := upcoming_agree_lookAhead 0 hag
    rw [eat_raised (by rw [← hla]; exact hk), ← hla]
    rfl

theorem local_getState_bind {β : Type} {f : State → Compile β} {s t : State}
    (h1 : (f s).LocalAt s t) (h2 : s.lookAhead = t.lookAhead → f t = f s) :
    (getState >>= f).LocalAt s t := by
  refine ⟨?_⟩
  have h := h1.run
  rw [getState_bind, getState_bind]
  cases hfs : f s s with
  | ok a s1 =>
    rw [hfs] at h
    obtain ⟨j, hj, hrun⟩ := h
    exact ⟨j, hj, fun hag => by rw [h2 (upcoming_agree_lookAhead j hag)]; exact hrun hag⟩
  | raised e s1 =>
    rw [hfs] at h
    obtain ⟨j, hj, hrun⟩ := h
    exact ⟨j, hj, fun hag => by rw [h2 (upcoming_agree_lookAhead j hag)]; exact hrun hag⟩
  | outOfFuel => trivial

theorem local_bind {α β : Type} {p : Compile α} {f : α → Compile β} {s t : State}
    (hp : p.LocalAt s t) (hf : ∀ a s1 t1, (f a).LocalAt s1 t1) :
    (p >>= f).LocalAt s t := by
  refine ⟨?_⟩
  have h1 := hp.run
  cases hps : p s with
  | ok a s1 =>
    rw [hps] at h1
    obtain ⟨j, rfl, hpt⟩ := h1
    have h2 := (hf a (s.skip j) (t.skip j)).run
    rw [bind_ok hps]
    cases hfs : f a (s.skip j) with
    | ok b s2 =>
      rw [hfs] at h2
      obtain ⟨j2, rfl, hft⟩ := h2
      refine ⟨j + j2, State.skip_add j j2 s, fun hag => ?_⟩
      have e1 : j + j2 + 1 = (j + 1) + j2 := by omega
      have e2 : j + j2 + 1 = j + (j2 + 1) := by omega
      have hA := (upcoming_agree_split (j + 1) j2 (e1 ▸ hag)).1
      have hB := (upcoming_agree_split j (j2 + 1) (e2 ▸ hag)).2
      rw [bind_ok (hpt hA), hft hB, State.skip_add]
    | raised e s2 =>
      rw [hfs] at h2
      obtain ⟨j2, rfl, hft⟩ := h2
      refine ⟨j + j2, State.skip_add j j2 s, fun hag => ?_⟩
      have e1 : j + j2 + 1 = (j + 1) + j2 := by omega
      have e2 : j + j2 + 1 = j + (j2 + 1) := by omega
      have hA := (upcoming_agree_split (j + 1) j2 (e1 ▸ hag)).1
      have hB := (upcoming_agree_split j (j2 + 1) (e2 ▸ hag)).2
      rw [bind_ok (hpt hA), hft hB, State.skip_add]
    | outOfFuel => trivial
  | raised e s1 =>
    rw [hps] at h1
    obtain ⟨j, rfl, hpt⟩ := h1
    rw [bind_raised hps]
    exact ⟨j, rfl, fun hag => bind_raised (hpt hag)⟩
  | outOfFuel =>
    rw [bind_outOfFuel hps]
    trivial
theorem local_eatCommaIdentList (fuel : Nat) : ∀ s t, (eatCommaIdentList fuel).LocalAt s t := by
  induction fuel with
  | zero => exact fun _ _ => local_outOfFuel _ _
  | succ fuel ih =>
    intro s t
    rw [eatCommaIdentList]
    repeat' first
      | with_reducible exact local_eat _ _ _
      | with_reducible exact local_error _ _ _ _ _
      | with_reducible exact local_pure _ _ _
      | with_reducible exact ih _ _
      | with_reducible apply local_getState_bind
      | with_reducible apply local_bind
      | (intro hla; beta_reduce; rw [← hla])
      | (intro _; rfl)
      | intro _ _ _
      | split

theorem local_compileUnsignedConstant (s t : State) : compileUnsignedConstant.LocalAt s t := by
  unfold compileUnsignedConstant
  repeat' first
    | with_reducible exact local_eat _ _ _
    | with_reducible exact local_error _ _ _ _ _
    | with_reducible exact local_pure _ _ _
    | with_reducible apply local_getState_bind
    | with_reducible apply local_bind
    | (intro hla; beta_reduce; rw [← hla])
    | (intro _; rfl)
    | intro _ _ _
    | split

theorem local_compileConstant (s t : State) : compileConstant.LocalAt s t := by
  unfold compileConstant
  repeat' first
    | with_reducible exact local_eat _ _ _
    | with_reducible exact local_error _ _ _ _ _
    | with_reducible exact local_pure _ _ _
    | with_reducible exact local_compileUnsignedConstant _ _
    | with_reducible apply local_getState_bind
    | with_reducible apply local_bind
    | (intro hla; beta_reduce; rw [← hla])
    | (intro _; rfl)
    | intro _ _ _
    | split

theorem local_compileConstant2 (s t : State) : compileConstant2.LocalAt s t := by
  unfold compileConstant2
  repeat' first
    | with_reducible exact local_eat _ _ _
    | with_reducible exact local_error _ _ _ _ _
    | with_reducible exact local_pure _ _ _
    | with_reducible apply local_getState_bind
    | with_reducible apply local_bind
    | (intro hla; beta_reduce; rw [← hla])
    | (intro _; rfl)
    | intro _ _ _
    | split

theorem local_compileType (fuel : Nat) : ∀ s t, (compileType fuel).LocalAt s t := by
  induction fuel with
  | zero => exact fun _ _ => local_outOfFuel _ _
  | succ fuel ih =>
    intro s t
    rw [compileType]
    repeat' first
      | with_reducible exact local_eat _ _ _
      | with_reducible exact local_error _ _ _ _ _
      | with_reducible exact local_pure _ _ _
      | with_reducible exact ih _ _
      | with_reducible apply local_getState_bind
      | with_reducible apply local_bind
      | (intro hla; beta_reduce; rw [← hla])
      | (intro _; rfl)
      | intro _ _ _
      | split

theorem local_compileBasicType (s t : State) : compileBasicType.LocalAt s t := by
  unfold compileBasicType
  repeat' first
    | with_reducible exact local_eat _ _ _
    | with_reducible exact local_error _ _ _ _ _
    | with_reducible exact local_pure _ _ _
    | with_reducible apply local_getState_bind
    | with_reducible apply local_bind
    | (intro hla; beta_reduce; rw [← hla])
    | (intro _; rfl)
    | intro _ _ _
    | split

theorem local_expressions (fuel : Nat) :
    (∀ s t, (compileArguments fuel).LocalAt s t) ∧
    (∀ s t, (compileArguments2 fuel).LocalAt s t) ∧
    (∀ s t, (compileExpression fuel).LocalAt s t) ∧
    (∀ s t, (compileExpression2 fuel).LocalAt s t) ∧
    (∀ s t, (compileExpression3 fuel).LocalAt s t) ∧
    (∀ s t, (compileTerm fuel).LocalAt s t) ∧
    (∀ s t, (compileTerm2 fuel).LocalAt s t) ∧
    (∀ s t, (compileFactor fuel).LocalAt s t) ∧
    (∀ s t, (compileIndexes fuel).LocalAt s t) := by
  induction fuel with
  | zero =>
    refine ⟨?_, ?_, ?_, ?_, ?_, ?_, ?_, ?_, ?_⟩ <;> exact fun _ _ => local_outOfFuel _ _
  | succ fuel ih =>
    obtain ⟨ih1, ih2, ih3, ih4, ih5, ih6, ih7, ih8, ih9⟩ := ih
    refine ⟨?_, ?_, ?_, ?_, ?_, ?_, ?_, ?_, ?_⟩ <;> intro s t <;> simp only [compileArguments, compileArguments2, compileExpression, compileExpression2, compileExpression3, compileTerm, compileTerm2, compileFactor, compileIndexes]
    repeat' first
      | with_reducible exact local_eat _ _ _
      | with_reducible exact local_error _ _ _ _ _
      | with_reducible exact local_pure _ _ _
      | with_reducible exact ih1 _ _
      | with_reducible exact ih2 _ _
      | with_reducible exact ih3 _ _
      | with_reducible exact ih4 _ _
      | with_reducible exact ih5 _ _
      | with_reducible exact ih6 _ _
      | with_reducible exact ih7 _ _
      | with_reducible exact ih8 _ _
      | with_reducible exact ih9 _ _
      | with_reducible apply local_getState_bind
      | with_reducible apply local_bind
      | (intro hla; beta_reduce; rw [← hla])
      | (intro _; rfl)
      | intro _ _ _
      | split

theorem local_compileArguments (fuel : Nat) (s t : State) : (compileArguments fuel).LocalAt s t :=
  (local_expressions fuel).1 s t

theorem local_compileArguments2 (fuel : Nat) (s t : State) : (compileArguments2 fuel).LocalAt s t :=
  (local_expressions fuel).2.1 s t

theorem local_compileExpression (fuel : Nat) (s t : State) : (compileExpression fuel).LocalAt s t :=
  (local_expressions fuel).2.2.1 s t

theorem local_compileExpression2 (fuel : Nat) (s t : State) : (compileExpression2 fuel).LocalAt s t :=
  (local_expressions fuel).2.2.2.1 s t

theorem local_compileExpression3 (fuel : Nat) (s t : State) : (compileExpression3 fuel).LocalAt s t :=
  (local_expressions fuel).2.2.2.2.1 s t

theorem local_compileTerm (fuel : Nat) (s t : State) : (compileTerm fuel).LocalAt s t :=
  (local_expressions fuel).2.2.2.2.2.1 s t

theorem local_compileTerm2 (fuel : Nat) (s t : State) : (compileTerm2 fuel).LocalAt s t :=
  (local_expressions fuel).2.2.2.2.2.2.1 s t

theorem local_compileFactor (fuel : Nat) (s t : State) : (compileFactor fuel).LocalAt s t :=
  (local_expressions fuel).2.2.2.2.2.2.2.1 s t

theorem local_compileIndexes (fuel : Nat) (s t : State) : (compileIndexes fuel).LocalAt s t :=
  (local_expressions fuel).2.2.2.2.2.2.2.2 s t

theorem local_compileCondition2 (fuel : Nat) (s t : State) : (compileCondition2 fuel).LocalAt s t := by
  unfold compileCondition2
  repeat' first
    | with_reducible exact local_eat _ _ _
    | with_reducible exact local_error _ _ _ _ _
    | with_reducible exact local_pure _ _ _
    | with_reducible exact local_compileExpression _ _ _
    | with_reducible apply local_getState_bind
    | with_reducible apply local_bind
    | (intro hla; beta_reduce; rw [← hla])
    | (intro _; rfl)
    | intro _ _ _
    | split

theorem local_compileCondition (fuel : Nat) (s t : State) : (compileCondition fuel).LocalAt s t := by
  unfold compileCondition
  repeat' first
    | with_reducible exact local_eat _ _ _
    | with_reducible exact local_error _ _ _ _ _
    | with_reducible exact local_pure _ _ _
    | with_reducible exact local_compileExpression _ _ _
    | with_reducible exact local_compileCondition2 _ _ _
    | with_reducible apply local_getState_bind
    | with_reducible apply local_bind
    | (intro hla; beta_reduce; rw [← hla])
    | (intro _; rfl)
    | intro _ _ _
    | split

theorem local_compileConstDecl (fuel : Nat) (s t : State) : (compileConstDecl fuel).LocalAt s t := by
  unfold compileConstDecl
  repeat' first
    | with_reducible exact local_eat _ _ _
    | with_reducible exact local_error _ _ _ _ _
    | with_reducible exact local_pure _ _ _
    | with_reducible exact local_eatCommaIdentList _ _ _
    | with_reducible exact local_compileConstant _ _
    | with_reducible apply local_getState_bind
    | with_reducible apply local_bind
    | (intro hla; beta_reduce; rw [← hla])
    | (intro _; rfl)
    | intro _ _ _
    | split

theorem local_compileConstDecls (fuel : Nat) : ∀ s t, (compileConstDecls fuel).LocalAt s t := by
  induction fuel with
  | zero => exact fun _ _ => local_outOfFuel _ _
  | succ fuel ih =>
    intro s t
    rw [compileConstDecls]
    repeat' first
      | with_reducible exact local_eat _ _ _
      | with_reducible exact local_error _ _ _ _ _
      | with_reducible exact local_pure _ _ _
      | with_reducible exact ih _ _
      | with_reducible exact local_compileConstDecl _ _ _
      | with_reducible apply local_getState_bind
      | with_reducible apply local_bind
      | (intro hla; beta_reduce; rw [← hla])
      | (intro _; rfl)
      | intro _ _ _
      | split

theorem local_compileTypeDecl (fuel : Nat) (s t : State) : (compileTypeDecl fuel).LocalAt s t := by
  unfold compileTypeDecl
  repeat' first
    | with_reducible exact local_eat _ _ _
    | with_reducible exact local_error _ _ _ _ _
    | with_reducible exact local_pure _ _ _
    | with_reducible exact local_eatCommaIdentList _ _ _
    | with_reducible exact local_compileType _ _ _
    | with_reducible apply local_getState_bind
    | with_reducible apply local_bind
    | (intro hla; beta_reduce; rw [← hla])
    | (intro _; rfl)
    | intro _ _ _
    | split

theorem local_compileTypeDecls (fuel : Nat) : ∀ s t, (compileTypeDecls fuel).LocalAt s t := by
  induction fuel with
  | zero => exact fun _ _ => local_outOfFuel _ _
  | succ fuel ih =>
    intro s t
    rw [compileTypeDecls]
    repeat' first
      | with_reducible exact local_eat _ _ _
      | with_reducible exact local_error _ _ _ _ _
      | with_reducible exact local_pure _ _ _
      | with_reducible exact ih _ _
      | with_reducible exact local_compileTypeDecl _ _ _
      | with_reducible apply local_getState_bind
      | with_reducible apply local_bind
      | (intro hla; beta_reduce; rw [← hla])
      | (intro _; rfl)
      | intro _ _ _
      | split

theorem local_compileVarDecl (fuel : Nat) (s t : State) : (compileVarDecl fuel).LocalAt s t := by
  unfold compileVarDecl
  repeat' first
    | with_reducible exact local_eat _ _ _
    | with_reducible exact local_error _ _ _ _ _
    | with_reducible exact local_pure _ _ _
    | with_reducible exact local_eatCommaIdentList _ _ _
    | with_reducible exact local_compileType _ _ _
    | with_reducible apply local_getState_bind
    | with_reducible apply local_bind
    | (intro hla; beta_reduce; rw [← hla])
    | (intro _; rfl)
    | intro _ _ _
    | split

theorem local_compileVarDecls (fuel : Nat) : ∀ s t, (compileVarDecls fuel).LocalAt s t := by
  induction fuel with
  | zero => exact fun _ _ => local_outOfFuel _ _
  | succ fuel ih =>
    intro s t
    rw [compileVarDecls]
    repeat' first
      | with_reducible exact local_eat _ _ _
      | with_reducible exact local_error _ _ _ _ _
      | with_reducible exact local_pure _ _ _
      | with_reducible exact ih _ _
      | with_reducible exact local_compileVarDecl _ _ _
      | with_reducible apply local_getState_bind
      | with_reducible apply local_bind
      | (intro hla; beta_reduce; rw [← hla])
      | (intro _; rfl)
      | intro _ _ _
      | split

theorem local_compileParam (s t : State) : compileParam.LocalAt s t := by
  unfold compileParam
  repeat' first
    | with_reducible exact local_eat _ _ _
    | with_reducible exact local_error _ _ _ _ _
    | with_reducible exact local_pure _ _ _
    | with_reducible exact local_compileBasicType _ _
    | with_reducible apply local_getState_bind
    | with_reducible apply local_bind
    | (intro hla; beta_reduce; rw [← hla])
    | (intro _; rfl)
    | intro _ _ _
    | split

theorem local_compileParams2 (fuel : Nat) : ∀ s t, (compileParams2 fuel).LocalAt s t := by
  induction fuel with
  | zero => exact fun _ _ => local_outOfFuel _ _
  | succ fuel ih =>
    intro s t
    rw [compileParams2]
    repeat' first
      | with_reducible exact local_eat _ _ _
      | with_reducible exact local_error _ _ _ _ _
      | with_reducible exact local_pure _ _ _
      | with_reducible exact ih _ _
      | with_reducible exact local_compileParam _ _
      | with_reducible apply local_getState_bind
      | with_reducible apply local_bind
      | (intro hla; beta_reduce; rw [← hla])
      | (intro _; rfl)
      | intro _ _ _
      | split

theorem local_compileParams (fuel : Nat) (s t : State) : (compileParams fuel).LocalAt s t := by
  unfold compileParams
  repeat' first
    | with_reducible exact local_eat _ _ _
    | with_reducible exact local_error _ _ _ _ _
    | with_reducible exact local_pure _ _ _
    | with_reducible exact local_compileParam _ _
    | with_reducible exact local_compileParams2 _ _ _
    | with_reducible apply local_getState_bind
    | with_reducible apply local_bind
    | (intro hla; beta_reduce; rw [← hla])
    | (intro _; rfl)
    | intro _ _ _
    | split

theorem local_compileAssignStVariables (fuel : Nat) : ∀ c s t, (compileAssignStVariables fuel c).LocalAt s t := by
  induction fuel with
  | zero => exact fun _ _ _ => local_outOfFuel _ _
  | succ fuel ih =>
    intro c s t
    rw [compileAssignStVariables]
    repeat' first
      | with_reducible exact local_eat _ _ _
      | with_reducible exact local_error _ _ _ _ _
      | with_reducible exact local_pure _ _ _
      | with_reducible exact ih _ _ _
      | with_reducible apply local_getState_bind
      | with_reducible apply local_bind
      | (intro hla; beta_reduce; rw [← hla])
      | (intro _; rfl)
      | intro _ _ _
      | split

theorem local_compileAssignStExpressions (fuel : Nat) : ∀ c s t, (compileAssignStExpressions fuel c).LocalAt s t := by
  induction fuel with
  | zero => exact fun _ _ _ => local_outOfFuel _ _
  | succ fuel ih =>
    intro c s t
    rw [compileAssignStExpressions]
    repeat' first
      | with_reducible exact local_eat _ _ _
      | with_reducible exact local_error _ _ _ _ _
      | with_reducible exact local_pure _ _ _
      | with_reducible exact ih _ _ _
      | with_reducible exact local_compileExpression _ _ _
      | with_reducible apply local_getState_bind
      | with_reducible apply local_bind
      | (intro hla; beta_reduce; rw [← hla])
      | (intro _; rfl)
      | intro _ _ _
      | split

theorem local_compileAssignSt (fuel : Nat) (s t : State) : (compileAssignSt fuel).LocalAt s t := by
  unfold compileAssignSt
  repeat' first
    | with_reducible exact local_eat _ _ _
    | with_reducible exact local_error _ _ _ _ _
    | with_reducible exact local_pure _ _ _
    | with_reducible exact local_compileIndexes _ _ _
    | with_reducible exact local_compileExpression _ _ _
    | with_reducible exact local_compileAssignStVariables _ _ _ _
    | with_reducible exact local_compileAssignStExpressions _ _ _ _
    | with_reducible apply local_getState_bind
    | with_reducible apply local_bind
    | (intro hla; beta_reduce; rw [← hla])
    | (intro _; rfl)
    | intro _ _ _
    | split

theorem local_compileCallSt (fuel : Nat) (s t : State) : (compileCallSt fuel).LocalAt s t := by
  unfold compileCallSt
  repeat' first
    | with_reducible exact local_eat _ _ _
    | with_reducible exact local_error _ _ _ _ _
    | with_reducible exact local_pure _ _ _
    | with_reducible exact local_compileArguments _ _ _
    | with_reducible apply local_getState_bind
    | with_reducible apply local_bind
    | (intro hla; beta_reduce; rw [← hla])
    | (intro _; rfl)
    | intro _ _ _
    | split

theorem local_statements (fuel : Nat) :
    (∀ s t, (compileStatements fuel).LocalAt s t) ∧
    (∀ s t, (compileStatements2 fuel).LocalAt s t) ∧
    (∀ s t, (compileStatement fuel).LocalAt s t) ∧
    (∀ s t, (compileGroupSt fuel).LocalAt s t) ∧
    (∀ s t, (compileIfSt fuel).LocalAt s t) ∧
    (∀ s t, (compileElseSt fuel).LocalAt s t) ∧
    (∀ s t, (compileWhileSt fuel).LocalAt s t) ∧
    (∀ s t, (compileForSt fuel).LocalAt s t) ∧
    (∀ s t, (compileRepeatSt fuel).LocalAt s t) := by
  induction fuel with
  | zero =>
    refine ⟨?_, ?_, ?_, ?_, ?_, ?_, ?_, ?_, ?_⟩ <;> exact fun _ _ => local_outOfFuel _ _
  | succ fuel ih =>
    obtain ⟨ih1, ih2, ih3, ih4, ih5, ih6, ih7, ih8, ih9⟩ := ih
    refine ⟨?_, ?_, ?_, ?_, ?_, ?_, ?_, ?_, ?_⟩ <;> intro s t <;> simp only [compileStatements, compileStatements2, compileStatement, compileGroupSt, compileIfSt, compileElseSt, compileWhileSt, compileForSt, compileRepeatSt]
    repeat' first
      | with_reducible exact local_eat _ _ _
      | with_reducible exact local_error _ _ _ _ _
      | with_reducible exact local_pure _ _ _
      | with_reducible exact ih1 _ _
      | with_reducible exact ih2 _ _
      | with_reducible exact ih3 _ _
      | with_reducible exact ih4 _ _
      | with_reducible exact ih5 _ _
      | with_reducible exact ih6 _ _
      | with_reducible exact ih7 _ _
      | with_reducible exact ih8 _ _
      | with_reducible exact ih9 _ _
      | with_reducible exact local_compileAssignSt _ _ _
      | with_reducible exact local_compileCallSt _ _ _
      | with_reducible exact local_compileCondition _ _ _
      | with_reducible exact local_compileExpression _ _ _
      | with_reducible apply local_getState_bind
      | with_reducible apply local_bind
      | (intro hla; beta_reduce; rw [← hla])
      | (intro _; rfl)
      | intro _ _ _
      | split

theorem local_compileStatements (fuel : Nat) (s t : State) : (compileStatements fuel).LocalAt s t :=
  (local_statements fuel).1 s t

theorem local_compileStatements2 (fuel : Nat) (s t : State) : (compileStatements2 fuel).LocalAt s t :=
  (local_statements fuel).2.1 s t

theorem local_compileStatement (fuel : Nat) (s t : State) : (compileStatement fuel).LocalAt s t :=
  (local_statements fuel).2.2.1 s t

theorem local_compileGroupSt (fuel : Nat) (s t : State) : (compileGroupSt fuel).LocalAt s t :=
  (local_statements fuel).2.2.2.1 s t

theorem local_compileIfSt (fuel : Nat) (s t : State) : (compileIfSt fuel).LocalAt s t :=
  (local_statements fuel).2.2.2.2.1 s t

theorem local_compileElseSt (fuel : Nat) (s t : State) : (compileElseSt fuel).LocalAt s t :=
  (local_statements fuel).2.2.2.2.2.1 s t

theorem local_compileWhileSt (fuel : Nat) (s t : State) : (compileWhileSt fuel).LocalAt s t :=
  (local_statements fuel).2.2.2.2.2.2.1 s t

theorem local_compileForSt (fuel : Nat) (s t : State) : (compileForSt fuel).LocalAt s t :=
  (local_statements fuel).2.2.2.2.2.2.2.1 s t

theorem local_compileRepeatSt (fuel : Nat) (s t : State) : (compileRepeatSt fuel).LocalAt s t :=
  (local_statements fuel).2.2.2.2.2.2.2.2 s t

theorem local_compileBlock5 (fuel : Nat) (s t : State) : (compileBlock5 fuel).LocalAt s t := by
  unfold compileBlock5
  repeat' first
    | with_reducible exact local_eat _ _ _
    | with_reducible exact local_error _ _ _ _ _
    | with_reducible exact local_pure _ _ _
    | with_reducible exact local_compileStatements _ _ _
    | with_reducible apply local_getState_bind
    | with_reducible apply local_bind
    | (intro hla; beta_reduce; rw [← hla])
    | (intro _; rfl)
    | intro _ _ _
    | split

theorem local_blocks (fuel : Nat) :
    (∀ s t, (compileBlock fuel).LocalAt s t) ∧
    (∀ s t, (compileBlock2 fuel).LocalAt s t) ∧
    (∀ s t, (compileBlock3 fuel).LocalAt s t) ∧
    (∀ s t, (compileBlock4 fuel).LocalAt s t) ∧
    (∀ s t, (compileSubDecls fuel).LocalAt s t) ∧
    (∀ s t, (compileFuncDecl fuel).LocalAt s t) ∧
    (∀ s t, (compileProcDecl fuel).LocalAt s t) := by
  induction fuel with
  | zero =>
    refine ⟨?_, ?_, ?_, ?_, ?_, ?_, ?_⟩ <;> exact fun _ _ => local_outOfFuel _ _
  | succ fuel ih =>
    obtain ⟨ih1, ih2, ih3, ih4, ih5, ih6, ih7⟩ := ih
    refine ⟨?_, ?_, ?_, ?_, ?_, ?_, ?_⟩ <;> intro s t <;> simp only [compileBlock, compileBlock2, compileBlock3, compileBlock4, compileSubDecls, compileFuncDecl, compileProcDecl]
    repeat' first
      | with_reducible exact local_eat _ _ _
      | with_reducible exact local_error _ _ _ _ _
      | with_reducible exact local_pure _ _ _
      | with_reducible exact ih1 _ _
      | with_reducible exact ih2 _ _
      | with_reducible exact ih3 _ _
      | with_reducible exact ih4 _ _
      | with_reducible exact ih5 _ _
      | with_reducible exact ih6 _ _
      | with_reducible exact ih7 _ _
      | with_reducible exact local_compileConstDecl _ _ _
      | with_reducible exact local_compileConstDecls _ _ _
      | with_reducible exact local_compileTypeDecl _ _ _
      | with_reducible exact local_compileTypeDecls _ _ _
      | with_reducible exact local_compileVarDecl _ _ _
      | with_reducible exact local_compileVarDecls _ _ _
      | with_reducible exact local_compileBlock5 _ _ _
      | with_reducible exact local_compileParams _ _ _
      | with_reducible exact local_compileBasicType _ _
      | with_reducible apply local_getState_bind
      | with_reducible apply local_bind
      | (intro hla; beta_reduce; rw [← hla])
      | (intro _; rfl)
      | intro _ _ _
      | split

theorem local_compileBlock (fuel : Nat) (s t : State) : (compileBlock fuel).LocalAt s t :=
  (local_blocks fuel).1 s t

theorem local_compileBlock2 (fuel : Nat) (s t : State) : (compileBlock2 fuel).LocalAt s t :=
  (local_blocks fuel).2.1 s t

theorem local_compileBlock3 (fuel : Nat) (s t : State) : (compileBlock3 fuel).LocalAt s t :=
  (local_blocks fuel).2.2.1 s t

theorem local_compileBlock4 (fuel : Nat) (s t : State) : (compileBlock4 fuel).LocalAt s t :=
  (local_blocks fuel).2.2.2.1 s t

theorem local_compileSubDecls (fuel : Nat) (s t : State) : (compileSubDecls fuel).LocalAt s t :=
  (local_blocks fuel).2.2.2.2.1 s t

theorem local_compileFuncDecl (fuel : Nat) (s t : State) : (compileFuncDecl fuel).LocalAt s t :=
  (local_blocks fuel).2.2.2.2.2.1 s t

theorem local_compileProcDecl (fuel : Nat) (s t : State) : (compileProcDecl fuel).LocalAt s t :=
  (local_blocks fuel).2.2.2.2.2.2 s t


/-- The run of `compileProgram` that returns without an error, taken apart:
the three tokens of the heading, the block, and the period, which is the last
token consumed. -/
theorem compileProgram_ok_parts {fuel : Nat} {s s1 : State}
    (h : compileProgram fuel s = .ok () s1) :
    ∃ j, s.lookAhead.tokenType = KW_PROGRAM ∧ s.advance.lookAhead.tokenType = TK_IDENT ∧
      s.advance.advance.lookAhead.tokenType = SB_SEMICOLON ∧
      compileBlock fuel (s.skip 3) = .ok () ((s.skip 3).skip j) ∧
      ((s.skip 3).skip j).lookAhead.tokenType = SB_PERIOD ∧
      s1 = ((s.skip 3).skip j).advance := by
  unfold compileProgram at h
  by_cases h1 : s.lookAhead.tokenType = KW_PROGRAM
  swap
  · rw [bind_raised (eat_raised h1)] at h
    simp at h
  rw [bind_ok (eat_ok h1)] at h
  by_cases h2 : s.advance.lookAhead.tokenType = TK_IDENT
  swap
  · rw [bind_raised (eat_raised h2)] at h
    simp at h
  rw [bind_ok (eat_ok h2)] at h
  by_cases h3 : s.advance.advance.lookAhead.tokenType = SB_SEMICOLON
  swap
  · rw [bind_raised (eat_raised h3)] at h
    simp at h
  rw [bind_ok (eat_ok h3)] at h
  have ht := tracks_compileBlock fuel (s.skip 3)
  unfold Compile.TracksAt at ht
  have e3 : s.advance.advance.advance = s.skip 3 := rfl
  rw [e3] at h
  cases hb : compileBlock fuel (s.skip 3) with
  | ok a sb =>
    rw [hb] at ht
    obtain ⟨j, rfl⟩ := ht
    rw [bind_ok hb] at h
    by_cases h4 : ((s.skip 3).skip j).lookAhead.tokenType = SB_PERIOD
    · rw [eat_ok h4] at h
      exact ⟨j, h1, h2, h3, rfl, h4, (Result.ok.inj h).2.symm⟩
    · rw [eat_raised h4] at h
      simp at h
  | raised e sb =>
    rw [bind_raised hb] at h
    simp at h
  | outOfFuel =>
    rw [bind_outOfFuel hb] at h
    simp at h

/-- A run of `compileProgram` that returns without an error after `k` tokens
is repeated from any state with the same `k` next tokens. -/
theorem compileProgram_prefix_eval (fuel : Nat) (s t s1 : State)
    (hrun : compileProgram fuel s = .ok () s1)
    (hsame : s.upcoming (s1.printed.length - s.printed.length) =
      t.upcoming (s1.printed.length - s.printed.length)) :
    ∃ j, s1 = s.skip (j + 4) ∧ compileProgram fuel t = .ok () (t.skip (j + 4)) ∧
      (∃ tp, s1.currentToken = some tp ∧ tp.tokenType = SB_PERIOD) := by
  obtain ⟨j, h1, h2, h3, hb, h4, rfl⟩ := compileProgram_ok_parts hrun
  have hs1 : ((s.skip 3).skip j).advance = s.skip (j + 4) := by
    rw [State.skip_advance, State.skip_add]
    congr 1
    omega
  rw [hs1, State.skip_printed, List.length_append, State.upcoming_length,
    Nat.add_sub_cancel_left] at hsame
  refine ⟨j, hs1, ?_, ⟨_, rfl, h4⟩⟩
  have e : j + 4 = 3 + (j + 1) := by omega
  rw [e] at hsame
  obtain ⟨hA, hB⟩ := upcoming_agree_split 3 (j + 1) hsame
  rw [State.upcoming_succ, State.upcoming_succ, State.upcoming_succ,
    State.upcoming_succ, State.upcoming_succ, State.upcoming_succ] at hA
  simp only [State.upcoming_zero, List.cons.injEq, and_true] at hA
  obtain ⟨g1, g2, g3⟩ := hA
  have hloc := (local_compileBlock fuel (s.skip 3) (t.skip 3)).run
  rw [hb] at hloc
  obtain ⟨j2, hj2, hblock⟩ := hloc
  have hjj : j2 = j := by
    have hp := congrArg (fun x => x.printed.length) hj2
    simp only [State.skip_printed, List.length_append, State.upcoming_length] at hp
    omega
  subst hjj
  have hlast : ((t.skip 3).skip j2).lookAhead = ((s.skip 3).skip j2).lookAhead := by
    rw [State.skip_lookAhead_upcoming, State.skip_lookAhead_upcoming] at hB
    have := (List.append_inj hB
      (by rw [State.upcoming_length, State.upcoming_length])).2
    exact (List.cons.inj this).1.symm
  unfold compileProgram
  rw [bind_ok (eat_ok (by rw [← g1]; exact h1)), bind_ok (eat_ok (by rw [← g2]; exact h2)),
    bind_ok (eat_ok (by rw [← g3]; exact h3))]
  have e3 : t.advance.advance.advance = t.skip 3 := rfl
  rw [e3, bind_ok (hblock hB), eat_ok (by rw [hlast]; exact h4), State.skip_advance,
    State.skip_add]
  congr 2
  omega

/-! ### The parser accepts the sentences of the expression grammar -/

theorem State.reads_nil (s : State) : s.Reads [] := by
  simp [State.Reads, State.upcoming_zero]

theorem State.reads_cons (s : State) (k : TokenType) (ks : List TokenType) :
    s.Reads (k :: ks) ↔ s.lookAhead.tokenType = k ∧ s.advance.Reads ks := by
  simp [State.Reads, State.upcoming_succ]

theorem State.reads_append (s : State) (a b : List TokenType) :
    s.Reads (a ++ b) ↔ s.Reads a ∧ (s.skip a.length).Reads b := by
  induction a generalizing s with
  | nil => simp [State.reads_nil, State.skip]
  | cons k a ih => simp [State.reads_cons, ih, State.skip, and_assoc]

theorem State.Reads.head {s : State} {k : TokenType} {ks : List TokenType}
    (h : s.Reads (k :: ks)) : s.lookAhead.tokenType = k :=
  ((State.reads_cons s k ks).1 h).1

theorem State.Reads.tail {s : State} {k : TokenType} {ks : List TokenType}
    (h : s.Reads (k :: ks)) : s.advance.Reads ks :=
  ((State.reads_cons s k ks).1 h).2

theorem State.Reads.right {s : State} {a b : List TokenType}
    (h : s.Reads (a ++ b)) : (s.skip a.length).Reads b :=
  ((State.reads_append s a b).1 h).2

/-- The sentence `a` and the token after it, out of a longer input. -/
theorem State.Reads.follow {s : State} {a b : List TokenType} {k : TokenType}
    (h : s.Reads (a ++ k :: b)) : s.Reads (a ++ [k]) := by
  rw [State.reads_append] at h ⊢
  refine ⟨h.1, ?_⟩
  rw [State.reads_cons]
  exact ⟨h.2.head, State.reads_nil _⟩

theorem getLast?_append_cons {α : Type} (a : List α) (k : α) (b : List α) :
    (a ++ k :: b).getLast? = (k :: b).getLast? := by
  simp [List.getLast?_append, List.getLast?_cons]

theorem State.advance_eq_skip (s : State) : s.advance = s.skip 1 := rfl

theorem Derives.factor_first {f : List TokenType} (h : Derives .factor f) :
    ∃ k tl, f = k :: tl ∧ (k = TK_NUMBER ∨ k = TK_CHAR ∨ k = TK_IDENT ∨ k = SB_LPAR) := by
  cases h with
  | number => exact ⟨_, _, rfl, Or.inl rfl⟩
  | char => exact ⟨_, _, rfl, Or.inr (Or.inl rfl)⟩
  | indexed _ => exact ⟨_, _, rfl, Or.inr (Or.inr (Or.inl rfl))⟩
  | call _ => exact ⟨_, _, rfl, Or.inr (Or.inr (Or.inl rfl))⟩
  | paren _ => exact ⟨_, _, rfl, Or.inr (Or.inr (Or.inr rfl))⟩

theorem Derives.term_first {t : List TokenType} (h : Derives .term t) :
    ∃ k tl, t = k :: tl ∧ isAddOperator k = false := by
  cases h with
  | term hf _ =>
    obtain ⟨k, tl, rfl, hk⟩ := hf.factor_first
    refine ⟨k, _, rfl, ?_⟩
    rcases hk with hk | hk | hk | hk <;> subst hk <;> rfl

theorem Derives.indexes_shape {ks : List TokenType} (h : Derives .indexes ks) :
    ks = [] ∨ ∃ tl, ks = SB_LSEL :: tl ∧ ks.getLast? = some SB_RSEL := by
  suffices hgen : ∀ X ks, Derives X ks → X = .indexes →
      ks = [] ∨ ∃ tl, ks = SB_LSEL :: tl ∧ ks.getLast? = some SB_RSEL from
    hgen _ _ h rfl
  intro X ks h
  induction h with
  | indexesNil => exact fun _ => Or.inl rfl
  | @indexesCons e r _ _ _ ihr =>
    intro _
    refine Or.inr ⟨_, rfl, ?_⟩
    rcases ihr rfl with hr | ⟨tl, hr, hlast⟩
    · subst hr
      rw [getLast?_append_cons]
      rfl
    · rw [getLast?_append_cons, hr, List.getLast?_cons_cons, ← hr, hlast]
  | _ => intro hX; cases hX

theorem Derives.arguments_first {ks : List TokenType} (h : Derives .arguments ks) :
    ∃ tl, ks = SB_LPAR :: tl := by
  cases h with
  | arguments _ _ => exact ⟨_, rfl⟩

theorem Derives.argumentsRest_first {r : List TokenType} (h : Derives .argumentsRest r) :
    r = [] ∨ ∃ tl, r = SB_COMMA :: tl := by
  cases h with
  | argumentsRestNil => exact Or.inl rfl
  | argumentsRestCons _ _ => exact Or.inr ⟨_, rfl⟩

theorem Derives.termRest_first {r : List TokenType} (h : Derives .termRest r) :
    r = [] ∨ ∃ o tl, r = o :: tl ∧ isMultOperator o = true := by
  cases h with
  | termRestNil => exact Or.inl rfl
  | termRestCons ho _ _ => exact Or.inr ⟨_, _, rfl, ho⟩

theorem Derives.expressionRest_first {r : List TokenType} (h : Derives .expressionRest r) :
    r = [] ∨ ∃ o tl, r = o :: tl ∧ isAddOperator o = true := by
  cases h with
  | expressionRestNil => exact Or.inl rfl
  | expressionRestCons ho _ _ => exact Or.inr ⟨_, _, rfl, ho⟩


theorem ok_skip_congr {s : State} {a b : Nat} (h : a = b) :
    (Result.ok () (s.skip a) : Result Unit) = .ok () (s.skip b) := by
  rw [h]

theorem isMultOperator_cases {o : TokenType} (h : isMultOperator o = true) :
    o = SB_TIMES ∨ o = SB_SLASH := by
  simpa [isMultOperator] using h

theorem isAddOperator_cases {o : TokenType} (h : isAddOperator o = true) :
    o = SB_PLUS ∨ o = SB_MINUS := by
  simpa [isAddOperator] using h

theorem continuesAfter_none (c : TokenType) : continuesAfter none c = false := rfl

/-- The parser accepts every sentence of the expression grammar: on the
token kinds `ks` of a sentence of the nonterminal `X`, followed by a token
before which the sentence ends, the function of `parser.c` for `X`, given
enough fuel, returns without an error after the `ks.length` tokens of the
sentence. -/
theorem Derives.parses {X : Nonterminal} {ks : List TokenType} (h : Derives X ks) :
    ∀ (s : State) (c : TokenType), s.Reads (ks ++ [c]) → X.stops ks c = true →
      ∃ fuel0, ∀ fuel, fuel0 ≤ fuel → X.production fuel s = .ok () (s.skip ks.length) := by
  induction h with
  | number =>
    intro s c hs _
    refine ⟨1, fun fuel hfuel => ?_⟩
    obtain ⟨n, rfl⟩ : ∃ n, fuel = n + 1 := ⟨fuel - 1, by omega⟩
    rw [List.cons_append] at hs
    exact compileFactor_literal n s (by rw [hs.head]; rfl)
  | char =>
    intro s c hs _
    refine ⟨1, fun fuel hfuel => ?_⟩
    obtain ⟨n, rfl⟩ : ∃ n, fuel = n + 1 := ⟨fuel - 1, by omega⟩
    rw [List.cons_append] at hs
    exact compileFactor_literal n s (by rw [hs.head]; rfl)
  | @indexed ks hi ih =>
    intro s c hs hstop
    rw [List.cons_append] at hs
    have hid := hs.head
    have htl := hs.tail
    rcases hi.indexes_shape with hnil | ⟨tl, hcons, hlast⟩
    · subst hnil
      have hc := htl.head
      simp [Nonterminal.stops, continuesAfter] at hstop
      refine ⟨1, fun fuel hfuel => ?_⟩
      obtain ⟨n, rfl⟩ : ∃ n, fuel = n + 1 := ⟨fuel - 1, by omega⟩
      show compileFactor (n + 1) s = _
      rw [compileFactor, getState_bind, hid]
      simp only []
      rw [bind_ok (eat_ok hid), getState_bind, if_neg (by rw [hc]; exact hstop.1),
        if_neg (by rw [hc]; exact hstop.2)]
      rfl
    · have hsel : s.advance.lookAhead.tokenType = SB_LSEL := by
        rw [hcons, List.cons_append] at htl
        exact htl.head
      have hstop1 : Nonterminal.indexes.stops ks c = true := by
        rw [hcons] at hlast
        rw [hcons] at hstop
        simp [Nonterminal.stops, continuesAfter, List.getLast?_cons_cons, hlast] at hstop ⊢
        exact hstop
      obtain ⟨f1, hf1⟩ := ih s.advance c htl hstop1
      simp only [Nonterminal.production] at hf1
      refine ⟨f1 + 1, fun fuel hfuel => ?_⟩
      obtain ⟨n, rfl⟩ : ∃ n, fuel = n + 1 := ⟨fuel - 1, by omega⟩
      show compileFactor (n + 1) s = _
      rw [compileFactor, getState_bind, hid]
      simp only []
      rw [bind_ok (eat_ok hid), getState_bind, if_pos hsel]
      exact hf1 n (by omega)
  | @call ks ha ih =>
    intro s c hs hstop
    rw [List.cons_append] at hs
    have hid := hs.head
    have htl := hs.tail
    obtain ⟨tl, hcons⟩ := ha.arguments_first
    have hpar : s.advance.lookAhead.tokenType = SB_LPAR := by
      rw [hcons, List.cons_append] at htl
      exact htl.head
    obtain ⟨f1, hf1⟩ := ih s.advance c htl rfl
    simp only [Nonterminal.production] at hf1
    refine ⟨f1 + 1, fun fuel hfuel => ?_⟩
    obtain ⟨n, rfl⟩ : ∃ n, fuel = n + 1 := ⟨fuel - 1, by omega⟩
    show compileFactor (n + 1) s = _
    rw [compileFactor, getState_bind, hid]
    simp only []
    rw [bind_ok (eat_ok hid), getState_bind, if_neg (by rw [hpar]; decide), if_pos hpar]
    exact hf1 n (by omega)
  | @paren ks he ih =>
    intro s c hs hstop
    simp only [List.cons_append, List.append_assoc, List.nil_append] at hs
    have hpar := hs.head
    have htl := hs.tail
    obtain ⟨f1, hf1⟩ := ih s.advance SB_RPAR htl.follow
      (by simp [Nonterminal.stops, continuesAfter, isAddOperator, isMultOperator])
    have hclose := htl.right.head
    simp only [Nonterminal.production] at hf1
    refine ⟨f1 + 1, fun fuel hfuel => ?_⟩
    obtain ⟨n, rfl⟩ : ∃ n, fuel = n + 1 := ⟨fuel - 1, by omega⟩
    show compileFactor (n + 1) s = _
    rw [compileFactor, getState_bind, hpar]
    simp only []
    rw [bind_ok (eat_ok hpar), bind_ok (hf1 n (by omega)), eat_ok hclose]
    simp only [State.advance_eq_skip, State.skip_add, List.length_append, List.length_cons,
      List.length_nil]
    exact ok_skip_congr (by omega)
  | indexesNil =>
    intro s c hs hstop
    have hc := hs.head
    simp [Nonterminal.stops] at hstop
    refine ⟨1, fun fuel hfuel => ?_⟩
    obtain ⟨n, rfl⟩ : ∃ n, fuel = n + 1 := ⟨fuel - 1, by omega⟩
    show compileIndexes (n + 1) s = _
    rw [compileIndexes, getState_bind, if_neg (by rw [hc]; exact hstop)]
    rfl
  | @indexesCons e r he hr ihe ihr =>
    intro s c hs hstop
    simp only [List.cons_append, List.append_assoc, List.nil_append] at hs
    have hsel := hs.head
    have htl := hs.tail
    obtain ⟨f1, hf1⟩ := ihe s.advance SB_RSEL htl.follow
      (by simp [Nonterminal.stops, continuesAfter, isAddOperator, isMultOperator])
    have hclose := htl.right.head
    obtain ⟨f2, hf2⟩ := ihr _ c htl.right.tail hstop
    simp only [Nonterminal.production] at hf1 hf2
    refine ⟨f1 + f2 + 1, fun fuel hfuel => ?_⟩
    obtain ⟨n, rfl⟩ : ∃ n, fuel = n + 1 := ⟨fuel - 1, by omega⟩
    show compileIndexes (n + 1) s = _
    rw [compileIndexes, getState_bind, if_pos hsel, bind_ok (eat_ok hsel),
      bind_ok (hf1 n (by omega)), bind_ok (eat_ok hclose), hf2 n (by omega)]
    simp only [State.advance_eq_skip, State.skip_add, List.length_append, List.length_cons,
      List.length_nil]
    exact ok_skip_congr (by omega)
  | @arguments e r he hr ihe ihr =>
    intro s c hs hstop
    simp only [List.cons_append, List.append_assoc, List.nil_append] at hs
    have hpar := hs.head
    have htl := hs.tail
    have hexp : ∃ k b, r ++ SB_RPAR :: [c] = k :: b ∧ (k = SB_RPAR ∨ k = SB_COMMA) := by
      rcases hr.argumentsRest_first with hnil | ⟨tl, hcons⟩
      · exact ⟨_, _, by rw [hnil]; rfl, Or.inl rfl⟩
      · exact ⟨_, _, by rw [hcons]; rfl, Or.inr rfl⟩
    obtain ⟨k, b, hkb, hk⟩ := hexp
    have htl1 := htl
    rw [hkb] at htl1
    obtain ⟨f1, hf1⟩ := ihe s.advance k htl1.follow
      (by rcases hk with hk | hk <;> subst hk <;>
        simp [Nonterminal.stops, continuesAfter, isAddOperator, isMultOperator])
    obtain ⟨f2, hf2⟩ := ihr _ SB_RPAR htl.right.follow rfl
    have hclose := htl.right.right.head
    simp only [Nonterminal.production] at hf1 hf2
    refine ⟨f1 + f2 + 1, fun fuel hfuel => ?_⟩
    obtain ⟨n, rfl⟩ : ∃ n, fuel = n + 1 := ⟨fuel - 1, by omega⟩
    show compileArguments (n + 1) s = _
    rw [compileArguments, getState_bind, if_pos hpar, bind_ok (eat_ok hpar),
      bind_ok (hf1 n (by omega)), bind_ok (hf2 n (by omega)), eat_ok hclose]
    simp only [State.advance_eq_skip, State.skip_add, List.length_append, List.length_cons,
      List.length_nil]
    exact ok_skip_congr (by omega)
  | argumentsRestNil =>
    intro s c hs hstop
    have hc := hs.head
    simp [Nonterminal.stops] at hstop
    subst hstop
    refine ⟨1, fun fuel hfuel => ?_⟩
    obtain ⟨n, rfl⟩ : ∃ n, fuel = n + 1 := ⟨fuel - 1, by omega⟩
    show compileArguments2 (n + 1) s = _
    rw [compileArguments2, getState_bind, hc]
    rfl
  | @argumentsRestCons e r he hr ihe ihr =>
    intro s c hs hstop
    simp only [List.cons_append, List.append_assoc, List.nil_append] at hs
    have hcomma := hs.head
    have htl := hs.tail
    have hc : c = SB_RPAR := by simpa [Nonterminal.stops] using hstop
    have hexp : ∃ k b, r ++ [c] = k :: b ∧ (k = SB_RPAR ∨ k = SB_COMMA) := by
      rcases hr.argumentsRest_first with hnil | ⟨tl, hcons⟩
      · exact ⟨_, _, by rw [hnil, hc]; rfl, Or.inl rfl⟩
      · exact ⟨_, _, by rw [hcons]; rfl, Or.inr rfl⟩
    obtain ⟨k, b, hkb, hk⟩ := hexp
    have htl1 := htl
    rw [hkb] at htl1
    obtain ⟨f1, hf1⟩ := ihe s.advance k htl1.follow
      (by rcases hk with hk | hk <;> subst hk <;>
        simp [Nonterminal.stops, continuesAfter, isAddOperator, isMultOperator])
    obtain ⟨f2, hf2⟩ := ihr _ c htl.right hstop
    simp only [Nonterminal.production] at hf1 hf2
    refine ⟨f1 + f2 + 1, fun fuel hfuel => ?_⟩
    obtain ⟨n, rfl⟩ : ∃ n, fuel = n + 1 := ⟨fuel - 1, by omega⟩
    show compileArguments2 (n + 1) s = _
    rw [compileArguments2, getState_bind, hcomma]
    simp only []
    rw [bind_ok (eat_ok hcomma), bind_ok (hf1 n (by omega)), hf2 n (by omega)]
    simp only [State.advance_eq_skip, State.skip_add, List.length_append, List.length_cons,
      List.length_nil]
    exact ok_skip_congr (by omega)
  | @term f r hf hr ihf ihr =>
    intro s c hs hstop
    simp only [List.append_assoc] at hs
    obtain ⟨k0, tl0, hf0, -⟩ := hf.factor_first
    have hexp : ∃ k b, r ++ [c] = k :: b ∧ Nonterminal.factor.stops f k = true ∧
        Nonterminal.termRest.stops r c = true := by
      rcases hr.termRest_first with hnil | ⟨o, tl, hcons, ho⟩
      · subst hnil
        refine ⟨c, [], rfl, ?_⟩
        simp [Nonterminal.stops, continuesAfter_none] at hstop ⊢
        tauto
      · refine ⟨o, tl ++ [c], by rw [hcons]; rfl, ?_, ?_⟩
        · rcases isMultOperator_cases ho with ho | ho <;> subst ho <;>
            simp [Nonterminal.stops, continuesAfter]
        · rw [hcons] at hstop ⊢
          simp only [Nonterminal.stops, getLast?_append_cons] at hstop ⊢
          simp at hstop ⊢
          tauto
    obtain ⟨k, b, hkb, hk, hrest⟩ := hexp
    have hs1 := hs
    rw [hkb] at hs1
    obtain ⟨f1, hf1⟩ := ihf s k hs1.follow hk
    obtain ⟨f2, hf2⟩ := ihr _ c hs.right hrest
    simp only [Nonterminal.production] at hf1 hf2
    refine ⟨f1 + f2 + 1, fun fuel hfuel => ?_⟩
    obtain ⟨n, rfl⟩ : ∃ n, fuel = n + 1 := ⟨fuel - 1, by omega⟩
    show compileTerm (n + 1) s = _
    rw [compileTerm, bind_ok (hf1 n (by omega)), hf2 n (by omega)]
    simp only [State.advance_eq_skip, State.skip_add, List.length_append, List.length_cons,
      List.length_nil]
  | termRestNil =>
    intro s c hs hstop
    have hc := hs.head
    simp [Nonterminal.stops, continuesAfter] at hstop
    refine ⟨1, fun fuel hfuel => ?_⟩
    obtain ⟨n, rfl⟩ : ∃ n, fuel = n + 1 := ⟨fuel - 1, by omega⟩
    show compileTerm2 (n + 1) s = _
    rw [compileTerm2, getState_bind, if_neg (by rw [hc, hstop]; decide)]
    rfl
  | @termRestCons o f r ho hf hr ihf ihr =>
    intro s c hs hstop
    simp only [List.cons_append, List.append_assoc] at hs
    have hop := hs.head
    have htl := hs.tail
    obtain ⟨k0, tl0, hf0, -⟩ := hf.factor_first
    have hexp : ∃ k b, r ++ [c] = k :: b ∧ Nonterminal.factor.stops f k = true ∧
        Nonterminal.termRest.stops r c = true := by
      rcases hr.termRest_first with hnil | ⟨o2, tl, hcons, ho2⟩
      · subst hnil
        refine ⟨c, [], rfl, ?_⟩
        rw [hf0] at hstop ⊢
        simp [Nonterminal.stops, continuesAfter_none, List.getLast?_cons_cons] at hstop ⊢
        tauto
      · refine ⟨o2, tl ++ [c], by rw [hcons]; rfl, ?_, ?_⟩
        · rcases isMultOperator_cases ho2 with ho2 | ho2 <;> subst ho2 <;>
            simp [Nonterminal.stops, continuesAfter]
        · rw [hcons] at hstop ⊢
          simp only [Nonterminal.stops, getLast?_append_cons] at hstop ⊢
          simp at hstop ⊢
          tauto
    obtain ⟨k, b, hkb, hk, hrest⟩ := hexp
    have htl1 := htl
    rw [hkb] at htl1
    obtain ⟨f1, hf1⟩ := ihf _ k htl1.follow hk
    obtain ⟨f2, hf2⟩ := ihr _ c htl.right hrest
    simp only [Nonterminal.production] at hf1 hf2
    refine ⟨f1 + f2 + 1, fun fuel hfuel => ?_⟩
    obtain ⟨n, rfl⟩ : ∃ n, fuel = n + 1 := ⟨fuel - 1, by omega⟩
    show compileTerm2 (n + 1) s = _
    rw [compileTerm2, getState_bind, if_pos (by rw [hop]; exact ho), bind_ok (eat_self s),
      bind_ok (hf1 n (by omega)), hf2 n (by omega)]
    simp only [State.advance_eq_skip, State.skip_add, List.length_append, List.length_cons,
      List.length_nil]
    exact ok_skip_congr (by omega)
  | @expression t r ht hr iht ihr =>
    intro s c hs hstop
    simp only [List.append_assoc] at hs
    obtain ⟨k0, tl0, ht0, hk0⟩ := ht.term_first
    have hfirst : s.lookAhead.tokenType = k0 := by
      have h0 := hs
      rw [ht0, List.cons_append] at h0
      exact h0.head
    have hexp : ∃ k b, r ++ [c] = k :: b ∧ Nonterminal.term.stops t k = true ∧
        Nonterminal.expressionRest.stops r c = true := by
      rcases hr.expressionRest_first with hnil | ⟨o, tl, hcons, ho⟩
      · subst hnil
        refine ⟨c, [], rfl, ?_⟩
        simp [Nonterminal.stops, continuesAfter_none] at hstop ⊢
        tauto
      · refine ⟨o, tl ++ [c], by rw [hcons]; rfl, ?_, ?_⟩
        · rcases isAddOperator_cases ho with ho | ho <;> subst ho <;>
            simp [Nonterminal.stops, continuesAfter, isMultOperator]
        · rw [hcons] at hstop ⊢
          simp only [Nonterminal.stops, getLast?_append_cons] at hstop ⊢
          simp at hstop ⊢
          tauto
    obtain ⟨k, b, hkb, hk, hrest⟩ := hexp
    have hs1 := hs
    rw [hkb] at hs1
    obtain ⟨f1, hf1⟩ := iht s k hs1.follow hk
    obtain ⟨f2, hf2⟩ := ihr _ c hs.right hrest
    simp only [Nonterminal.production] at hf1 hf2
    refine ⟨f1 + f2 + 2, fun fuel hfuel => ?_⟩
    obtain ⟨n, rfl⟩ : ∃ n, fuel = n + 1 + 1 := ⟨fuel - 2, by omega⟩
    show compileExpression (n + 1 + 1) s = _
    rw [compileExpression, getState_bind, if_neg (by rw [hfirst, hk0]; decide),
      bind_ok (pure_eq _ _)]
    beta_reduce
    rw [compileExpression2, bind_ok (hf1 n (by omega)), hf2 n (by omega)]
    simp only [State.advance_eq_skip, State.skip_add, List.length_append, List.length_cons,
      List.length_nil]
  | @signed o t r ho ht hr iht ihr =>
    intro s c hs hstop
    simp only [List.cons_append, List.append_assoc] at hs
    have hop := hs.head
    have htl := hs.tail
    obtain ⟨k0, tl0, ht0, hk0⟩ := ht.term_first
    have hexp : ∃ k b, r ++ [c] = k :: b ∧ Nonterminal.term.stops t k = true ∧
        Nonterminal.expressionRest.stops r c = true := by
      rcases hr.expressionRest_first with hnil | ⟨o2, tl, hcons, ho2⟩
      · subst hnil
        refine ⟨c, [], rfl, ?_⟩
        rw [ht0] at hstop ⊢
        simp [Nonterminal.stops, continuesAfter_none, List.getLast?_cons_cons] at hstop ⊢
        tauto
      · refine ⟨o2, tl ++ [c], by rw [hcons]; rfl, ?_, ?_⟩
        · rcases isAddOperator_cases ho2 with ho2 | ho2 <;> subst ho2 <;>
            simp [Nonterminal.stops, continuesAfter, isMultOperator]
        · rw [hcons] at hstop ⊢
          simp only [Nonterminal.stops, getLast?_append_cons] at hstop ⊢
          simp at hstop ⊢
          tauto
    obtain ⟨k, b, hkb, hk, hrest⟩ := hexp
    have htl1 := htl
    rw [hkb] at htl1
    obtain ⟨f1, hf1⟩ := iht _ k htl1.follow hk
    obtain ⟨f2, hf2⟩ := ihr _ c htl.right hrest
    simp only [Nonterminal.production] at hf1 hf2
    refine ⟨f1 + f2 + 2, fun fuel hfuel => ?_⟩
    obtain ⟨n, rfl⟩ : ∃ n, fuel = n + 1 + 1 := ⟨fuel - 2, by omega⟩
    show compileExpression (n + 1 + 1) s = _
    rw [compileExpression, getState_bind, if_pos (by rw [hop]; exact ho),
      bind_ok (eat_self s)]
    beta_reduce
    rw [compileExpression2, bind_ok (hf1 n (by omega)), hf2 n (by omega)]
    simp only [State.advance_eq_skip, State.skip_add, List.length_append, List.length_cons,
      List.length_nil]
    exact ok_skip_congr (by omega)
  | expressionRestNil =>
    intro s c hs hstop
    have hc := hs.head
    simp [Nonterminal.stops] at hstop
    refine ⟨1, fun fuel hfuel => ?_⟩
    obtain ⟨n, rfl⟩ : ∃ n, fuel = n + 1 := ⟨fuel - 1, by omega⟩
    show compileExpression3 (n + 1) s = _
    rw [compileExpression3, getState_bind, if_neg (by rw [hc, hstop]; decide)]
    rfl
  | @expressionRestCons o t r ho ht hr iht ihr =>
    intro s c hs hstop
    simp only [List.cons_append, List.append_assoc] at hs
    have hop := hs.head
    have htl := hs.tail
    obtain ⟨k0, tl0, ht0, hk0⟩ := ht.term_first
    have hexp : ∃ k b, r ++ [c] = k :: b ∧ Nonterminal.term.stops t k = true ∧
        Nonterminal.expressionRest.stops r c = true := by
      rcases hr.expressionRest_first with hnil | ⟨o2, tl, hcons, ho2⟩
      · subst hnil
        refine ⟨c, [], rfl, ?_⟩
        rw [ht0] at hstop ⊢
        simp [Nonterminal.stops, continuesAfter_none, List.getLast?_cons_cons] at hstop ⊢
        tauto
      · refine ⟨o2, tl ++ [c], by rw [hcons]; rfl, ?_, ?_⟩
        · rcases isAddOperator_cases ho2 with ho2 | ho2 <;> subst ho2 <;>
            simp [Nonterminal.stops, continuesAfter, isMultOperator]
        · rw [hcons] at hstop ⊢
          simp only [Nonterminal.stops, getLast?_append_cons] at hstop ⊢
          simp at hstop ⊢
          tauto
    obtain ⟨k, b, hkb, hk, hrest⟩ := hexp
    have htl1 := htl
    rw [hkb] at htl1
    obtain ⟨f1, hf1⟩ := iht _ k htl1.follow hk
    obtain ⟨f2, hf2⟩ := ihr _ c htl.right hrest
    simp only [Nonterminal.production] at hf1 hf2
    refine ⟨f1 + f2 + 1, fun fuel hfuel => ?_⟩
    obtain ⟨n, rfl⟩ : ∃ n, fuel = n + 1 := ⟨fuel - 1, by omega⟩
    show compileExpression3 (n + 1) s = _
    rw [compileExpression3, getState_bind, if_pos (by rw [hop]; exact ho), bind_ok (eat_self s),
      bind_ok (hf1 n (by omega)), hf2 n (by omega)]
    simp only [State.advance_eq_skip, State.skip_add, List.length_append, List.length_cons,
      List.length_nil]
    exact ok_skip_congr (by omega)


theorem stops_expression_comma (e : List TokenType) :
    Nonterminal.expression.stops e SB_COMMA = true := by
  simp [Nonterminal.stops, continuesAfter, isAddOperator, isMultOperator]

theorem commaSeparated_cons_cons (e e2 : List TokenType) (es : List (List TokenType)) :
    commaSeparated (e :: e2 :: es) = e ++ SB_COMMA :: commaSeparated (e2 :: es) := by
  simp [commaSeparated]

/-- The parser reads a list of sentences of Expression that are separated by
commas as a list of expressions. -/
theorem expressionList_of_derives (es : List (List TokenType)) (hM : es ≠ [])
    (hwf : ∀ e ∈ es, Derives .expression e) (c : TokenType) (hc : c ≠ SB_COMMA)
    (hstop : Nonterminal.expression.stops (es.getLast hM) c = true) (s : State)
    (hs : s.Reads (commaSeparated es ++ [c])) :
    ExpressionList s es.length (s.skip (commaSeparated es).length) := by
  induction es generalizing s with
  | nil => exact absurd rfl hM
  | cons e es ih =>
    cases es with
    | nil =>
      simp only [commaSeparated, List.getLast_singleton] at hs hstop ⊢
      obtain ⟨f0, hf0⟩ := (hwf e (List.mem_cons_self _ _)).parses s c hs hstop
      refine .last _ _ ⟨f0, hf0 f0 (Nat.le_refl _)⟩ ?_
      rw [hs.right.head]
      exact hc
    | cons e2 es =>
      rw [commaSeparated_cons_cons, List.append_assoc, List.cons_append] at hs
      obtain ⟨f0, hf0⟩ := (hwf e (List.mem_cons_self _ _)).parses s SB_COMMA hs.follow
        (stops_expression_comma e)
      have hrest := ih (List.cons_ne_nil _ _) (fun x hx => hwf x (List.mem_cons_of_mem _ hx))
        (by rw [List.getLast_cons_cons] at hstop; exact hstop) _ hs.right.tail
      have h2 := ExpressionList.cons _ _ _ _ ⟨f0, hf0 f0 (Nat.le_refl _)⟩ hs.right.head hrest
      have hst : State.skip (commaSeparated (e2 :: es)).length (s.skip e.length).advance =
          s.skip (commaSeparated (e :: e2 :: es)).length := by
        rw [commaSeparated_cons_cons]
        simp only [State.advance_eq_skip, State.skip_add, List.length_append, List.length_cons]
        congr 1
        omega
      rw [← hst]
      exact h2

theorem targetKinds_assign_length (N : Nat) (hN : 1 ≤ N) :
    (targetKinds N ++ [SB_ASSIGN]).length = 2 * N := by
  simp only [targetKinds, List.length_append, List.length_cons, List.length_nil,
    length_flatten_replicate_pair]
  omega

/-- The run of `compileAssignSt` on `N` targets, `:=` and a list of sentences
of Expression that are separated by commas. -/
theorem compileAssignSt_sentences_eval (N : Nat) (hN : 1 ≤ N) (es : List (List TokenType))
    (hM : es ≠ []) (hwf : ∀ e ∈ es, Derives .expression e) (c : TokenType)
    (hc : c ≠ SB_COMMA) (hstop : Nonterminal.expression.stops (es.getLast hM) c = true)
    (s : State)
    (hs : s.Reads (targetKinds N ++ SB_ASSIGN :: (commaSeparated es ++ [c]))) :
    ∃ fuel0, ∀ fuel, fuel0 ≤ fuel →
      compileAssignSt fuel s =
        if es.length ≠ N then
          .raised (.error ERR_INVALIDSTATEMENT
            (s.skip (2 * N + (commaSeparated es).length)).lookAhead.lineNo
            (s.skip (2 * N + (commaSeparated es).length)).lookAhead.colNo)
            (s.skip (2 * N + (commaSeparated es).length))
        else .ok () (s.skip (2 * N + (commaSeparated es).length)) := by
  have hs2 : s.Reads ((targetKinds N ++ [SB_ASSIGN]) ++ (commaSeparated es ++ [c])) := by
    simpa using hs
  rw [State.reads_append, targetKinds_assign_length N hN] at hs2
  have htargets := hs2.1
  unfold State.Reads at htargets
  rw [targetKinds_assign_length N hN] at htargets
  have hvalues := expressionList_of_derives es hM hwf c hc hstop _ hs2.2
  rw [State.skip_add] at hvalues
  exact compileAssignSt_eval N es.length hN s _ htargets hvalues

/-- The run of `compileAssignSt` when a target after the first one is followed
by selectors: the selectors of the first target are consumed, the first loop
stops on the `[` after the later target and `eat(SB_ASSIGN)` does not match. -/
theorem compileAssignSt_later_sentence_eval (j : Nat) (hj : 1 ≤ j)
    (first sel : List TokenType) (hfirst : Derives .indexes first)
    (hsel : Derives .indexes sel) (hne : sel ≠ []) (s : State)
    (hs : s.Reads
      (TK_IDENT :: first ++ (List.replicate j [SB_COMMA, TK_IDENT]).flatten ++ sel)) :
    (s.skip (1 + first.length + 2 * j)).lookAhead.tokenType = SB_LSEL ∧
    ∃ fuel0, ∀ fuel, fuel0 ≤ fuel →
      compileAssignSt fuel s =
        .raised (.missingToken SB_ASSIGN
          (s.skip (1 + first.length + 2 * j)).lookAhead.lineNo
          (s.skip (1 + first.length + 2 * j)).lookAhead.colNo)
          (s.skip (1 + first.length + 2 * j)) := by
  obtain ⟨tl, hcons⟩ : ∃ tl, sel = SB_LSEL :: tl := by
    rcases hsel.indexes_shape with h | ⟨tl, h, -⟩
    · exact absurd h hne
    · exact ⟨tl, h⟩
  obtain ⟨i, rfl⟩ : ∃ i, j = i + 1 := ⟨j - 1, by omega⟩
  subst hcons
  simp only [List.cons_append, List.append_assoc] at hs
  have hid := hs.head
  have htl := hs.tail
  have hfollow : s.advance.Reads (first ++ [SB_COMMA]) := by
    have h := htl
    rw [flatten_replicate_succ] at h
    simp only [List.cons_append, List.nil_append] at h
    exact h.follow
  obtain ⟨f1, hf1⟩ := hfirst.parses s.advance SB_COMMA hfollow rfl
  have hmore := htl.right.follow
  unfold State.Reads at hmore
  simp only [List.length_append, length_flatten_replicate_pair, List.length_cons,
    List.length_nil] at hmore
  have hst : (s.advance.skip first.length).skip (2 * (i + 1)) =
      s.skip (1 + first.length + 2 * (i + 1)) := by
    simp only [State.advance_eq_skip, State.skip_add]
  have hrun := fun fuel hfuel => compileAssignSt_later_selector_eval (i + 1) f1 s
    (s.advance.skip first.length) hid (hf1 f1 (Nat.le_refl _)) hmore fuel hfuel
  rw [hst] at hrun
  refine ⟨?_, f1 + (i + 1) + 1, hrun⟩
  rw [← hst]
  have h3 := htl.right.right
  rw [length_flatten_replicate_pair] at h3
  exact h3.head

/-- The statement `x := 1 + end`, evaluated: after the `+`, `compileFactor`
finds `end` and raises `ERR_INVALIDFACTOR`. -/
theorem compileAssignSt_danglingPlus_eval (fuel : Nat) (hfuel : 6 ≤ fuel) :
    compileAssignSt fuel danglingPlus =
      .raised (.error ERR_INVALIDFACTOR 4 1) (danglingPlus.skip 4) := by
  have h6 : compileAssignSt 6 danglingPlus =
      .raised (.error ERR_INVALIDFACTOR 4 1) (danglingPlus.skip 4) := by decide
  rw [extends_le extends_compileAssignSt hfuel danglingPlus (by rw [h6]; simp), h6]

/-- A number literal is a sentence of Expression. -/
theorem Derives.numberExpression : Derives .expression [TK_NUMBER] :=
  .expression (.term .number .termRestNil) .expressionRestNil

/-- The kinds of `a[1] * 2` are a sentence of Expression. -/
theorem Derives.indexedProduct :
    Derives .expression [TK_IDENT, SB_LSEL, TK_NUMBER, SB_RSEL, SB_TIMES, TK_NUMBER] :=
  .expression
    (.term (.indexed (.indexesCons Derives.numberExpression .indexesNil))
      (.termRestCons (rfl : isMultOperator SB_TIMES = true) .number .termRestNil))
    .expressionRestNil

/-- The kinds of `- f(3, 4)` are a sentence of Expression. -/
theorem Derives.signedCall :
    Derives .expression
      [SB_MINUS, TK_IDENT, SB_LPAR, TK_NUMBER, SB_COMMA, TK_NUMBER, SB_RPAR] :=
  .signed (rfl : isAddOperator SB_MINUS = true)
    (.term
      (.call (.arguments Derives.numberExpression
        (.argumentsRestCons Derives.numberExpression .argumentsRestNil)))
      .termRestNil)
    .expressionRestNil

/-- The kinds of `[1][2]` are a sentence of Indexes. -/
theorem Derives.twoSelectors :
    Derives .indexes [SB_LSEL, TK_NUMBER, SB_RSEL, SB_LSEL, TK_NUMBER, SB_RSEL] :=
  .indexesCons Derives.numberExpression
    (.indexesCons Derives.numberExpression .indexesNil)

/-- The kinds of `[0]` are a sentence of Indexes. -/
theorem Derives.oneSelector : Derives .indexes [SB_LSEL, TK_NUMBER, SB_RSEL] :=
  .indexesCons Derives.numberExpression .indexesNil

/-- The run of `compileAssignSt` on a first target with its selectors, `k`
further targets, `:=` and a list of `M` expressions. -/
theorem compileAssignSt_indexed_eval (f k M : Nat) (u u1 u2 : State)
    (hfirst : u.lookAhead.tokenType = TK_IDENT)
    (hidx : compileIndexes f u.advance = .ok () u1)
    (hcommas : (u1.upcoming (2 * k)).map Token.tokenType =
      (List.replicate k [SB_COMMA, TK_IDENT]).flatten)
    (hassign : (u1.skip (2 * k)).lookAhead.tokenType = SB_ASSIGN)
    (hvalue : ExpressionList (u1.skip (2 * k)).advance M u2) :
    ∃ fuel0, ∀ fuel, fuel0 ≤ fuel →
      compileAssignSt fuel u =
        if M ≠ k + 1 then
          .raised (.error ERR_INVALIDSTATEMENT u2.lookAhead.lineNo u2.lookAhead.colNo) u2
        else .ok () u2 := by
  obtain ⟨f2, hf2⟩ := compileAssignStExpressions_eval hvalue
  refine ⟨f + f2 + k + 1, fun fuel hfuel => ?_⟩
  obtain ⟨n, rfl⟩ : ∃ n, fuel = n + k + 1 := ⟨fuel - k - 1, by omega⟩
  unfold compileAssignSt
  rw [compileAssignSt_first_target _ (n + k + 1) f u u1 hfirst hidx (by omega)]
  beta_reduce
  rw [bind_ok (compileAssignStVariables_eval k n 1 u1 hcommas (by rw [hassign]; decide))]
  rw [bind_ok (eat_ok hassign)]
  have h3 := hf2 (n + k + 1) (by omega) 0
  rw [bind_eq] at h3 ⊢
  cases hce : compileExpression (n + k + 1) (u1.skip (2 * k)).advance with
  | ok a s1 =>
    rw [hce] at h3
    simp only [] at h3 ⊢
    rw [bind_ok h3]
    simp only [Nat.zero_add]
    split
    · rename_i hne
      rw [getState_bind, if_pos (by omega)]
      rfl
    · rename_i heq
      rw [if_neg (by omega)]
      rfl
  | raised e s1 => rw [hce] at h3; simp at h3
  | outOfFuel => rw [hce] at h3; simp at h3

/-- The run of `compileAssignSt` on a first target with a sentence of Indexes,
`k` further targets, `:=` and `k + 1` sentences of Expression: `compileIndexes`
consumes the selectors and the statement is accepted. -/
theorem compileAssignSt_first_sentence_eval (k : Nat) (sel : List TokenType)
    (es : List (List TokenType)) (hM : es ≠ []) (hlen : es.length = k + 1)
    (hsel : Derives .indexes sel) (hwf : ∀ e ∈ es, Derives .expression e)
    (c : TokenType) (hc : c ≠ SB_COMMA)
    (hstop : Nonterminal.expression.stops (es.getLast hM) c = true) (u : State)
    (hu : u.Reads (TK_IDENT :: sel ++ (List.replicate k [SB_COMMA, TK_IDENT]).flatten ++
      SB_ASSIGN :: (commaSeparated es ++ [c]))) :
    ∃ fuel0, ∀ fuel, fuel0 ≤ fuel →
      compileIndexes fuel u.advance = .ok () (u.skip (1 + sel.length)) ∧
      compileAssignSt fuel u =
        .ok () (u.skip (1 + sel.length + 2 * k + 1 + (commaSeparated es).length)) := by
  simp only [List.cons_append, List.append_assoc] at hu
  have hid := hu.head
  have htl := hu.tail
  have hfollow : ∃ d, d ≠ SB_LSEL ∧ u.advance.Reads (sel ++ [d]) := by
    cases k with
    | zero => exact ⟨SB_ASSIGN, by decide, htl.follow⟩
    | succ i =>
      have h := htl
      rw [flatten_replicate_succ] at h
      simp only [List.cons_append, List.nil_append] at h
      exact ⟨SB_COMMA, by decide, h.follow⟩
  obtain ⟨d, hd, hread⟩ := hfollow
  obtain ⟨f1, hf1⟩ := hsel.parses u.advance d hread (by simpa [Nonterminal.stops] using hd)
  simp only [Nonterminal.production] at hf1
  have hrest := htl.right
  rw [State.reads_append, length_flatten_replicate_pair] at hrest
  have hcommas := hrest.1
  unfold State.Reads at hcommas
  rw [length_flatten_replicate_pair] at hcommas
  have hassign := hrest.2.head
  have hvalue := expressionList_of_derives es hM hwf c hc hstop _ hrest.2.tail
  obtain ⟨f3, hf3⟩ := compileAssignSt_indexed_eval f1 k es.length u _ _ hid
    (hf1 f1 (Nat.le_refl _)) hcommas hassign hvalue
  have hst1 : u.advance.skip sel.length = u.skip (1 + sel.length) := by
    simp only [State.advance_eq_skip, State.skip_add]
  have hst2 : ((u.advance.skip sel.length).skip (2 * k)).advance.skip
      (commaSeparated es).length =
      u.skip (1 + sel.length + 2 * k + 1 + (commaSeparated es).length) := by
    simp only [State.advance_eq_skip, State.skip_add]
  rw [hst2] at hf3
  refine ⟨f1 + f3, fun fuel hfuel => ⟨?_, ?_⟩⟩
  · rw [← hst1]
    exact hf1 fuel (by omega)
  · rw [hf3 fuel (by omega), if_neg (by omega)]

/-! ### The claims -/

/-- C1: when the kind of the lookahead is `k`, `eat k` reports no error and
moves the window by one token: the matched token is printed, the new current
token is the old lookahead, and the new lookahead is the next token pulled
from the source. -/
theorem eat_match_advances (s : State) (k : TokenType) (h : s.lookAhead.tokenType = k) :
    eat k s = .ok ()
      { currentToken := some s.lookAhead
        lookAhead := (getValidToken s.source).1
        source := (getValidToken s.source).2
        printed := s.printed ++ [s.lookAhead] } :=
  eat_ok h

/-- An instance of C1: `eat(SB_SEMICOLON)` on the `;` of `program P;`. -/
theorem eat_match_advances_witness :
    (⟨SB_SEMICOLON, none, 1, 10⟩ : Token).tokenType = SB_SEMICOLON ∧
    eat SB_SEMICOLON
        { currentToken := some ⟨TK_IDENT, some "P", 1, 9⟩
          lookAhead := ⟨SB_SEMICOLON, none, 1, 10⟩
          source := ⟨[⟨KW_BEGIN, none, 2, 1⟩, ⟨KW_END, none, 3, 1⟩], ⟨TK_EOF, none, 3, 4⟩⟩
          printed := [⟨TK_IDENT, some "P", 1, 9⟩] }
      = .ok ()
        { currentToken := some ⟨SB_SEMICOLON, none, 1, 10⟩
          lookAhead := ⟨KW_BEGIN, none, 2, 1⟩
          source := ⟨[⟨KW_END, none, 3, 1⟩], ⟨TK_EOF, none, 3, 4⟩⟩
          printed := [⟨TK_IDENT, some "P", 1, 9⟩, ⟨SB_SEMICOLON, none, 1, 10⟩] } :=
  ⟨rfl, eat_match_advances _ SB_SEMICOLON rfl⟩

/-- C2: when the kind of the lookahead differs from `k`, `eat k` raises the
missing-token event that carries `k` and the line and column of the lookahead,
and the state in which it is raised is the state before the call: the window
is unchanged, nothing is pulled from the source and nothing is printed. -/
theorem eat_mismatch_raises (s : State) (k : TokenType) (h : s.lookAhead.tokenType ≠ k) :
    eat k s = .raised (.missingToken k s.lookAhead.lineNo s.lookAhead.colNo) s :=
  eat_raised h

/-- An instance of C2: `eat(SB_PERIOD)` on the end marker. -/
theorem eat_mismatch_raises_witness :
    (⟨TK_EOF, none, 3, 4⟩ : Token).tokenType ≠ SB_PERIOD ∧
    eat SB_PERIOD
        { currentToken := some ⟨KW_END, none, 3, 1⟩
          lookAhead := ⟨TK_EOF, none, 3, 4⟩
          source := ⟨[], ⟨TK_EOF, none, 3, 4⟩⟩
          printed := [⟨KW_END, none, 3, 1⟩] }
      = .raised (.missingToken SB_PERIOD 3 4)
        { currentToken := some ⟨KW_END, none, 3, 1⟩
          lookAhead := ⟨TK_EOF, none, 3, 4⟩
          source := ⟨[], ⟨TK_EOF, none, 3, 4⟩⟩
          printed := [⟨KW_END, none, 3, 1⟩] } :=
  ⟨by decide, eat_mismatch_raises _ SB_PERIOD (by decide)⟩

/-- C4: when the kind of the lookahead is one of `;`, `end`, `else`, `until`,
`compileStatement` returns without an error in the state in which it was
called: no token is consumed. -/
theorem compileStatement_follow_empty (fuel : Nat) (s : State)
    (h : s.lookAhead.tokenType = SB_SEMICOLON ∨ s.lookAhead.tokenType = KW_END ∨
      s.lookAhead.tokenType = KW_ELSE ∨ s.lookAhead.tokenType = KW_UNTIL) :
    compileStatement (fuel + 1) s = .ok () s := by
  rcases h with h | h | h | h <;>
    simp [compileStatement, getState_bind, bind_eq, getState, h, pure, Compile.pure]

/-- An instance of C4: the empty statement of `begin end`. -/
theorem compileStatement_follow_empty_witness :
    (⟨KW_END, none, 3, 1⟩ : Token).tokenType = KW_END ∧
    compileStatement 1
        { currentToken := some ⟨KW_BEGIN, none, 2, 1⟩
          lookAhead := ⟨KW_END, none, 3, 1⟩
          source := ⟨[⟨SB_PERIOD, none, 3, 4⟩], ⟨TK_EOF, none, 3, 5⟩⟩
          printed := [⟨KW_BEGIN, none, 2, 1⟩] }
      = .ok ()
        { currentToken := some ⟨KW_BEGIN, none, 2, 1⟩
          lookAhead := ⟨KW_END, none, 3, 1⟩
          source := ⟨[⟨SB_PERIOD, none, 3, 4⟩], ⟨TK_EOF, none, 3, 5⟩⟩
          printed := [⟨KW_BEGIN, none, 2, 1⟩] } :=
  ⟨rfl, compileStatement_follow_empty 0 _ (Or.inr (Or.inl rfl))⟩

/-- C5: on `n` repetitions of `array [ number ] of` followed by `integer` or
`char`, `compileType` returns without an error as soon as the fuel exceeds `n`,
having consumed exactly the `5 * n + 1` tokens of the chain (they are what it
printed) and leaving the lookahead on the token after the basic type. -/
theorem compileType_nesting_closure (n : Nat) (b : TokenType)
    (hb : b = KW_INTEGER ∨ b = KW_CHAR) (fuel : Nat) (s : State)
    (hs : (s.upcoming (5 * n + 1)).map Token.tokenType = arrayChain n b) :
    compileType (fuel + n + 1) s = .ok () (s.skip (5 * n + 1)) ∧
    (s.skip (5 * n + 1)).printed = s.printed ++ s.upcoming (5 * n + 1) ∧
    (s.skip (5 * n + 1)).lookAhead = s.peek (5 * n + 1) :=
  ⟨compileType_arrayChain_eval n b hb fuel s hs, State.skip_printed _ s,
    State.skip_lookAhead _ s⟩

/-- An instance of C5: the type `array [3] of array [4] of integer`, of depth
2; the lookahead is left on the `;` that follows it. -/
theorem compileType_nesting_closure_witness :
    (nestedArrayType.upcoming (5 * 2 + 1)).map Token.tokenType = arrayChain 2 KW_INTEGER ∧
    compileType 3 nestedArrayType = .ok () (nestedArrayType.skip 11) ∧
    (nestedArrayType.skip 11).printed =
      nestedArrayType.printed ++ nestedArrayType.upcoming 11 ∧
    (nestedArrayType.skip 11).lookAhead = ⟨SB_SEMICOLON, none, 1, 41⟩ :=
  ⟨by decide, compileType_nesting_closure 2 KW_INTEGER (Or.inl rfl) 0 nestedArrayType (by decide)⟩

/-- C6: when `compileProgram` reports an error, some number `k` of tokens have
been matched before it (the first `k` tokens of the input, which are what was
printed), the lookahead at the point of failure is the token that follows them
(token `k + 1` of the input, the end marker once the input is exhausted), and
the error event, whatever its kind, carries the line and the column of that
token. -/
theorem compileProgram_error_position (fuel : Nat) (src : TokenSource) (e : ErrorEvent)
    (s1 : State) (h : compileProgram fuel (initialState src) = .raised e s1) :
    ∃ k, s1.printed = (src.pending ++ List.replicate k src.endMarker).take k ∧
      s1.lookAhead = src.pending.getD k src.endMarker ∧
      e.lineNo = (src.pending.getD k src.endMarker).lineNo ∧
      e.colNo = (src.pending.getD k src.endMarker).colNo := by
  have ht := tracks_compileProgram fuel (initialState src)
  unfold Compile.TracksAt at ht
  rw [h] at ht
  obtain ⟨⟨k, hk⟩, hl, hc⟩ := ht
  have hla : s1.lookAhead = src.pending.getD k src.endMarker := by
    rw [hk, State.skip_lookAhead, initialState_peek]
  refine ⟨k, ?_, hla, ?_, ?_⟩
  · rw [hk, State.skip_printed, initialState_upcoming]
    simp [initialState]
  · rw [hl, hla]
  · rw [hc, hla]

/-- An instance of C6: the missing period of `program P; begin end`. -/
theorem compileProgram_error_position_witness :
    ∃ k, noPeriodProgram.pending =
        (noPeriodProgram.pending ++ List.replicate k noPeriodProgram.endMarker).take k ∧
      (⟨TK_EOF, none, 3, 4⟩ : Token) =
        noPeriodProgram.pending.getD k noPeriodProgram.endMarker ∧
      (ErrorEvent.missingToken SB_PERIOD 3 4).lineNo =
        (noPeriodProgram.pending.getD k noPeriodProgram.endMarker).lineNo ∧
      (ErrorEvent.missingToken SB_PERIOD 3 4).colNo =
        (noPeriodProgram.pending.getD k noPeriodProgram.endMarker).colNo :=
  compileProgram_error_position 6 noPeriodProgram (.missingToken SB_PERIOD 3 4)
    ⟨some ⟨KW_END, none, 3, 1⟩, ⟨TK_EOF, none, 3, 4⟩, ⟨[], ⟨TK_EOF, none, 3, 4⟩⟩,
      noPeriodProgram.pending⟩ (by rfl)

/-- C7 (as amended): on `call foo ( 1 , 2` followed by the end marker, the
call statement consumes the six tokens and raises `ERR_INVALIDARGUMENTS` at the
line and column of the end marker. -/
theorem compileCallSt_unclosed_invalidArguments (fuel : Nat) (cur : Option Token)
    (out : List Token) (t1 t2 t3 t4 t5 t6 eof : Token)
    (h1 : t1.tokenType = KW_CALL) (h2 : t2.tokenType = TK_IDENT) (h3 : t3.tokenType = SB_LPAR)
    (h4 : t4.tokenType = TK_NUMBER) (h5 : t5.tokenType = SB_COMMA)
    (h6 : t6.tokenType = TK_NUMBER) (h7 : eof.tokenType = TK_EOF) :
    compileCallSt (fuel + 6) ⟨cur, t1, ⟨[t2, t3, t4, t5, t6], eof⟩, out⟩ =
      .raised (.error ERR_INVALIDARGUMENTS eof.lineNo eof.colNo)
        ⟨some t6, eof, ⟨[], eof⟩, out ++ [t1, t2, t3, t4, t5, t6]⟩ :=
  compileCallSt_unclosed_eval fuel cur out t1 t2 t3 t4 t5 t6 eof h1 h2 h3 h4 h5 h6 h7

/-- An instance of C7 as amended: the tokens of `call foo(1,2`. -/
theorem compileCallSt_unclosed_invalidArguments_witness :
    compileCallSt 6 (initialState unclosedCall) =
      .raised (.error ERR_INVALIDARGUMENTS 1 13)
        ⟨some ⟨TK_NUMBER, some "2", 1, 12⟩, ⟨TK_EOF, none, 1, 13⟩,
          ⟨[], ⟨TK_EOF, none, 1, 13⟩⟩, unclosedCall.pending⟩ :=
  compileCallSt_unclosed_invalidArguments 0 none [] _ _ _ _ _ _ _ rfl rfl rfl rfl rfl rfl rfl

/-- C7 (counterexample): on the tokens of `call foo(1,2` the error of the call
statement is `ERR_INVALIDARGUMENTS`, and it is no missing-token event. -/
theorem compileCallSt_unclosed_counterexample :
    compileCallSt 6 (initialState unclosedCall) =
      .raised (.error ERR_INVALIDARGUMENTS 1 13)
        ⟨some ⟨TK_NUMBER, some "2", 1, 12⟩, ⟨TK_EOF, none, 1, 13⟩,
          ⟨[], ⟨TK_EOF, none, 1, 13⟩⟩, unclosedCall.pending⟩ ∧
    ¬ ∃ l c s, compileCallSt 6 (initialState unclosedCall) =
      .raised (.missingToken SB_RPAR l c) s := by
  have h := compileCallSt_unclosed_eval 0 none []
    ⟨KW_CALL, none, 1, 1⟩ ⟨TK_IDENT, some "foo", 1, 6⟩ ⟨SB_LPAR, none, 1, 9⟩
    ⟨TK_NUMBER, some "1", 1, 10⟩ ⟨SB_COMMA, none, 1, 11⟩ ⟨TK_NUMBER, some "2", 1, 12⟩
    ⟨TK_EOF, none, 1, 13⟩ rfl rfl rfl rfl rfl rfl rfl
  refine ⟨h, ?_⟩
  rintro ⟨l, c, s, hs⟩
  have h2 := h.symm.trans hs
  simp at h2

/-- C8 (as amended): when `compileStatements2` is entered with a lookahead
whose kind is none of `;`, `end`, `until`, it consumes no token (the state is
unchanged) and the first error it raises is the missing-token event for `;`, at
the line and column of the lookahead. -/
theorem compileStatements2_unexpected_missing_semicolon (fuel : Nat) (s : State)
    (h1 : s.lookAhead.tokenType ≠ SB_SEMICOLON) (h2 : s.lookAhead.tokenType ≠ KW_END)
    (h3 : s.lookAhead.tokenType ≠ KW_UNTIL) :
    compileStatements2 (fuel + 1) s =
      .raised (.missingToken SB_SEMICOLON s.lookAhead.lineNo s.lookAhead.colNo) s :=
  compileStatements2_default_eval fuel s h1 h2 h3

/-- An instance of C8 as amended: a number literal after a statement. -/
theorem compileStatements2_unexpected_missing_semicolon_witness :
    compileStatements2 1 strayNumber = .raised (.missingToken SB_SEMICOLON 2 10) strayNumber :=
  compileStatements2_unexpected_missing_semicolon 0 strayNumber
    (by decide) (by decide) (by decide)

/-- C8 (counterexample): entered on a number literal, `compileStatements2`
raises the missing-token event for `;` in the unchanged state: it neither
consumes a token nor reports `ERR_INVALIDSTATEMENT`. -/
theorem compileStatements2_unexpected_counterexample :
    compileStatements2 1 strayNumber = .raised (.missingToken SB_SEMICOLON 2 10) strayNumber ∧
    strayNumber ≠ strayNumber.advance ∧
    ¬ ∃ l c s, compileStatements2 1 strayNumber = .raised (.error ERR_INVALIDSTATEMENT l c) s := by
  have h := compileStatements2_default_eval 0 strayNumber (by decide) (by decide) (by decide)
  refine ⟨h, by decide, ?_⟩
  rintro ⟨l, c, s, hs⟩
  have h2 := h.symm.trans hs
  simp at h2

/-- C9: on `program P ; begin end` followed by the end marker, `compileProgram`
consumes the five tokens and then raises the missing-token event for `.` at the
line and column of the end marker. -/
theorem compileProgram_missing_period (fuel : Nat) (t1 t2 t3 t4 t5 eof : Token)
    (h1 : t1.tokenType = KW_PROGRAM) (h2 : t2.tokenType = TK_IDENT)
    (h3 : t3.tokenType = SB_SEMICOLON) (h4 : t4.tokenType = KW_BEGIN)
    (h5 : t5.tokenType = KW_END) (h6 : eof.tokenType = TK_EOF) :
    compileProgram (fuel + 6) (initialState ⟨[t1, t2, t3, t4, t5], eof⟩) =
      .raised (.missingToken SB_PERIOD eof.lineNo eof.colNo)
        ⟨some t5, eof, ⟨[], eof⟩, [t1, t2, t3, t4, t5]⟩ := by
  simp [compileProgram, compileBlock, compileBlock2, compileBlock3, compileBlock4,
    compileBlock5, compileSubDecls, compileStatements, compileStatement, compileStatements2,
    initialState, getValidToken, eat, bind_eq, getState, printToken, scan, missingToken,
    isSubroutineDecl, pure, Compile.pure, h1, h2, h3, h4, h5, h6]

/-- An instance of C9: the tokens of `program P; begin end`. -/
theorem compileProgram_missing_period_witness :
    compileProgram 6 (initialState noPeriodProgram) =
      .raised (.missingToken SB_PERIOD 3 4)
        ⟨some ⟨KW_END, none, 3, 1⟩, ⟨TK_EOF, none, 3, 4⟩, ⟨[], ⟨TK_EOF, none, 3, 4⟩⟩,
          noPeriodProgram.pending⟩ :=
  compileProgram_missing_period 0 _ _ _ _ _ _ rfl rfl rfl rfl rfl rfl

/-- C10: on `program P ; begin end .` followed by the end marker,
`compileProgram` returns without an error, having consumed exactly those six
tokens, in order; the lookahead is then the end marker. -/
theorem compileProgram_minimal (fuel : Nat) (t1 t2 t3 t4 t5 t6 eof : Token)
    (h1 : t1.tokenType = KW_PROGRAM) (h2 : t2.tokenType = TK_IDENT)
    (h3 : t3.tokenType = SB_SEMICOLON) (h4 : t4.tokenType = KW_BEGIN)
    (h5 : t5.tokenType = KW_END) (h6 : t6.tokenType = SB_PERIOD) :
    compileProgram (fuel + 6) (initialState ⟨[t1, t2, t3, t4, t5, t6], eof⟩) =
      .ok () ⟨some t6, eof, ⟨[], eof⟩, [t1, t2, t3, t4, t5, t6]⟩ := by
  simp [compileProgram, compileBlock, compileBlock2, compileBlock3, compileBlock4,
    compileBlock5, compileSubDecls, compileStatements, compileStatement, compileStatements2,
    initialState, getValidToken, eat, bind_eq, getState, printToken, scan,
    isSubroutineDecl, pure, Compile.pure, h1, h2, h3, h4, h5, h6]

/-- An instance of C10: the tokens of `program P; begin end.` -/
theorem compileProgram_minimal_witness :
    compileProgram 6 (initialState minimalProgram) =
      .ok () ⟨some ⟨SB_PERIOD, none, 3, 4⟩, ⟨TK_EOF, none, 3, 5⟩, ⟨[], ⟨TK_EOF, none, 3, 5⟩⟩,
        minimalProgram.pending⟩ :=
  compileProgram_minimal 0 _ _ _ _ _ _ _ rfl rfl rfl rfl rfl rfl

/-- C11: on `program P ; begin x := n end .` followed by the end marker,
`compileProgram` returns without an error, having consumed exactly those nine
tokens, in order; the lookahead is then the end marker. -/
theorem compileProgram_single_assignment (fuel : Nat) (t1 t2 t3 t4 t5 t6 t7 t8 t9 eof : Token)
    (h1 : t1.tokenType = KW_PROGRAM) (h2 : t2.tokenType = TK_IDENT)
    (h3 : t3.tokenType = SB_SEMICOLON) (h4 : t4.tokenType = KW_BEGIN)
    (h5 : t5.tokenType = TK_IDENT) (h6 : t6.tokenType = SB_ASSIGN)
    (h7 : t7.tokenType = TK_NUMBER) (h8 : t8.tokenType = KW_END)
    (h9 : t9.tokenType = SB_PERIOD) :
    compileProgram (fuel + 10) (initialState ⟨[t1, t2, t3, t4, t5, t6, t7, t8, t9], eof⟩) =
      .ok () ⟨some t9, eof, ⟨[], eof⟩, [t1, t2, t3, t4, t5, t6, t7, t8, t9]⟩ := by
  simp [compileProgram, compileBlock, compileBlock2, compileBlock3, compileBlock4,
    compileBlock5, compileSubDecls, compileStatements, compileStatement, compileStatements2,
    compileAssignSt, compileAssignStVariables, compileAssignStExpressions, compileExpression,
    compileExpression2, compileExpression3, compileTerm, compileTerm2, compileFactor,
    initialState, getValidToken, eat, bind_eq, getState, printToken, scan,
    isSubroutineDecl, isAddOperator, isMultOperator, pure, Compile.pure,
    h1, h2, h3, h4, h5, h6, h7, h8, h9]

/-- An instance of C11: the tokens of `program P; begin x := 1 end.` -/
theorem compileProgram_single_assignment_witness :
    compileProgram 10 (initialState singleAssignProgram) =
      .ok () ⟨some ⟨SB_PERIOD, none, 3, 4⟩, ⟨TK_EOF, none, 3, 5⟩, ⟨[], ⟨TK_EOF, none, 3, 5⟩⟩,
        singleAssignProgram.pending⟩ :=
  compileProgram_single_assignment 0 _ _ _ _ _ _ _ _ _ _ rfl rfl rfl rfl rfl rfl rfl rfl rfl

/-- C13: when the kind of the lookahead is none of identifier, `call`, `begin`,
`if`, `while`, `for`, `repeat`, `;`, `end`, `else`, `until`, `compileStatement`
raises `ERR_INVALIDSTATEMENT` with the line and column of the lookahead, in the
state in which it was called: no token is consumed. -/
theorem compileStatement_rejects_other (fuel : Nat) (s : State)
    (h1 : s.lookAhead.tokenType ≠ TK_IDENT) (h2 : s.lookAhead.tokenType ≠ KW_CALL)
    (h3 : s.lookAhead.tokenType ≠ KW_BEGIN) (h4 : s.lookAhead.tokenType ≠ KW_IF)
    (h5 : s.lookAhead.tokenType ≠ KW_WHILE) (h6 : s.lookAhead.tokenType ≠ KW_FOR)
    (h7 : s.lookAhead.tokenType ≠ KW_REPEAT) (h8 : s.lookAhead.tokenType ≠ SB_SEMICOLON)
    (h9 : s.lookAhead.tokenType ≠ KW_END) (h10 : s.lookAhead.tokenType ≠ KW_ELSE)
    (h11 : s.lookAhead.tokenType ≠ KW_UNTIL) :
    compileStatement (fuel + 1) s =
      .raised (.error ERR_INVALIDSTATEMENT s.lookAhead.lineNo s.lookAhead.colNo) s := by
  simp only [compileStatement, getState_bind]
  rfl

/-- An instance of C13: a statement that starts on `then`. -/
theorem compileStatement_rejects_other_witness :
    compileStatement 1 strayThen = .raised (.error ERR_INVALIDSTATEMENT 3 3) strayThen :=
  compileStatement_rejects_other 0 strayThen (by decide) (by decide) (by decide) (by decide)
    (by decide) (by decide) (by decide) (by decide) (by decide) (by decide) (by decide)

/-- C14: `compileConstant` matches one optional sign and then decides on the
next token alone. On a number or a character literal it matches it and returns
without an error, having consumed exactly the one or two tokens; on any other
token, an identifier included, it raises `ERR_INVALIDCONSTANT` with the line and
column of that token, the first one after the optional sign, and consumes
nothing more. So it returns without an error if and only if the input starts
with an optional sign followed by a number or a character literal. -/
theorem compileConstant_grammar (s : State) :
    (compileConstant s =
      if (afterSign s).lookAhead.tokenType = TK_NUMBER ∨
          (afterSign s).lookAhead.tokenType = TK_CHAR then
        .ok () (afterSign s).advance
      else
        .raised (.error ERR_INVALIDCONSTANT (afterSign s).lookAhead.lineNo
          (afterSign s).lookAhead.colNo) (afterSign s)) ∧
    ((∃ s1, compileConstant s = .ok () s1) ↔
      ((afterSign s).lookAhead.tokenType = TK_NUMBER ∨
        (afterSign s).lookAhead.tokenType = TK_CHAR)) ∧
    ((afterSign s).lookAhead.tokenType = TK_IDENT →
      compileConstant s = .raised (.error ERR_INVALIDCONSTANT (afterSign s).lookAhead.lineNo
        (afterSign s).lookAhead.colNo) (afterSign s)) := by
  have h := compileConstant_eval s
  refine ⟨h, ?_, ?_⟩
  · by_cases hl : (afterSign s).lookAhead.tokenType = TK_NUMBER ∨
        (afterSign s).lookAhead.tokenType = TK_CHAR
    · rw [if_pos hl] at h
      exact ⟨fun _ => hl, fun _ => ⟨_, h⟩⟩
    · rw [if_neg hl] at h
      refine ⟨?_, fun hl2 => absurd hl2 hl⟩
      rintro ⟨s1, hs1⟩
      rw [h] at hs1
      simp at hs1
  · intro hid
    rw [h, if_neg]
    rw [hid]
    decide

/-- C12: on `program P ; var a1 , ... , an : integer ; begin end .` with
`n ≥ 1` identifiers, followed by the end marker, `compileProgram` returns
without an error as soon as the fuel is at least `n + 5`, having consumed every
token up to and including the period, in order; the lookahead is then the end
marker. -/
theorem compileProgram_var_list (n : Nat) (hn : 1 ≤ n) (fuel : Nat)
    (t1 t2 t3 tv : Token) (ids : List Token) (tc ti ts tb te tp eof : Token)
    (h1 : t1.tokenType = KW_PROGRAM) (h2 : t2.tokenType = TK_IDENT)
    (h3 : t3.tokenType = SB_SEMICOLON) (hv : tv.tokenType = KW_VAR)
    (hids : ids.map Token.tokenType = targetKinds n)
    (hc : tc.tokenType = SB_COLON) (hi : ti.tokenType = KW_INTEGER)
    (hs : ts.tokenType = SB_SEMICOLON) (hb : tb.tokenType = KW_BEGIN)
    (he : te.tokenType = KW_END) (hp : tp.tokenType = SB_PERIOD) :
    compileProgram (fuel + n + 5)
        (initialState ⟨[t1, t2, t3, tv] ++ ids ++ [tc, ti, ts, tb, te, tp], eof⟩) =
      .ok () ⟨some tp, eof, ⟨[], eof⟩, [t1, t2, t3, tv] ++ ids ++ [tc, ti, ts, tb, te, tp]⟩ := by
  obtain ⟨m, rfl⟩ : ∃ m, n = m + 1 := ⟨n - 1, by omega⟩
  have hlen : ids.length = 2 * m + 1 := by
    have h := congrArg List.length hids
    rw [List.length_map] at h
    rw [h]
    simp [targetKinds, length_flatten_replicate_pair]
    omega
  have hl : ([t1, t2, t3, tv] ++ ids ++ [tc, ti, ts, tb, te, tp]).length = 5 + (2 * m + 6) := by
    simp [hlen]
    omega
  have hk : ((initialState ⟨[t1, t2, t3, tv] ++ ids ++ [tc, ti, ts, tb, te, tp], eof⟩).upcoming
      (5 + (2 * m + 6))).map Token.tokenType =
      [KW_PROGRAM, TK_IDENT, SB_SEMICOLON, KW_VAR, TK_IDENT] ++
        ((List.replicate m [SB_COMMA, TK_IDENT]).flatten ++
          [SB_COLON, KW_INTEGER, SB_SEMICOLON, KW_BEGIN, KW_END, SB_PERIOD]) := by
    rw [initialState_upcoming, ← hl, List.take_left']
    · simp [hids, targetKinds, h1, h2, h3, hv, hc, hi, hs, hb, he, hp]
    · rfl
  have hrun := compileProgram_varDecl_eval m fuel _ hk
  have hlast : ([t1, t2, t3, tv] ++ ids ++ [tc, ti, ts, tb, te, tp]).getLast? = some tp := by
    have h := @List.getLast?_concat Token tp ([t1, t2, t3, tv] ++ ids ++ [tc, ti, ts, tb, te])
    simpa only [List.append_assoc, List.cons_append, List.nil_append] using h
  rw [show fuel + (m + 1) + 5 = fuel + m + 6 by omega, hrun, ← hl, initialState_skip_all,
    hlast]

/-- An instance of C12: the tokens of `program P; var a, b : integer; begin
end.`, with two identifiers. -/
theorem compileProgram_var_list_witness :
    compileProgram 7 (initialState twoVarsProgram) =
      .ok () ⟨some ⟨SB_PERIOD, none, 4, 4⟩, ⟨TK_EOF, none, 4, 5⟩, ⟨[], ⟨TK_EOF, none, 4, 5⟩⟩,
        twoVarsProgram.pending⟩ :=
  compileProgram_var_list 2 (by decide) 0
    ⟨KW_PROGRAM, none, 1, 1⟩ ⟨TK_IDENT, some "P", 1, 9⟩ ⟨SB_SEMICOLON, none, 1, 10⟩
    ⟨KW_VAR, none, 2, 1⟩
    [⟨TK_IDENT, some "a", 2, 5⟩, ⟨SB_COMMA, none, 2, 6⟩, ⟨TK_IDENT, some "b", 2, 8⟩]
    ⟨SB_COLON, none, 2, 10⟩ ⟨KW_INTEGER, none, 2, 12⟩ ⟨SB_SEMICOLON, none, 2, 19⟩
    ⟨KW_BEGIN, none, 3, 1⟩ ⟨KW_END, none, 4, 1⟩ ⟨SB_PERIOD, none, 4, 4⟩ ⟨TK_EOF, none, 4, 5⟩
    rfl rfl rfl rfl (by decide) rfl rfl rfl rfl rfl rfl

/-- C16: on a chain of `n ≥ 1` number or character literals separated by
`n - 1` operators among `+`, `-`, `*`, `/`, optionally preceded by one sign `+`
or `-`, and followed by a token that is none of these four operators,
`compileExpression` returns without an error as soon as the fuel is at least
`n + 3`. It has then consumed exactly the tokens of the chain, `2 * n - 1` of
them and the sign when there is one (they are what it printed), and the
lookahead is the token that follows the chain. -/
theorem compileExpression_operator_chain (n : Nat) (hn : 1 ≤ n) (fuel : Nat) (s : State)
    (hs : operatorChain (((afterSign s).upcoming (2 * n - 1)).map Token.tokenType) = true)
    (hend : isBinaryOperator ((afterSign s).skip (2 * n - 1)).lookAhead.tokenType = false) :
    compileExpression (fuel + n + 3) s =
      .ok () (s.skip (2 * n - 1 + if isAddOperator s.lookAhead.tokenType = true then 1 else 0)) ∧
    (s.skip (2 * n - 1 + if isAddOperator s.lookAhead.tokenType = true then 1 else 0)).printed =
      s.printed ++
        s.upcoming (2 * n - 1 + if isAddOperator s.lookAhead.tokenType = true then 1 else 0) ∧
    (s.skip (2 * n - 1 + if isAddOperator s.lookAhead.tokenType = true then 1 else 0)).lookAhead =
      s.peek (2 * n - 1 + if isAddOperator s.lookAhead.tokenType = true then 1 else 0) := by
  obtain ⟨k, rfl⟩ : ∃ k, n = k + 1 := ⟨n - 1, by omega⟩
  have e : 2 * (k + 1) - 1 = 2 * k + 1 := by omega
  rw [e] at hs hend ⊢
  refine ⟨?_, State.skip_printed _ s, State.skip_lookAhead _ s⟩
  rw [← afterSign_skip, show fuel + (k + 1) + 3 = fuel + k + 4 by omega]
  exact compileExpression_chain_eval k fuel s hs hend

/-- An instance of C16: the expression `- 1 * 2 + 3` followed by `end`: three
literals and a sign, six tokens. -/
theorem compileExpression_operator_chain_witness :
    operatorChain (((afterSign signedChain).upcoming (2 * 3 - 1)).map Token.tokenType) = true ∧
    isBinaryOperator ((afterSign signedChain).skip (2 * 3 - 1)).lookAhead.tokenType = false ∧
    compileExpression 6 signedChain = .ok () (signedChain.skip 6) ∧
    (signedChain.skip 6).printed = signedChain.printed ++ signedChain.upcoming 6 ∧
    (signedChain.skip 6).lookAhead = ⟨KW_END, none, 3, 1⟩ :=
  ⟨by decide, by decide,
    compileExpression_operator_chain 3 (by decide) 0 signedChain (by decide) (by decide)⟩

/-- C17: the declaration sections of a block are accepted in the order `const`,
`type`, `var` only, each at most once. When `compileBlock` has passed its
optional `const`, `type` and `var` sections, in this order, and the lookahead is
then `const` or `type` (which is the case after a `var` section followed by
`const` or `type`, and after a `type` section followed by `const`), it raises,
given enough fuel, the missing-token event for `begin` with the line and column
of that keyword, in the state in which the sections ended: the section that the
keyword announces is not parsed. -/
theorem compileBlock_section_order (b bc bt bv : State)
    (hc : OptionalSection KW_CONST constSection b bc)
    (ht : OptionalSection KW_TYPE typeSection bc bt)
    (hv : OptionalSection KW_VAR varSection bt bv)
    (hla : bv.lookAhead.tokenType = KW_CONST ∨ bv.lookAhead.tokenType = KW_TYPE) :
    ∃ fuel0, ∀ fuel, fuel0 ≤ fuel →
      compileBlock fuel b =
        .raised (.missingToken KW_BEGIN bv.lookAhead.lineNo bv.lookAhead.colNo) bv := by
  apply compileBlock_no_begin_eval b bc bt bv hc ht hv
  · rcases hla with h | h <;> rw [h] <;> rfl
  · rcases hla with h | h <;> rw [h] <;> decide

/-- An instance of C17: a block that reads `var x : integer; const c = 1; ...`
stops on the `const` with the missing-token event for `begin`. -/
theorem compileBlock_section_order_witness :
    OptionalSection KW_VAR varSection constAfterVar (constAfterVar.skip 5) ∧
    ∃ fuel0, ∀ fuel, fuel0 ≤ fuel →
      compileBlock fuel constAfterVar =
        .raised (.missingToken KW_BEGIN (constAfterVar.skip 5).lookAhead.lineNo
          (constAfterVar.skip 5).lookAhead.colNo) (constAfterVar.skip 5) :=
  ⟨.present _ _ rfl ⟨2, by decide⟩,
    compileBlock_section_order constAfterVar constAfterVar constAfterVar (constAfterVar.skip 5)
      (.absent _ (by decide)) (.absent _ (by decide)) (.present _ _ rfl ⟨2, by decide⟩)
      (Or.inl rfl)⟩

/-- C19: on a finite token sequence ended by an end marker that the source
keeps returning, `compileProgram` terminates: with fuel seven times the number
of tokens, or more, the run does not stop for lack of fuel, it returns or
raises an error. The reason is that every loop and every recursion cycle of the
productions passes through an `eat` that matched, and that an `eat` that
matches a token other than the end marker strictly decreases the number of
tokens that remain. -/
theorem compileProgram_terminates (src : TokenSource)
    (heof : src.endMarker.tokenType = TK_EOF) (fuel : Nat)
    (hfuel : 7 * src.pending.length ≤ fuel) :
    ((∃ s1, compileProgram fuel (initialState src) = .ok () s1) ∨
      (∃ e s1, compileProgram fuel (initialState src) = .raised e s1)) ∧
    (∀ (s s1 : State) (k : TokenType), s.source.endMarker.tokenType = TK_EOF → k ≠ TK_EOF →
      eat k s = .ok () s1 → s1.remaining < s.remaining) := by
  constructor
  · have h := compileProgram_halts src heof fuel hfuel
    cases hr : compileProgram fuel (initialState src) with
    | ok a s1 => exact Or.inl ⟨s1, rfl⟩
    | raised e s1 => exact Or.inr ⟨e, s1, rfl⟩
    | outOfFuel => exact absurd hr h
  · intro s s1 k hs hk hrun
    by_cases hla : s.lookAhead.tokenType = k
    · rw [eat_ok hla] at hrun
      rw [← (Result.ok.inj hrun).2]
      exact State.remaining_advance_lt s hs (by rw [hla]; exact hk)
    · rw [eat_raised hla] at hrun
      simp at hrun

/-- An instance of C19: the six tokens of `program P; begin end.` with fuel
42. -/
theorem compileProgram_terminates_witness :
    ((∃ s1, compileProgram 42 (initialState minimalProgram) = .ok () s1) ∨
      (∃ e s1, compileProgram 42 (initialState minimalProgram) = .raised e s1)) ∧
    (∀ (s s1 : State) (k : TokenType), s.source.endMarker.tokenType = TK_EOF → k ≠ TK_EOF →
      eat k s = .ok () s1 → s1.remaining < s.remaining) :=
  compileProgram_terminates minimalProgram rfl 42 (by decide)

/-- C20: the tokens after the final period are ignored. When `compileProgram`
returns without an error on a token sequence, it has consumed some number `k`
of tokens, the last of which is the period, and on every token sequence that
has the same first `k` tokens, whatever follows them, it returns without an
error with the same fuel, having consumed the same `k` tokens. -/
theorem compileProgram_ignores_rest (fuel : Nat) (src1 src2 : TokenSource) (s1 : State)
    (hrun : compileProgram fuel (initialState src1) = .ok () s1)
    (hsame : (src1.pending ++ List.replicate s1.printed.length src1.endMarker).take
        s1.printed.length =
      (src2.pending ++ List.replicate s1.printed.length src2.endMarker).take
        s1.printed.length) :
    (∃ tp, s1.currentToken = some tp ∧ tp.tokenType = SB_PERIOD) ∧
    ∃ s2, compileProgram fuel (initialState src2) = .ok () s2 ∧ s2.printed = s1.printed := by
  have hk : s1.printed.length - (initialState src1).printed.length = s1.printed.length := by
    simp [initialState]
  obtain ⟨j, hs1, hrun2, hperiod⟩ := compileProgram_prefix_eval fuel (initialState src1)
    (initialState src2) s1 hrun
    (by rw [hk, initialState_upcoming, initialState_upcoming]; exact hsame)
  refine ⟨hperiod, _, hrun2, ?_⟩
  have hlen : s1.printed.length = j + 4 := by
    rw [hs1, State.skip_printed, List.length_append, State.upcoming_length]
    simp [initialState]
  rw [hlen, ← initialState_upcoming, ← initialState_upcoming] at hsame
  rw [hs1, State.skip_printed, State.skip_printed, hsame]
  rfl

/-- An instance of C20: the run on `program P; begin end.` consumes six tokens;
the same run on these six tokens followed by `begin 7 .` consumes the same six
tokens. -/
theorem compileProgram_ignores_rest_witness :
    compileProgram 6 (initialState minimalProgram) =
      .ok () ⟨some ⟨SB_PERIOD, none, 3, 4⟩, ⟨TK_EOF, none, 3, 5⟩, ⟨[], ⟨TK_EOF, none, 3, 5⟩⟩,
        minimalProgram.pending⟩ ∧
    (∃ tp, some (⟨SB_PERIOD, none, 3, 4⟩ : Token) = some tp ∧ tp.tokenType = SB_PERIOD) ∧
    ∃ s2, compileProgram 6 (initialState minimalProgramThenMore) = .ok () s2 ∧
      s2.printed = minimalProgram.pending :=
  ⟨by rfl,
    compileProgram_ignores_rest 6 minimalProgram minimalProgramThenMore
      ⟨some ⟨SB_PERIOD, none, 3, 4⟩, ⟨TK_EOF, none, 3, 5⟩, ⟨[], ⟨TK_EOF, none, 3, 5⟩⟩,
        minimalProgram.pending⟩ (by rfl) (by decide)⟩

/-- C3 (as amended): for `N ≥ 1` target identifiers separated by commas, the
symbol `:=`, and `M ≥ 1` sentences of the nonterminal Expression of the grammar
(the list `es`, of length `M`), separated by commas and followed by a token
whose kind `c` is no comma and does not continue the last expression (`c` is
none of `+`, `-`, `*`, `/`, it is not `[` or `(` when the last expression ends
in an identifier, and not `[` when it ends in `]`), `compileAssignSt`, given
enough fuel, returns without an error if and only if `N = M`. When `N = M` it
returns in the state that follows the last expression; when `N ≠ M` it raises
`ERR_INVALIDSTATEMENT` with the line and column of the lookahead of that state,
the token that follows the last expression, and the state in which the error is
raised is that state: no token beyond the last expression is consumed. -/
theorem compileAssignSt_arity_law (N : Nat) (hN : 1 ≤ N) (es : List (List TokenType))
    (hM : es ≠ []) (hwf : ∀ e ∈ es, Derives .expression e) (c : TokenType)
    (hc : c ≠ SB_COMMA) (hstop : Nonterminal.expression.stops (es.getLast hM) c = true)
    (s : State)
    (hs : s.Reads (targetKinds N ++ SB_ASSIGN :: (commaSeparated es ++ [c]))) :
    ∃ fuel0, ∀ fuel, fuel0 ≤ fuel →
      ((∃ s1, compileAssignSt fuel s = .ok () s1) ↔ N = es.length) ∧
      (N = es.length →
        compileAssignSt fuel s = .ok () (s.skip (2 * N + (commaSeparated es).length))) ∧
      (N ≠ es.length → compileAssignSt fuel s =
        .raised (.error ERR_INVALIDSTATEMENT
          (s.skip (2 * N + (commaSeparated es).length)).lookAhead.lineNo
          (s.skip (2 * N + (commaSeparated es).length)).lookAhead.colNo)
          (s.skip (2 * N + (commaSeparated es).length))) := by
  obtain ⟨fuel0, h⟩ := compileAssignSt_sentences_eval N hN es hM hwf c hc hstop s hs
  refine ⟨fuel0, fun fuel hfuel => ?_⟩
  have hrun := h fuel hfuel
  by_cases hNM : N = es.length
  · have hok : compileAssignSt fuel s =
        .ok () (s.skip (2 * N + (commaSeparated es).length)) := by
      rw [hrun, if_neg (by omega)]
    exact ⟨⟨fun _ => hNM, fun _ => ⟨_, hok⟩⟩, fun _ => hok, fun hne => absurd hNM hne⟩
  · have herr : compileAssignSt fuel s =
        .raised (.error ERR_INVALIDSTATEMENT
          (s.skip (2 * N + (commaSeparated es).length)).lookAhead.lineNo
          (s.skip (2 * N + (commaSeparated es).length)).lookAhead.colNo)
          (s.skip (2 * N + (commaSeparated es).length)) := by
      rw [hrun, if_pos (by omega)]
    refine ⟨⟨?_, fun he => absurd he hNM⟩, fun he => absurd he hNM, fun _ => herr⟩
    rintro ⟨s1, hs1⟩
    rw [herr] at hs1
    simp at hs1

/-- An instance of C3 (as amended): the statement
`x, y := a[1] * 2, - f(3, 4)` followed by `end`, with two targets and two
expressions. -/
theorem compileAssignSt_arity_law_witness :
    twoTargetsTwoValues.Reads (targetKinds 2 ++ SB_ASSIGN ::
      (commaSeparated
        [[TK_IDENT, SB_LSEL, TK_NUMBER, SB_RSEL, SB_TIMES, TK_NUMBER],
         [SB_MINUS, TK_IDENT, SB_LPAR, TK_NUMBER, SB_COMMA, TK_NUMBER, SB_RPAR]] ++
        [KW_END])) ∧
    ∃ fuel0, ∀ fuel, fuel0 ≤ fuel →
      ((∃ s1, compileAssignSt fuel twoTargetsTwoValues = .ok () s1) ↔ 2 = 2) ∧
      (2 = 2 → compileAssignSt fuel twoTargetsTwoValues = .ok () (twoTargetsTwoValues.skip 18)) ∧
      (2 ≠ 2 → compileAssignSt fuel twoTargetsTwoValues =
        .raised (.error ERR_INVALIDSTATEMENT
          (twoTargetsTwoValues.skip 18).lookAhead.lineNo
          (twoTargetsTwoValues.skip 18).lookAhead.colNo) (twoTargetsTwoValues.skip 18)) :=
  ⟨by decide,
    compileAssignSt_arity_law 2 (by decide)
      [[TK_IDENT, SB_LSEL, TK_NUMBER, SB_RSEL, SB_TIMES, TK_NUMBER],
       [SB_MINUS, TK_IDENT, SB_LPAR, TK_NUMBER, SB_COMMA, TK_NUMBER, SB_RPAR]]
      (by decide)
      (by
        intro e he
        simp only [List.mem_cons, List.mem_singleton, List.not_mem_nil, or_false] at he
        rcases he with rfl | rfl
        · exact Derives.indexedProduct
        · exact Derives.signedCall)
      KW_END (by decide) (by decide) twoTargetsTwoValues (by decide)⟩

/-- C3 (counterexample): in `x := 1 + end` there is one target, and one
expression, `1`, a sentence of Expression that is followed by `+`, a token that
is not a comma. With N = M = 1, `compileAssignSt` does not complete: it takes
the `+` for a continuation of the expression and raises `ERR_INVALIDFACTOR` at
the `end` that follows it, so that no fuel makes it return without an
error. -/
theorem compileAssignSt_arity_law_counterexample :
    danglingPlus.Reads
      (targetKinds 1 ++ SB_ASSIGN :: (commaSeparated [[TK_NUMBER]] ++ [SB_PLUS])) ∧
    Derives .expression [TK_NUMBER] ∧
    SB_PLUS ≠ SB_COMMA ∧
    (∀ fuel, 6 ≤ fuel → compileAssignSt fuel danglingPlus =
      .raised (.error ERR_INVALIDFACTOR 4 1) (danglingPlus.skip 4)) ∧
    ¬ ∃ fuel0, ∀ fuel, fuel0 ≤ fuel →
      ((∃ s1, compileAssignSt fuel danglingPlus = .ok () s1) ↔ 1 = 1) := by
  refine ⟨by decide, Derives.numberExpression, by decide,
    compileAssignSt_danglingPlus_eval, ?_⟩
  rintro ⟨fuel0, h⟩
  obtain ⟨s1, hs1⟩ := (h (fuel0 + 6) (by omega)).2 rfl
  rw [compileAssignSt_danglingPlus_eval (fuel0 + 6) (by omega)] at hs1
  simp at hs1

/-- C18: only the first target of an assignment may carry index selectors.
The kinds `first` and `sel` are sentences of the nonterminal Indexes of the
grammar, `sel` with at least one selector. In an assignment whose target number
`j + 1`, with `j ≥ 1`, is immediately followed by the selectors `sel` (the first
target may have selectors, `first`), `compileAssignSt`, given enough fuel,
raises the missing-token event for `:=` with the line and column of the `[`
after that target, having consumed the tokens before it. The same selectors
`sel` placed after the first target of an assignment with `k` further targets
and `k + 1` expressions (sentences of Expression, the last one followed by a
token that is no comma and does not continue it) are consumed by
`compileIndexes` without an error, and the statement returns without an error
in the state that follows the last expression. -/
theorem compileAssignSt_selectors_first_only (j : Nat) (hj : 1 ≤ j)
    (first sel : List TokenType) (hfirst : Derives .indexes first)
    (hsel : Derives .indexes sel) (hne : sel ≠ [])
    (k : Nat) (es : List (List TokenType)) (hM : es ≠ []) (hlen : es.length = k + 1)
    (hwf : ∀ e ∈ es, Derives .expression e)
    (c : TokenType) (hc : c ≠ SB_COMMA)
    (hstop : Nonterminal.expression.stops (es.getLast hM) c = true)
    (s u : State)
    (hs : s.Reads
      (TK_IDENT :: first ++ (List.replicate j [SB_COMMA, TK_IDENT]).flatten ++ sel))
    (hu : u.Reads (TK_IDENT :: sel ++ (List.replicate k [SB_COMMA, TK_IDENT]).flatten ++
      SB_ASSIGN :: (commaSeparated es ++ [c]))) :
    (s.skip (1 + first.length + 2 * j)).lookAhead.tokenType = SB_LSEL ∧
    ∃ fuel0, ∀ fuel, fuel0 ≤ fuel →
      compileAssignSt fuel s =
        .raised (.missingToken SB_ASSIGN
          (s.skip (1 + first.length + 2 * j)).lookAhead.lineNo
          (s.skip (1 + first.length + 2 * j)).lookAhead.colNo)
          (s.skip (1 + first.length + 2 * j)) ∧
      compileIndexes fuel u.advance = .ok () (u.skip (1 + sel.length)) ∧
      compileAssignSt fuel u =
        .ok () (u.skip (1 + sel.length + 2 * k + 1 + (commaSeparated es).length)) := by
  obtain ⟨hpos, fuel1, h1⟩ :=
    compileAssignSt_later_sentence_eval j hj first sel hfirst hsel hne s hs
  obtain ⟨fuel2, h2⟩ :=
    compileAssignSt_first_sentence_eval k sel es hM hlen hsel hwf c hc hstop u hu
  exact ⟨hpos, fuel1 + fuel2, fun fuel hfuel =>
    ⟨h1 fuel (by omega), h2 fuel (by omega)⟩⟩

/-- An instance of C18: `x[0], y[1][2] := 1, 2` stops on the `[` after `y`
with the missing-token event for `:=`, and `x[1][2], y := 1, 2` is accepted. -/
theorem compileAssignSt_selectors_first_only_witness :
    indexedSecondTarget.Reads
      (TK_IDENT :: [SB_LSEL, TK_NUMBER, SB_RSEL] ++
        (List.replicate 1 [SB_COMMA, TK_IDENT]).flatten ++
        [SB_LSEL, TK_NUMBER, SB_RSEL, SB_LSEL, TK_NUMBER, SB_RSEL]) ∧
    indexedFirstTarget.Reads
      (TK_IDENT :: [SB_LSEL, TK_NUMBER, SB_RSEL, SB_LSEL, TK_NUMBER, SB_RSEL] ++
        (List.replicate 1 [SB_COMMA, TK_IDENT]).flatten ++
        SB_ASSIGN :: (commaSeparated [[TK_NUMBER], [TK_NUMBER]] ++ [KW_END])) ∧
    (indexedSecondTarget.skip 6).lookAhead.tokenType = SB_LSEL ∧
    ∃ fuel0, ∀ fuel, fuel0 ≤ fuel →
      compileAssignSt fuel indexedSecondTarget =
        .raised (.missingToken SB_ASSIGN
          (indexedSecondTarget.skip 6).lookAhead.lineNo
          (indexedSecondTarget.skip 6).lookAhead.colNo)
          (indexedSecondTarget.skip 6) ∧
      compileIndexes fuel indexedFirstTarget.advance = .ok () (indexedFirstTarget.skip 7) ∧
      compileAssignSt fuel indexedFirstTarget = .ok () (indexedFirstTarget.skip 13) :=
  ⟨by decide, by decide,
    compileAssignSt_selectors_first_only 1 (by decide)
      [SB_LSEL, TK_NUMBER, SB_RSEL]
      [SB_LSEL, TK_NUMBER, SB_RSEL, SB_LSEL, TK_NUMBER, SB_RSEL]
      Derives.oneSelector Derives.twoSelectors (by decide)
      1 [[TK_NUMBER], [TK_NUMBER]] (by decide) rfl
      (by
        intro e he
        simp only [List.mem_cons, List.mem_singleton, List.not_mem_nil, or_false, or_self] at he
        subst he
        exact Derives.numberExpression)
      KW_END (by decide) (by decide) indexedSecondTarget indexedFirstTarget
      (by decide) (by decide)⟩

end KPL
